import Mathlib

/-!
Verification of the SDDL (Windows Security Descriptor) codec.

This file gives a shallow embedding of the Go package `sddl`:
  - the binary encoders `SID.Binary`, `ACE.Binary`, `ACL.Binary`,
    `SecurityDescriptor.Binary` (src/sddl.go),
  - the binary decoders `parseSIDBinary`, `parseACEBinary`, `parseACLBinary`,
    `ParseSecurityDescriptorBinary`,
  - the SDDL string renderers `SID.String`, `ACE.String`, `ACL.String`,
    `SecurityDescriptor.String` and the access-mask decomposition helpers
    (src/sddl.go),
  - the SDDL string parsers `parseSIDString`, `parseACEString`,
    `parseACLString`, `ParseSecurityDescriptorString` (src/parse_string.go).

Modelling conventions:
  - Go byte slices are `List Nat` holding byte values; machine
    conversions (`uint16(x)`, `byte(x)`, ...) are translated as `% 2^w` at the
    exact points the Go code performs them.
  - Go strings are `List Char` (the SDDL grammar is ASCII, where Go bytes and
    runes coincide).
  - Functions returning `(T, error)` become `Except String T`.  Error message
    strings keep the identifying text of the Go `fmt.Errorf` format strings;
    the interpolated numeric values are omitted.
  - The standard library calls `binary.LittleEndian.Uint16/Uint32/Put...` are
    modelled by their arithmetic specification (`le16get`, `le32get`, `le16`,
    `le32`).
  - `SecurityDescriptor.Binary` has a pointer receiver and assigns
    `sd.Control |= SE_SELF_RELATIVE`; it is modelled as `BinaryFull`, which
    returns the receiver value after the call together with the result.
  - The component-scanning loop of `ParseSecurityDescriptorString` is not
    structurally terminating (and in fact does not terminate on some inputs),
    so it is modelled with an explicit fuel parameter; `none` means the loop
    has not finished within the given fuel.  Four units of fuel are enough for
    every terminating execution, since each fuel-consuming iteration that
    makes progress removes one of the four pending components.
-/

namespace SDDL

/-! ## Basic string and byte utilities -/

/-- Go strings, modelled as lists of (ASCII) characters. -/
abbrev Str := List Char

/-- Byte slices. -/
abbrev Bytes := List Nat

/-- Convert a Lean string literal to the `Str` model. -/
def strL (s : String) : Str := s.toList

/-- `strings.HasPrefix`. -/
def strHasPre : Str → Str → Bool
  | [], _ => true
  | _ :: _, [] => false
  | p :: ps, c :: cs => p = c && strHasPre ps cs

/-- `strings.HasSuffix s suf` (only used with a one-character suffix). -/
def strHasSuf (s suf : Str) : Bool := strHasPre suf.reverse s.reverse

/-- `strings.Index s pat`: index of the first occurrence of `pat` in `s`,
`none` for Go's `-1`. -/
def idxOfSub (pat : Str) : Str → Option Nat
  | [] => if pat = [] then some 0 else none
  | c :: rest =>
    if strHasPre pat (c :: rest) then some 0
    else (idxOfSub pat rest).map (· + 1)

/-- `strings.Contains s pat`. -/
def strContains (s pat : Str) : Bool := (idxOfSub pat s).isSome

/-- `strings.Split s sep` for a one-character separator. -/
def splitOnChar (sep : Char) : Str → List Str
  | [] => [[]]
  | c :: rest =>
    if c = sep then [] :: splitOnChar sep rest
    else
      match splitOnChar sep rest with
      | [] => [[c]]
      | t :: ts => (c :: t) :: ts

/-- `unicode/utf8`-free ASCII lowering of one character (`strings.ToLower`). -/
def charLower (c : Char) : Char :=
  if 'A' ≤ c ∧ c ≤ 'Z' then Char.ofNat (c.toNat + 32) else c

/-- `strings.ToLower`. -/
def strToLower (s : Str) : Str := s.map charLower

/-! ### Decimal and hexadecimal numerals -/

/-- Decimal digit character for `d < 10`. -/
def decDigitChar (d : Nat) : Char := Char.ofNat (48 + d)

/-- Lowercase hexadecimal digit character for `d < 16`. -/
def hexDigitChar (d : Nat) : Char :=
  if d < 10 then Char.ofNat (48 + d) else Char.ofNat (87 + d)

/-- Uppercase hexadecimal digit character for `d < 16`. -/
def hexDigitCharUpper (d : Nat) : Char :=
  if d < 10 then Char.ofNat (48 + d) else Char.ofNat (55 + d)

/-- Digit recursion of `strconv.FormatUint`, made structural on a fuel
argument so that closed terms reduce; `n ≤ fuel` always holds at call
sites, and then the fuel never runs out (each step divides `n` by the
base, which strictly shrinks it). -/
def natDecDigitsAux : Nat → Nat → Str
  | 0, _ => []
  | _ + 1, 0 => []
  | fuel + 1, n + 1 =>
    natDecDigitsAux fuel ((n + 1) / 10) ++ [decDigitChar ((n + 1) % 10)]

/-- Decimal digits (most significant first) of a positive number, empty for
`0`. -/
def natDecDigits (n : Nat) : Str := natDecDigitsAux n n

/-- Fuel-driven hexadecimal digit recursion, as for `natDecDigitsAux`. -/
def natHexDigitsAux (dig : Nat → Char) : Nat → Nat → Str
  | 0, _ => []
  | _ + 1, 0 => []
  | fuel + 1, n + 1 =>
    natHexDigitsAux dig fuel ((n + 1) / 16) ++ [dig ((n + 1) % 16)]

/-- Hexadecimal digits (most significant first) of a positive number, using
the digit renderer `dig`; empty for `0`. -/
def natHexDigits (dig : Nat → Char) (n : Nat) : Str :=
  natHexDigitsAux dig n n

/-- `fmt.Sprintf "%d"`. -/
def natToDec (n : Nat) : Str :=
  if n = 0 then ['0'] else natDecDigits n

/-- `fmt.Sprintf "%x"` (lowercase, no padding). -/
def natToHex (n : Nat) : Str :=
  if n = 0 then ['0'] else natHexDigits hexDigitChar n

/-- `fmt.Sprintf "%0*X"`: uppercase hexadecimal, zero-padded to `w` digits. -/
def natToHexUpperPad (w n : Nat) : Str :=
  let ds := if n = 0 then ['0'] else natHexDigits hexDigitCharUpper n
  List.replicate (w - ds.length) '0' ++ ds

/-- Numeric value of a decimal digit character. -/
def decDigitVal (c : Char) : Option Nat :=
  if '0' ≤ c ∧ c ≤ '9' then some (c.toNat - 48) else none

/-- Numeric value of a hexadecimal digit character (either case). -/
def hexDigitVal (c : Char) : Option Nat :=
  if '0' ≤ c ∧ c ≤ '9' then some (c.toNat - 48)
  else if 'a' ≤ c ∧ c ≤ 'f' then some (c.toNat - 87)
  else if 'A' ≤ c ∧ c ≤ 'F' then some (c.toNat - 55)
  else none

/-- Accumulating digit evaluation. -/
def digitsVal (dv : Char → Option Nat) (base : Nat) : Str → Nat → Option Nat
  | [], acc => some acc
  | c :: rest, acc =>
    match dv c with
    | none => none
    | some d => digitsVal dv base rest (acc * base + d)

/-- `strconv.ParseUint s base bitSize`: `none` on empty input, on any
non-digit, and on overflow of `bitSize` bits. -/
def parseUint (dv : Char → Option Nat) (base bitSize : Nat) (s : Str) :
    Option Nat :=
  if s = [] then none
  else
    match digitsVal dv base s 0 with
    | none => none
    | some v => if v < 2 ^ bitSize then some v else none

/-- `strconv.ParseUint s 10 bitSize`. -/
def parseUintDec (bitSize : Nat) (s : Str) : Option Nat :=
  parseUint decDigitVal 10 bitSize s

/-- `strconv.ParseUint s 16 bitSize`. -/
def parseUintHex (bitSize : Nat) (s : Str) : Option Nat :=
  parseUint hexDigitVal 16 bitSize s

/-! ### Little-endian byte marshalling (`encoding/binary`) -/

/-- `binary.LittleEndian.PutUint16`. -/
def le16 (v : Nat) : Bytes := [v % 256, v / 256 % 256]

/-- `binary.LittleEndian.PutUint32`. -/
def le32 (v : Nat) : Bytes :=
  [v % 256, v / 256 % 256, v / 65536 % 256, v / 16777216 % 256]

/-- `binary.LittleEndian.Uint16`. -/
def le16get (b0 b1 : Nat) : Nat := b0 + b1 * 256

/-- `binary.LittleEndian.Uint32`. -/
def le32get (b0 b1 b2 b3 : Nat) : Nat :=
  b0 + b1 * 256 + b2 * 65536 + b3 * 16777216

/-! ## Control-flag and ACE constants (src/sddl.go) -/

def SE_OWNER_DEFAULTED : Nat := 0x0001
def SE_GROUP_DEFAULTED : Nat := 0x0002
def SE_DACL_PRESENT : Nat := 0x0004
def SE_DACL_DEFAULTED : Nat := 0x0008
def SE_SACL_PRESENT : Nat := 0x0010
def SE_SACL_DEFAULTED : Nat := 0x0020
def SE_DACL_AUTO_INHERIT_RE : Nat := 0x0100
def SE_SACL_AUTO_INHERIT_RE : Nat := 0x0200
def SE_DACL_AUTO_INHERITED : Nat := 0x0400
def SE_SACL_AUTO_INHERITED : Nat := 0x0800
def SE_DACL_PROTECTED : Nat := 0x1000
def SE_SACL_PROTECTED : Nat := 0x2000
def SE_SELF_RELATIVE : Nat := 0x8000

def ACCESS_ALLOWED_ACE_TYPE : Nat := 0x0
def ACCESS_DENIED_ACE_TYPE : Nat := 0x1
def SYSTEM_AUDIT_ACE_TYPE : Nat := 0x2
def SYSTEM_ALARM_ACE_TYPE : Nat := 0x3
def ACCESS_ALLOWED_OBJECT_ACE_TYPE : Nat := 0x5

def OBJECT_INHERIT_ACE : Nat := 0x01
def CONTAINER_INHERIT_ACE : Nat := 0x02
def NO_PROPAGATE_INHERIT_ACE : Nat := 0x04
def INHERIT_ONLY_ACE : Nat := 0x08
def INHERITED_ACE : Nat := 0x10
def SUCCESSFUL_ACCESS_ACE : Nat := 0x40
def FAILED_ACCESS_ACE : Nat := 0x80

/-! ## Data model (src/sddl.go) -/

/-- Windows Security Identifier. -/
structure SID where
  Revision : Nat
  IdentifierAuthority : Nat
  SubAuthority : List Nat
deriving DecidableEq, Repr

/-- ACE header. -/
structure ACEHeader where
  AceType : Nat
  AceFlags : Nat
  AceSize : Nat
deriving DecidableEq, Repr

/-- Access Control Entry.  The Go struct holds pointers to the header and the
SID; the encoder rejects nil pointers up front, so the embedding uses plain
fields. -/
structure ACE where
  Header : ACEHeader
  AccessMask : Nat
  SID : SID
deriving DecidableEq, Repr

/-- Access Control List. -/
structure ACL where
  AclRevision : Nat
  Sbzl : Nat
  AclSize : Nat
  AceCount : Nat
  Sbz2 : Nat
  AclType : Str
  Control : Nat
  ACEs : List ACE
deriving DecidableEq, Repr

/-- Security descriptor; the four trailing fields are `nil`-able pointers in
Go, modelled with `Option`. -/
structure SecurityDescriptor where
  Revision : Nat
  Sbzl : Nat
  Control : Nat
  OwnerOffset : Nat
  GroupOffset : Nat
  SaclOffset : Nat
  DaclOffset : Nat
  OwnerSID : Option SID
  GroupSID : Option SID
  SACL : Option ACL
  DACL : Option ACL
deriving DecidableEq, Repr

/-! ## Binary encoders (src/sddl.go) -/

/-- `SID.Binary` (src/sddl.go lines 623-673).  The 6-byte big-endian authority
loop `result[i] = byte(auth & 0xFF); auth >>= 8` for `i = 7..2` produces the
bytes below; the sub-authorities are written little-endian. -/
def SID.Binary (s : SID) : Except String Bytes :=
  if s.Revision ≠ 1 then
    .error "invalid SID format: revision must be 1"
  else if s.SubAuthority.length > 15 then
    .error "too many sub-authorities: maximum is 15"
  else if s.IdentifierAuthority ≥ 2 ^ 48 then
    .error "invalid authority value: exceeds maximum of 2^48-1"
  else
    .ok ([s.Revision, s.SubAuthority.length % 256,
          (s.IdentifierAuthority >>> 40) &&& 255,
          (s.IdentifierAuthority >>> 32) &&& 255,
          (s.IdentifierAuthority >>> 24) &&& 255,
          (s.IdentifierAuthority >>> 16) &&& 255,
          (s.IdentifierAuthority >>> 8) &&& 255,
          s.IdentifierAuthority &&& 255] ++
         (s.SubAuthority.map le32).flatten)

/-- `ACE.Binary` (src/sddl.go lines 184-229). -/
def ACE.Binary (e : ACE) : Except String Bytes :=
  match e.SID.Binary with
  | .error err => .error ("error converting SID to binary: " ++ err)
  | .ok sidBinary =>
    let aceSize := 4 + 4 + sidBinary.length
    if aceSize > 65535 then
      .error "ACE size exceeds maximum size of 65535 bytes"
    else if aceSize % 65536 ≠ e.Header.AceSize then
      .error "calculated ACE size doesn't match header size"
    else
      .ok ([e.Header.AceType, e.Header.AceFlags] ++ le16 aceSize ++
           le32 e.AccessMask ++ sidBinary)

/-- Serialize the ACE list of an ACL in order (loop body of `ACL.Binary`). -/
def serializeACEList : List ACE → Except String (List Bytes)
  | [] => .ok []
  | e :: rest =>
    match e.Binary with
    | .error err => .error ("error converting ACE to binary: " ++ err)
    | .ok b =>
      match serializeACEList rest with
      | .error err => .error err
      | .ok bs => .ok (b :: bs)

/-- `ACL.Binary` (src/sddl.go lines 326-381). -/
def ACL.Binary (a : ACL) : Except String Bytes :=
  match serializeACEList a.ACEs with
  | .error err => .error err
  | .ok aceBinaries =>
    let totalAceSize := (aceBinaries.map List.length).sum
    let aclSize := 8 + totalAceSize
    if aclSize > 65535 then
      .error "ACL size exceeds maximum size of 65535 bytes"
    else if aclSize % 65536 ≠ a.AclSize then
      .error "calculated ACL size doesn't match header size"
    else if a.ACEs.length % 65536 ≠ a.AceCount then
      .error "actual ACE count doesn't match header count"
    else
      .ok ([a.AclRevision, a.Sbzl] ++ le16 aclSize ++
           le16 (a.ACEs.length % 65536) ++ le16 a.Sbz2 ++ aceBinaries.flatten)

/-- Length of an optional component binary (0 for an absent component). -/
def optLen (b : Option Bytes) : Nat :=
  match b with
  | none => 0
  | some x => x.length

/-- Bytes of an optional component binary. -/
def optBytes (b : Option Bytes) : Bytes :=
  match b with
  | none => []
  | some x => x

/-- Serialize an optional SID component with a wrapped error message. -/
def binSIDOpt (msg : String) : Option SID → Except String (Option Bytes)
  | none => .ok none
  | some s =>
    match s.Binary with
    | .error err => .error (msg ++ err)
    | .ok b => .ok (some b)

/-- The SACL serialization step of `SecurityDescriptor.Binary`: the
`SE_SACL_PRESENT` bit and the `SACL` field must agree exactly. -/
def binSACLOpt (sd : SecurityDescriptor) : Except String (Option Bytes) :=
  match sd.SACL with
  | some sacl =>
    if sd.Control &&& SE_SACL_PRESENT = 0 then
      .error "SACL present but SE_SACL_PRESENT flag not set"
    else
      match sacl.Binary with
      | .error err => .error ("error converting SACL to binary: " ++ err)
      | .ok b => .ok (some b)
  | none =>
    if sd.Control &&& SE_SACL_PRESENT ≠ 0 then
      .error "SE_SACL_PRESENT flag set but SACL is nil"
    else .ok none

/-- The DACL serialization step of `SecurityDescriptor.Binary`: the
`SE_DACL_PRESENT` bit and the `DACL` field must agree exactly. -/
def binDACLOpt (sd : SecurityDescriptor) : Except String (Option Bytes) :=
  match sd.DACL with
  | some dacl =>
    if sd.Control &&& SE_DACL_PRESENT = 0 then
      .error "DACL present but SE_DACL_PRESENT flag not set"
    else
      match dacl.Binary with
      | .error err => .error ("error converting DACL to binary: " ++ err)
      | .ok b => .ok (some b)
  | none =>
    if sd.Control &&& SE_DACL_PRESENT ≠ 0 then
      .error "SE_DACL_PRESENT flag set but DACL is nil"
    else .ok none

/-- The offset back-patched for an optional component: its position `k` when
the component was serialized, 0 when it is absent (the offset field of an
absent component keeps its zero initialization). -/
def offsIfPresent (b : Option Bytes) (k : Nat) : Nat :=
  match b with
  | none => 0
  | some _ => k

/-- The body of `SecurityDescriptor.Binary` (src/sddl.go lines 464-561),
run after the receiver's `Control` has been updated with `SE_SELF_RELATIVE`.
Components are laid out owner, group, SACL, DACL starting at offset 20, and
the four offset fields are back-patched to the actual positions (0 when the
component is absent). -/
def SecurityDescriptor.binaryBody (sd : SecurityDescriptor) :
    Except String Bytes :=
  match binSIDOpt "error converting Owner SID to binary: " sd.OwnerSID with
  | .error err => .error err
  | .ok ownerBinary =>
  match binSIDOpt "error converting Group SID to binary: " sd.GroupSID with
  | .error err => .error err
  | .ok groupBinary =>
  match binSACLOpt sd with
  | .error err => .error err
  | .ok saclBinary =>
  match binDACLOpt sd with
  | .error err => .error err
  | .ok daclBinary =>
    let ownerOffs := offsIfPresent ownerBinary 20
    let groupOffs := offsIfPresent groupBinary (20 + optLen ownerBinary)
    let saclOffs := offsIfPresent saclBinary
      (20 + optLen ownerBinary + optLen groupBinary)
    let daclOffs := offsIfPresent daclBinary
      (20 + optLen ownerBinary + optLen groupBinary + optLen saclBinary)
    .ok ([sd.Revision, sd.Sbzl] ++ le16 sd.Control ++
         le32 (ownerOffs % 4294967296) ++ le32 (groupOffs % 4294967296) ++
         le32 (saclOffs % 4294967296) ++ le32 (daclOffs % 4294967296) ++
         optBytes ownerBinary ++ optBytes groupBinary ++
         optBytes saclBinary ++ optBytes daclBinary)

/-- `SecurityDescriptor.Binary` with its receiver mutation made explicit:
the Go method first executes `sd.Control |= SE_SELF_RELATIVE` through the
pointer receiver and then serializes.  The first component of the result is
the receiver value after the call. -/
def SecurityDescriptor.BinaryFull (sd0 : SecurityDescriptor) :
    SecurityDescriptor × Except String Bytes :=
  let sd := { sd0 with Control := sd0.Control ||| SE_SELF_RELATIVE }
  (sd, sd.binaryBody)

/-- The byte result of `SecurityDescriptor.Binary`. -/
def SecurityDescriptor.Binary (sd : SecurityDescriptor) :
    Except String Bytes :=
  (sd.BinaryFull).2

/-! ## Binary decoders (src/unnamed/part_001) -/

/-- `parseSIDBinary` (src/unnamed/part_001 lines 874-914).  The authority is
accumulated as `authority = authority<<8 | uint64(data[i])` over bytes 2-7. -/
def parseSIDBinary (data : Bytes) : Except String SID :=
  if data.length < 8 then
    .error "invalid SID: it must be at least 8 bytes long"
  else
    let revision := data.getD 0 0
    let subAuthorityCount := data.getD 1 0
    let neededLen := 8 + 4 * subAuthorityCount
    if data.length < neededLen then
      .error "invalid SID: truncated data"
    else if subAuthorityCount > 15 then
      .error "invalid SID: too many sub-authorities, maximum is 15"
    else if data.length < 8 + 4 * subAuthorityCount then
      .error "invalid SID: data too short for sub-authority count"
    else
      let authority :=
        [2, 3, 4, 5, 6, 7].foldl (fun acc i => (acc <<< 8) ||| data.getD i 0) 0
      let subAuthorities :=
        (List.range subAuthorityCount).map (fun i =>
          le32get (data.getD (8 + 4 * i) 0) (data.getD (8 + 4 * i + 1) 0)
            (data.getD (8 + 4 * i + 2) 0) (data.getD (8 + 4 * i + 3) 0))
      .ok ⟨revision, authority, subAuthorities⟩

/-- `parseACEBinary` (src/unnamed/part_001 lines 444-475).  Note
`dataLen := uint16(len(data))`: the available length is reduced modulo 2^16
before both length checks. -/
def parseACEBinary (data : Bytes) : Except String ACE :=
  let dataLen := data.length % 65536
  if dataLen < 16 then
    .error "invalid ACE: too short, need at least 16 bytes"
  else
    let aceType := data.getD 0 0
    let aceFlags := data.getD 1 0
    let aceSize := le16get (data.getD 2 0) (data.getD 3 0)
    if dataLen < aceSize then
      .error "invalid ACE: data length doesn't match ACE size"
    else
      let accessMask :=
        le32get (data.getD 4 0) (data.getD 5 0) (data.getD 6 0) (data.getD 7 0)
      match parseSIDBinary (data.drop 8) with
      | .error err => .error ("error parsing ACE SID: " ++ err)
      | .ok sid => .ok ⟨⟨aceType, aceFlags, aceSize⟩, accessMask, sid⟩

/-- The ACE loop of `parseACLBinary`: runs exactly `count` iterations; the
cursor `offset` is a `uint16` in Go, so it advances modulo 2^16. -/
def parseACEListLoop (data : Bytes) (aclSize : Nat) :
    Nat → Nat → Except String (List ACE)
  | 0, _ => .ok []
  | count + 1, offs =>
    if offs ≥ aclSize then
      .error "invalid ACL: offset is bigger than AclSize"
    else
      match parseACEBinary (data.drop offs) with
      | .error err => .error ("error parsing ACE: " ++ err)
      | .ok ace =>
        match parseACEListLoop data aclSize count
            ((offs + ace.Header.AceSize) % 65536) with
        | .error err => .error err
        | .ok aces => .ok (ace :: aces)

/-- `parseACLBinary` (src/unnamed/part_001 lines 568-608).  `aclType` and
`control` are supplied by the caller.  `dataLength := uint16(len(data))` is
only compared against 8. -/
def parseACLBinary (data : Bytes) (aclType : Str) (control : Nat) :
    Except String ACL :=
  if data.length % 65536 < 8 then
    .error "invalid ACL: too short"
  else
    let aclRevision := data.getD 0 0
    let sbzl := data.getD 1 0
    let aclSize := le16get (data.getD 2 0) (data.getD 3 0)
    let aceCount := le16get (data.getD 4 0) (data.getD 5 0)
    let sbz2 := le16get (data.getD 6 0) (data.getD 7 0)
    match parseACEListLoop data aclSize aceCount 8 with
    | .error err => .error err
    | .ok aces =>
      .ok ⟨aclRevision, sbzl, aclSize, aceCount, sbz2, aclType, control, aces⟩

/-- One optional SID component of the binary security descriptor parse:
parsed at its offset when the offset is non-zero, absent otherwise. -/
def parseSDSIDComp (data : Bytes) (offs : Nat) (msg : String) :
    Except String (Option SID) :=
  if offs > 0 then
    match parseSIDBinary (data.drop offs) with
    | .error err => .error (msg ++ err)
    | .ok sid => .ok (some sid)
  else .ok none

/-- One optional ACL component of the binary security descriptor parse. -/
def parseSDACLComp (data : Bytes) (offs : Nat) (typ : Str) (control : Nat)
    (msg : String) : Except String (Option ACL) :=
  if offs > 0 then
    match parseACLBinary (data.drop offs) typ control with
    | .error err => .error (msg ++ err)
    | .ok acl => .ok (some acl)
  else .ok none

/-- `ParseSecurityDescriptorBinary` (src/unnamed/part_001 lines 342-422).
`dataLen := uint32(len(data))`.  Presence of every component is decided by
its offset being non-zero; the control bits are not consulted.  The DACL is
parsed before the SACL, as in the source. -/
def ParseSecurityDescriptorBinary (data : Bytes) :
    Except String SecurityDescriptor :=
  let dataLen := data.length % 4294967296
  if dataLen < 20 then
    .error "invalid security descriptor: it must be 20 bytes length at minimum"
  else
    let revision := data.getD 0 0
    let sbzl := data.getD 1 0
    let control := le16get (data.getD 2 0) (data.getD 3 0)
    let ownerOffset :=
      le32get (data.getD 4 0) (data.getD 5 0) (data.getD 6 0) (data.getD 7 0)
    let groupOffset :=
      le32get (data.getD 8 0) (data.getD 9 0) (data.getD 10 0) (data.getD 11 0)
    let saclOffset :=
      le32get (data.getD 12 0) (data.getD 13 0) (data.getD 14 0)
        (data.getD 15 0)
    let daclOffset :=
      le32get (data.getD 16 0) (data.getD 17 0) (data.getD 18 0)
        (data.getD 19 0)
    if ownerOffset > 0 ∧ ownerOffset ≥ dataLen then
      .error "invalid security descriptor: Owner offset exceeds data length"
    else if groupOffset > 0 ∧ groupOffset ≥ dataLen then
      .error "invalid security descriptor: Group offset exceeds data length"
    else if saclOffset > 0 ∧ saclOffset ≥ dataLen then
      .error "invalid security descriptor: SACL offset exceeds data length"
    else if daclOffset > 0 ∧ daclOffset ≥ dataLen then
      .error "invalid security descriptor: DACL offset exceeds data length"
    else
      match parseSDSIDComp data ownerOffset "error parsing owner SID: " with
      | .error err => .error err
      | .ok ownerSID =>
      match parseSDSIDComp data groupOffset "error parsing group SID: " with
      | .error err => .error err
      | .ok groupSID =>
      match parseSDACLComp data daclOffset ['D'] control
          "error parsing DACL: " with
      | .error err => .error err
      | .ok dacl =>
      match parseSDACLComp data saclOffset ['S'] control
          "error parsing SACL: " with
      | .error err => .error err
      | .ok sacl =>
        .ok ⟨revision, sbzl, control, ownerOffset, groupOffset, saclOffset,
             daclOffset, ownerSID, groupSID, sacl, dacl⟩

/-! ## Well-known tables (src/sddl.go) -/

/-- `wellKnownSids`: canonical SID string → short alias. -/
def wellKnownSids : List (Str × Str) :=
  [(strL "S-1-0-0", strL "NULL"),
   (strL "S-1-1-0", strL "WD"),
   (strL "S-1-2-0", strL "LG"),
   (strL "S-1-3-0", strL "CC"),
   (strL "S-1-3-1", strL "CO"),
   (strL "S-1-3-2", strL "CG"),
   (strL "S-1-3-3", strL "OW"),
   (strL "S-1-5-1", strL "DU"),
   (strL "S-1-5-2", strL "AN"),
   (strL "S-1-5-3", strL "BT"),
   (strL "S-1-5-4", strL "IU"),
   (strL "S-1-5-6", strL "SU"),
   (strL "S-1-5-7", strL "AS"),
   (strL "S-1-5-8", strL "PS"),
   (strL "S-1-5-9", strL "ED"),
   (strL "S-1-5-10", strL "SS"),
   (strL "S-1-5-11", strL "AU"),
   (strL "S-1-5-12", strL "RC"),
   (strL "S-1-5-18", strL "SY"),
   (strL "S-1-5-32-544", strL "BA"),
   (strL "S-1-5-32-545", strL "BU"),
   (strL "S-1-5-32-546", strL "BG"),
   (strL "S-1-5-32-547", strL "PU"),
   (strL "S-1-5-32-548", strL "AO"),
   (strL "S-1-5-32-549", strL "SO"),
   (strL "S-1-5-32-550", strL "PO"),
   (strL "S-1-5-32-551", strL "BO"),
   (strL "S-1-5-32-552", strL "RE"),
   (strL "S-1-5-32-554", strL "RU"),
   (strL "S-1-5-32-555", strL "RD"),
   (strL "S-1-5-32-556", strL "NO"),
   (strL "S-1-5-64-10", strL "AA"),
   (strL "S-1-5-64-14", strL "RA"),
   (strL "S-1-5-64-21", strL "OA")]

/-- Forward lookup of `wellKnownSids` (canonical string → alias). -/
def sidAliasOf (s : Str) : Option Str :=
  (wellKnownSids.find? (fun p => p.1 = s)).map (·.2)

/-- `reverseWellKnownSids` lookup (alias → canonical string); well defined
because the alias values of `wellKnownSids` are pairwise distinct. -/
def sidOfAlias (a : Str) : Option Str :=
  (wellKnownSids.find? (fun p => p.2 = a)).map (·.1)

/-- `wellKnownAccessMasks` (src/sddl.go lines 128-133): composite mask →
alias. -/
def wellKnownAccessMasks : List (Nat × Str) :=
  [(0x001f01ff, strL "FA"),
   (0x00120089, strL "FR"),
   (0x00120116, strL "FW"),
   (0x001200a0, strL "FX")]

/-- Forward lookup of `wellKnownAccessMasks`. -/
def maskAliasOf (m : Nat) : Option Str :=
  (wellKnownAccessMasks.find? (fun p => p.1 = m)).map (·.2)

/-- `reverseWellKnownAccessMasks` lookup (alias → mask). -/
def maskOfAlias (a : Str) : Option Nat :=
  (wellKnownAccessMasks.find? (fun p => p.2 = a)).map (·.1)

/-- `accessMaskComponents` (src/sddl.go lines 97-125) in source order:
permission code → single-bit value. -/
def accessMaskComponents : List (Str × Nat) :=
  [(strL "GA", 0x10000000),
   (strL "GX", 0x20000000),
   (strL "GW", 0x40000000),
   (strL "GR", 0x80000000),
   (strL "MA", 0x02000000),
   (strL "AS", 0x01000000),
   (strL "SY", 0x00100000),
   (strL "WO", 0x00080000),
   (strL "WD", 0x00040000),
   (strL "RC", 0x00020000),
   (strL "SD", 0x00010000),
   (strL "CR", 0x00000100),
   (strL "LO", 0x00000080),
   (strL "DT", 0x00000040),
   (strL "WP", 0x00000020),
   (strL "RP", 0x00000010),
   (strL "SW", 0x00000008),
   (strL "LC", 0x00000004),
   (strL "DC", 0x00000002),
   (strL "CC", 0x00000001)]

/-- Lookup a permission code in `accessMaskComponents`. -/
def componentValOf (code : Str) : Option Nat :=
  (accessMaskComponents.find? (fun p => p.1 = code)).map (·.2)

/-- The reversed component map `reversedAccessMaskComponents`, traversed by
`decomposeAccessMask` over its keys sorted ascending: bit value → code. -/
def orderedComponents : List (Nat × Str) :=
  [(0x00000001, strL "CC"),
   (0x00000002, strL "DC"),
   (0x00000004, strL "LC"),
   (0x00000008, strL "SW"),
   (0x00000010, strL "RP"),
   (0x00000020, strL "WP"),
   (0x00000040, strL "DT"),
   (0x00000080, strL "LO"),
   (0x00000100, strL "CR"),
   (0x00010000, strL "SD"),
   (0x00020000, strL "RC"),
   (0x00040000, strL "WD"),
   (0x00080000, strL "WO"),
   (0x00100000, strL "SY"),
   (0x01000000, strL "AS"),
   (0x02000000, strL "MA"),
   (0x10000000, strL "GA"),
   (0x20000000, strL "GX"),
   (0x40000000, strL "GW"),
   (0x80000000, strL "GR")]

/-- The loop of `decomposeAccessMask` (src/sddl.go lines 718-733) over the
ascending component table: collect each component contained in the mask and
clear its bit. -/
def decompAux : List (Nat × Str) → Nat → List Str × Nat
  | [], m => ([], m)
  | (v, nm) :: rest, m =>
    if m &&& v = v then
      let r := decompAux rest (m ^^^ v)
      (nm :: r.1, r.2)
    else decompAux rest m

/-- `decomposeAccessMask`: components in ascending bit order, plus the part
of the mask not covered by any known component. -/
def decomposeAccessMask (m : Nat) : List Str × Nat :=
  decompAux orderedComponents m

/-- `composeAccessMask` (src/sddl.go lines 737-748): OR the values of the
known codes, collect unknown codes in order. -/
def composeAccessMask (components : List Str) : Nat × List Str :=
  components.foldl
    (fun acc code =>
      match componentValOf code with
      | some v => (acc.1 ||| v, acc.2)
      | none => (acc.1, acc.2 ++ [code]))
    (0, [])

/-! ## SDDL string renderers (src/sddl.go `String` methods) -/

/-- `SID.String` (src/sddl.go lines 682-714). -/
def SID.render (s : SID) : Except String Str :=
  if s.IdentifierAuthority ≥ 2 ^ 48 then
    .error "invalid authority value: exceeds maximum of 2^48-1"
  else if s.SubAuthority.length > 15 then
    .error "too many sub-authorities: maximum is 15"
  else if s.Revision ≠ 1 then
    .error "invalid SID format: revision must be 1"
  else
    let authority :=
      if s.IdentifierAuthority ≥ 2 ^ 32 then
        '0' :: 'x' :: natToHex s.IdentifierAuthority
      else natToDec s.IdentifierAuthority
    let sidStr :=
      'S' :: '-' :: natToDec s.Revision ++ '-' :: authority ++
      (s.SubAuthority.map (fun sa => '-' :: natToDec sa)).flatten
    match sidAliasOf sidStr with
    | some wk => .ok wk
    | none => .ok sidStr

/-- The ACE-type field rendering of `ACE.String`. -/
def aceTypeString (t : Nat) : Str :=
  if t = ACCESS_ALLOWED_ACE_TYPE then ['A']
  else if t = ACCESS_DENIED_ACE_TYPE then ['D']
  else if t = SYSTEM_AUDIT_ACE_TYPE then ['A', 'U']
  else '0' :: 'x' :: natToHexUpperPad 2 t

/-- The flags field rendering of `ACE.String`: audit bits first (only for
audit ACEs), then OI, CI, IO, ID.  `NO_PROPAGATE_INHERIT_ACE` is never
rendered. -/
def aceFlagsString (t f : Nat) : Str :=
  (if t = SYSTEM_AUDIT_ACE_TYPE then
    (if f &&& SUCCESSFUL_ACCESS_ACE ≠ 0 then strL "SA" else []) ++
    (if f &&& FAILED_ACCESS_ACE ≠ 0 then strL "FA" else [])
  else []) ++
  (if f &&& OBJECT_INHERIT_ACE ≠ 0 then strL "OI" else []) ++
  (if f &&& CONTAINER_INHERIT_ACE ≠ 0 then strL "CI" else []) ++
  (if f &&& INHERIT_ONLY_ACE ≠ 0 then strL "IO" else []) ++
  (if f &&& INHERITED_ACE ≠ 0 then strL "ID" else [])

/-- The access-mask field rendering of `ACE.String` (src/sddl.go lines
275-285): exact alias, else joined decomposition, overridden by an 8-digit
uppercase hex literal when the decomposition leaves bits over. -/
def aceMaskString (m : Nat) : Str :=
  match maskAliasOf m with
  | some v => v
  | none =>
    let r := decomposeAccessMask m
    if r.2 ≠ 0 then '0' :: 'x' :: natToHexUpperPad 8 m else r.1.flatten

/-- `ACE.String` (src/sddl.go lines 232-293). -/
def ACE.render (e : ACE) : Except String Str :=
  match e.SID.render with
  | .error err => .error err
  | .ok sidStr =>
    .ok ('(' :: aceTypeString e.Header.AceType ++
         ';' :: aceFlagsString e.Header.AceType e.Header.AceFlags ++
         ';' :: aceMaskString e.AccessMask ++
         ';' :: ';' :: ';' :: sidStr ++ [')'])

/-- The flag rendering of `ACL.String`: P, AI, AR, R in that order, from the
control bits matching the ACL type. -/
def aclFlagsString (a : ACL) : Str :=
  if a.AclType = ['D'] then
    (if a.Control &&& SE_DACL_PROTECTED ≠ 0 then strL "P" else []) ++
    (if a.Control &&& SE_DACL_AUTO_INHERITED ≠ 0 then strL "AI" else []) ++
    (if a.Control &&& SE_DACL_AUTO_INHERIT_RE ≠ 0 then strL "AR" else []) ++
    (if a.Control &&& SE_DACL_DEFAULTED ≠ 0 then strL "R" else [])
  else if a.AclType = ['S'] then
    (if a.Control &&& SE_SACL_PROTECTED ≠ 0 then strL "P" else []) ++
    (if a.Control &&& SE_SACL_AUTO_INHERITED ≠ 0 then strL "AI" else []) ++
    (if a.Control &&& SE_SACL_AUTO_INHERIT_RE ≠ 0 then strL "AR" else []) ++
    (if a.Control &&& SE_SACL_DEFAULTED ≠ 0 then strL "R" else [])
  else []

/-- Render each ACE of an ACL in order. -/
def renderACEList : List ACE → Except String (List Str)
  | [] => .ok []
  | e :: rest =>
    match e.render with
    | .error err => .error err
    | .ok s =>
      match renderACEList rest with
      | .error err => .error err
      | .ok ss => .ok (s :: ss)

/-- `ACL.String` (src/sddl.go lines 383-430). -/
def ACL.render (a : ACL) : Except String Str :=
  match renderACEList a.ACEs with
  | .error err => .error err
  | .ok aces =>
    .ok (a.AclType ++ ':' :: aclFlagsString a ++ aces.flatten)

/-- An optional SID part of `SecurityDescriptor.String`, with its `O:`/`G:`
prefix; the empty string for an absent component. -/
def renderSIDPart (pre : Str) (o : Option SID) : Except String Str :=
  match o with
  | none => .ok []
  | some s =>
    match s.render with
    | .error err => .error err
    | .ok x => .ok (pre ++ x)

/-- An optional ACL part of `SecurityDescriptor.String`; the empty string for
an absent component. -/
def renderACLPart (o : Option ACL) : Except String Str :=
  match o with
  | none => .ok []
  | some a => a.render

/-- `SecurityDescriptor.String` (src/sddl.go lines 563-594): `O:` owner,
`G:` group, DACL, SACL, concatenated without separators. -/
def SecurityDescriptor.render (sd : SecurityDescriptor) :
    Except String Str :=
  match renderSIDPart (strL "O:") sd.OwnerSID with
  | .error err => .error err
  | .ok ownerPart =>
  match renderSIDPart (strL "G:") sd.GroupSID with
  | .error err => .error err
  | .ok groupPart =>
  match renderACLPart sd.DACL with
  | .error err => .error err
  | .ok daclPart =>
  match renderACLPart sd.SACL with
  | .error err => .error err
  | .ok saclPart =>
    .ok (ownerPart ++ groupPart ++ daclPart ++ saclPart)

/-! ## SDDL string parsers (src/parse_string.go) -/

/-- `parseAccessMask` (src/parse_string.go lines 182-198). -/
def parseAccessMask (maskStr : Str) : Except String Nat :=
  match maskOfAlias maskStr with
  | some v => .ok v
  | none =>
    if strHasPre (strL "0x") maskStr then
      match parseUintHex 32 (maskStr.drop 2) with
      | none => .error "invalid hexadecimal access mask"
      | some v => .ok v
    else .error "unknown access mask"

/-- `parseACEType` (src/parse_string.go lines 268-294). -/
def parseACEType (typeStr : Str) : Except String Nat :=
  if typeStr = strL "A" then .ok ACCESS_ALLOWED_ACE_TYPE
  else if typeStr = strL "D" then .ok ACCESS_DENIED_ACE_TYPE
  else if typeStr = strL "AU" then .ok SYSTEM_AUDIT_ACE_TYPE
  else if typeStr = strL "AL" then .ok SYSTEM_ALARM_ACE_TYPE
  else if typeStr = strL "OA" then .ok ACCESS_ALLOWED_OBJECT_ACE_TYPE
  else if strHasPre (strL "0x") typeStr then
    match parseUintHex 8 (typeStr.drop 2) with
    | none => .error "invalid hexadecimal ACE type"
    | some v => .ok v
  else .error "invalid ACE type"

/-- The pair-scanning loop of `parseFlagsForACEType` (src/parse_string.go
lines 517-549), accumulating the flag byte and whether an audit flag has been
seen. -/
def parseFlagsLoop (aceType : Nat) : Str → Nat → Bool →
    Except String (Nat × Bool)
  | [], flags, hasAudit => .ok (flags, hasAudit)
  | [_], _, _ => .error "invalid flag format"
  | c1 :: c2 :: rest, flags, hasAudit =>
    if [c1, c2] = strL "CI" then
      parseFlagsLoop aceType rest (flags ||| CONTAINER_INHERIT_ACE) hasAudit
    else if [c1, c2] = strL "OI" then
      parseFlagsLoop aceType rest (flags ||| OBJECT_INHERIT_ACE) hasAudit
    else if [c1, c2] = strL "NP" then
      parseFlagsLoop aceType rest (flags ||| NO_PROPAGATE_INHERIT_ACE) hasAudit
    else if [c1, c2] = strL "IO" then
      parseFlagsLoop aceType rest (flags ||| INHERIT_ONLY_ACE) hasAudit
    else if [c1, c2] = strL "ID" then
      parseFlagsLoop aceType rest (flags ||| INHERITED_ACE) hasAudit
    else if [c1, c2] = strL "SA" ∨ [c1, c2] = strL "FA" then
      if aceType ≠ SYSTEM_AUDIT_ACE_TYPE then
        .error "audit flags are only valid for audit ACEs"
      else if [c1, c2] = strL "SA" then
        parseFlagsLoop aceType rest (flags ||| SUCCESSFUL_ACCESS_ACE) true
      else
        parseFlagsLoop aceType rest (flags ||| FAILED_ACCESS_ACE) true
    else .error "unknown flag"

/-- `parseFlagsForACEType` (src/parse_string.go lines 508-557).  The empty
flag string returns 0 before any validation, so an audit ACE with no flags is
accepted. -/
def parseFlagsForACEType (flagsStr : Str) (aceType : Nat) :
    Except String Nat :=
  if flagsStr = [] then .ok 0
  else
    match parseFlagsLoop aceType flagsStr 0 false with
    | .error err => .error err
    | .ok (flags, hasAudit) =>
      if aceType = SYSTEM_AUDIT_ACE_TYPE ∧ ¬hasAudit then
        .error "audit ACEs must specify at least one audit flag"
      else .ok flags

/-- Parse the sub-authority tokens of a SID string, each a decimal 32-bit
numeral. -/
def parseSubAuthList : List Str → Except String (List Nat)
  | [] => .ok []
  | t :: ts =>
    match parseUintDec 32 t with
    | none => .error "invalid sub-authority value"
    | some v =>
      match parseSubAuthList ts with
      | .error err => .error err
      | .ok vs => .ok (v :: vs)

/-- The authority-token parse of `parseSIDString`: hexadecimal when the
lowered token starts with `0x`, decimal otherwise, 48-bit either way. -/
def parseSIDAuthority (p1 : Str) : Except String Nat :=
  if strHasPre (strL "0x") (strToLower p1) then
    match parseUintHex 48 (p1.drop 2) with
    | none => .error "invalid authority value: invalid hex value"
    | some a => .ok a
  else
    match parseUintDec 48 p1 with
    | none => .error "invalid authority value: invalid decimal value"
    | some a => .ok a

/-- `parseSIDString` (src/parse_string.go lines 560-629). -/
def parseSIDString (s0 : Str) : Except String SID :=
  let s := match sidOfAlias s0 with
    | some full => full
    | none => s0
  if ¬ strHasPre (strL "S-") s then
    .error "invalid SID format: must start with S-"
  else
    match splitOnChar '-' (s.drop 2) with
    | p0 :: p1 :: rest =>
      (match parseUintDec 8 p0 with
       | none => .error "invalid SID revision"
       | some revision =>
         if revision ≠ 1 then .error "invalid SID revision: want 1"
         else
           match parseSIDAuthority p1 with
           | .error err => .error err
           | .ok authority =>
             if authority ≥ 2 ^ 48 then
               .error "invalid authority value: exceeds maximum of 2^48-1"
             else if rest.length > 15 then
               .error "too many sub-authorities: maximum is 15"
             else
               match parseSubAuthList rest with
               | .error err => .error err
               | .ok subAuthorities =>
                 .ok ⟨revision % 256, authority, subAuthorities⟩)
    | _ => .error "invalid SID format: insufficient components"

/-- `parseACEString` (src/parse_string.go lines 206-259). -/
def parseACEString (aceStr : Str) : Except String ACE :=
  if aceStr.length < 2 ∨ ¬ strHasPre (strL "(") aceStr ∨
      ¬ strHasSuf aceStr (strL ")") then
    .error "invalid ACE string format: must be enclosed in parentheses"
  else
    let parts := splitOnChar ';' ((aceStr.drop 1).dropLast)
    if parts.length ≠ 6 then
      .error "invalid ACE string format: expected 6 components"
    else
      match parseACEType (parts.getD 0 []) with
      | .error err => .error ("invalid ACE type: " ++ err)
      | .ok aceType =>
      match parseFlagsForACEType (parts.getD 1 []) aceType with
      | .error err => .error ("invalid ACE flags: " ++ err)
      | .ok aceFlags =>
      match parseAccessMask (parts.getD 2 []) with
      | .error err => .error ("invalid access mask: " ++ err)
      | .ok accessMask =>
      match parseSIDString (parts.getD 5 []) with
      | .error err => .error ("invalid SID: " ++ err)
      | .ok sid =>
        let sidSize := 8 + 4 * sid.SubAuthority.length
        let aceSize := 4 + 4 + sidSize
        .ok ⟨⟨aceType, aceFlags, aceSize % 65536⟩, accessMask, sid⟩

/-- `parseACLFlags` (src/parse_string.go lines 331-357): greedy two-character
codes AI, AR, NO, IO, then one-character codes P, R. -/
def parseACLFlags : Str → Except String (List Str)
  | [] => .ok []
  | c1 :: c2 :: rest =>
    if [c1, c2] = strL "AI" ∨ [c1, c2] = strL "AR" ∨
        [c1, c2] = strL "NO" ∨ [c1, c2] = strL "IO" then
      match parseACLFlags rest with
      | .error err => .error err
      | .ok fs => .ok ([c1, c2] :: fs)
    else if c1 = 'P' ∨ c1 = 'R' then
      match parseACLFlags (c2 :: rest) with
      | .error err => .error err
      | .ok fs => .ok ([c1] :: fs)
    else .error "invalid flag"
  | [c1] =>
    if c1 = 'P' ∨ c1 = 'R' then .ok [[c1]]
    else .error "invalid flag"

/-- The control-bit update of `parseACLString` over the parsed flag list
(src/parse_string.go lines 421-448); NO and IO set no control bit. -/
def aclControlFromFlags (aclType : Str) (base : Nat)
    (flags : List Str) : Nat :=
  flags.foldl
    (fun ctrl flag =>
      if flag = strL "P" then
        if aclType = ['D'] then ctrl ||| SE_DACL_PROTECTED
        else ctrl ||| SE_SACL_PROTECTED
      else if flag = strL "AI" then
        if aclType = ['D'] then ctrl ||| SE_DACL_AUTO_INHERITED
        else ctrl ||| SE_SACL_AUTO_INHERITED
      else if flag = strL "AR" then
        if aclType = ['D'] then ctrl ||| SE_DACL_AUTO_INHERIT_RE
        else ctrl ||| SE_SACL_AUTO_INHERIT_RE
      else if flag = strL "R" then
        if aclType = ['D'] then ctrl ||| SE_DACL_DEFAULTED
        else ctrl ||| SE_SACL_DEFAULTED
      else ctrl)
    base

/-- The ACE-extraction loop of `parseACLString` (src/parse_string.go lines
464-485), made structural on a fuel argument so that closed terms reduce:
each span up to the next `)` is handed to `parseACEString`.  Every step
consumes at least one character, so with fuel `s.length` (as supplied by
`parseACEListStr`) the out-of-fuel arm is unreachable. -/
def parseACEListStrAux : Nat → Str → Except String (List ACE)
  | _, [] => .ok []
  | 0, _ :: _ => .error "unreachable: ACE list fuel exhausted"
  | fuel + 1, c :: rest =>
    if c ≠ '(' then
      .error "invalid ACE format: expected open parenthesis"
    else
      match idxOfSub [')'] (c :: rest) with
      | none => .error "invalid ACE format: missing closing parenthesis"
      | some closePos =>
        match parseACEString ((c :: rest).take (closePos + 1)) with
        | .error err => .error ("error parsing ACE: " ++ err)
        | .ok ace =>
          match parseACEListStrAux fuel ((c :: rest).drop (closePos + 1)) with
          | .error err => .error err
          | .ok aces => .ok (ace :: aces)

def parseACEListStr (s : Str) : Except String (List ACE) :=
  parseACEListStrAux s.length s

/-- `parseACLString` (src/parse_string.go lines 369-504). -/
def parseACLString (s : Str) : Except String ACL :=
  if s = [] then .error "empty ACL string"
  else if s.length < 2 ∨ s.getD 1 ' ' ≠ ':' then
    .error "invalid ACL string format: must start with type and colon"
  else
    match (if s.getD 0 ' ' = 'D' then .ok (['D'], SE_DACL_PRESENT)
           else if s.getD 0 ' ' = 'S' then .ok (['S'], SE_SACL_PRESENT)
           else (.error "invalid ACL type" : Except String (Str × Nat))) with
    | .error err => .error err
    | .ok (aclType, baseControl) =>
      let s2 := s.drop 2
      match (if s2.length > 0 ∧ s2.getD 0 ' ' ≠ '(' then
               match idxOfSub ['('] s2 with
               | none =>
                 if strContains s2 [')'] then
                   .error "invalid ACL format: missing opening parenthesis"
                 else
                   match parseACLFlags (s2.take s2.length) with
                   | .error err => .error ("error parsing flags: " ++ err)
                   | .ok ff => .ok (ff, s2.length)
               | some flagEnd =>
                 match parseACLFlags (s2.take flagEnd) with
                 | .error err => .error ("error parsing flags: " ++ err)
                 | .ok ff => .ok (ff, flagEnd)
             else (.ok ([], 0) : Except String (List Str × Nat))) with
      | .error err => .error err
      | .ok (flags, aceStart) =>
        let control := aclControlFromFlags aclType baseControl flags
        let remaining := s2.drop aceStart
        if remaining = [] then
          .ok ⟨2, 0, 8, 0, 0, aclType, control, []⟩
        else
          match parseACEListStr remaining with
          | .error err => .error err
          | .ok aces =>
            let totalSize := 8 + (aces.map (fun a => a.Header.AceSize)).sum
            .ok ⟨2, 0, totalSize % 65536, aces.length % 65536, 0, aclType,
                 control, aces⟩

/-- `findNextComponent` (src/parse_string.go lines 168-179): smallest index
of any marker occurrence, `none` for Go's `-1`. -/
def findNextComponent (s : Str) (markers : List Str) : Option Nat :=
  markers.foldl
    (fun acc m =>
      match idxOfSub m s with
      | none => acc
      | some idx =>
        match acc with
        | none => some idx
        | some j => if idx < j then some idx else some j)
    none

/-- `parseSIDComponent` (src/parse_string.go lines 131-145). -/
def parseSIDComponent (s : Str) (markers : List Str) :
    Except String (SID × Str) :=
  let sidEnd := (findNextComponent s markers).getD s.length
  match parseSIDString (s.take sidEnd) with
  | .error err => .error ("invalid SID: " ++ err)
  | .ok sid => .ok (sid, s.drop sidEnd)

/-- `parseACLComponent` (src/parse_string.go lines 147-164). -/
def parseACLComponent (s : Str) (markers : List Str) :
    Except String (ACL × Str) :=
  let aclEnd :=
    if markers.length > 0 then (findNextComponent s markers).getD s.length
    else s.length
  match parseACLString (s.take aclEnd) with
  | .error err => .error ("invalid ACL: " ++ err)
  | .ok acl => .ok (acl, s.drop aclEnd)

/-- `removePendingComponent` (src/parse_string.go lines 36-43). -/
def removePending (comp : Str) : List Str → List Str
  | [] => []
  | c :: cs => if c = comp then cs else c :: removePending comp cs

/-- Post-loop finish of `ParseSecurityDescriptorString` (src/parse_string.go
lines 115-128): leftover text is an error; each present ACL's control is
overwritten with the final descriptor control. -/
def sdFinish (remaining : Str) (sd : SecurityDescriptor) :
    Except String SecurityDescriptor :=
  if remaining ≠ [] then .error "unexpected content after parsing"
  else
    let sd1 := match sd.DACL with
      | some d => { sd with DACL := some { d with Control := sd.Control } }
      | none => sd
    let sd2 := match sd1.SACL with
      | some s => { sd1 with SACL := some { s with Control := sd1.Control } }
      | none => sd1
    .ok sd2

/-- The component-scanning loop of `ParseSecurityDescriptorString`
(src/parse_string.go lines 51-113).  The Go loop has no default case: when
the remaining text starts with none of the four prefixes the iteration
changes nothing, which is modelled by the final recursive call on the
unchanged state; `fuel` counts loop iterations, `none` meaning the loop has
not finished within `fuel` iterations. -/
def sdLoop : Nat → List Str → Str → SecurityDescriptor →
    Option (Except String SecurityDescriptor)
  | fuel, pending, remaining, sd =>
    if pending.length > 0 ∧ remaining.length > 0 then
      match fuel with
      | 0 => none
      | fuel + 1 =>
        if strHasPre (strL "O:") remaining then
          let pending2 := removePending (strL "O:") pending
          match parseSIDComponent (remaining.drop 2) pending2 with
          | .error err => some (.error ("error parsing owner SID: " ++ err))
          | .ok (sid, rem2) =>
            sdLoop fuel pending2 rem2
              { sd with OwnerSID := some sid,
                        Control := sd.Control ^^^ SE_OWNER_DEFAULTED }
        else if strHasPre (strL "G:") remaining then
          let pending2 := removePending (strL "G:") pending
          match parseSIDComponent (remaining.drop 2) pending2 with
          | .error err => some (.error ("error parsing group SID: " ++ err))
          | .ok (sid, rem2) =>
            sdLoop fuel pending2 rem2
              { sd with GroupSID := some sid,
                        Control := sd.Control ^^^ SE_GROUP_DEFAULTED }
        else if strHasPre (strL "D:") remaining then
          let pending2 := removePending (strL "D:") pending
          match parseACLComponent remaining pending2 with
          | .error err => some (.error ("error parsing DACL: " ++ err))
          | .ok (acl, rem2) =>
            let c0 := (sd.Control ^^^ SE_DACL_DEFAULTED) ||| SE_DACL_PRESENT
            let c1 := if acl.Control &&& SE_DACL_PROTECTED ≠ 0 then
                c0 ||| SE_DACL_PROTECTED else c0
            let c2 := if acl.Control &&& SE_DACL_AUTO_INHERITED ≠ 0 then
                c1 ||| SE_DACL_AUTO_INHERITED else c1
            let c3 := if acl.Control &&& SE_DACL_AUTO_INHERIT_RE ≠ 0 then
                c2 ||| SE_DACL_AUTO_INHERIT_RE else c2
            sdLoop fuel pending2 rem2
              { sd with DACL := some acl, Control := c3 }
        else if strHasPre (strL "S:") remaining then
          let pending2 := removePending (strL "S:") pending
          match parseACLComponent remaining pending2 with
          | .error err => some (.error ("error parsing SACL: " ++ err))
          | .ok (acl, rem2) =>
            let c0 := (sd.Control ^^^ SE_SACL_DEFAULTED) ||| SE_SACL_PRESENT
            let c1 := if acl.Control &&& SE_SACL_PROTECTED ≠ 0 then
                c0 ||| SE_SACL_PROTECTED else c0
            let c2 := if acl.Control &&& SE_SACL_AUTO_INHERITED ≠ 0 then
                c1 ||| SE_SACL_AUTO_INHERITED else c1
            let c3 := if acl.Control &&& SE_SACL_AUTO_INHERIT_RE ≠ 0 then
                c2 ||| SE_SACL_AUTO_INHERIT_RE else c2
            sdLoop fuel pending2 rem2
              { sd with SACL := some acl, Control := c3 }
        else
          sdLoop fuel pending remaining sd
    else some (sdFinish remaining sd)

/-- The initial descriptor of `ParseSecurityDescriptorString`: revision 1,
self-relative, all four defaulted bits set. -/
def initialSD : SecurityDescriptor :=
  ⟨1, 0,
   SE_SELF_RELATIVE ||| SE_OWNER_DEFAULTED ||| SE_GROUP_DEFAULTED |||
     SE_DACL_DEFAULTED ||| SE_SACL_DEFAULTED,
   0, 0, 0, 0, none, none, none, none⟩

/-- The four component markers. -/
def allMarkers : List Str :=
  [strL "O:", strL "G:", strL "D:", strL "S:"]

/-- `ParseSecurityDescriptorString` (src/parse_string.go lines 17-129) with
an explicit iteration budget.  `none` means the scanning loop did not finish
within `fuel` iterations. -/
def ParseSecurityDescriptorStringFuel (fuel : Nat) (s : Str) :
    Option (Except String SecurityDescriptor) :=
  if s = [] then some (.ok initialSD)
  else if (findNextComponent s allMarkers).isNone then
    some (.error "no components found in security descriptor")
  else sdLoop fuel allMarkers s initialSD

/-- `ParseSecurityDescriptorString`.  Four units of fuel are sufficient for
every terminating execution of the Go loop: an iteration that matches a
prefix removes one of the four pending components, and an iteration that
matches nothing changes no state, so the loop never finishes after it. -/
def ParseSecurityDescriptorString (s : Str) :
    Option (Except String SecurityDescriptor) :=
  ParseSecurityDescriptorStringFuel 4 s

/-! ## Helper predicates -/

/-- Result-kind test. -/
def isOk {α : Type _} : Except String α → Bool
  | .ok _ => true
  | .error _ => false

/-- Error test. -/
def isErr {α : Type _} : Except String α → Bool
  | .ok _ => false
  | .error _ => true

/-- The §3 invariants of a SID: revision 1, at most 15 sub-authorities each a
32-bit value, authority below 2^48. -/
def ValidSID (s : SID) : Prop :=
  s.Revision = 1 ∧ s.SubAuthority.length ≤ 15 ∧
    s.IdentifierAuthority < 2 ^ 48 ∧ ∀ x ∈ s.SubAuthority, x < 2 ^ 32

instance (s : SID) : Decidable (ValidSID s) := by
  unfold ValidSID; infer_instance

/-! ## Arithmetic bridge lemmas -/

lemma shiftOrByte (a b : Nat) (hb : b < 256) : (a <<< 8) ||| b = a * 256 + b := by
  rw [Nat.shiftLeft_eq]
  have h := Nat.mul_add_lt_is_or (i := 8) (by simpa using hb) a
  simpa [Nat.mul_comm] using h.symm

lemma byteExtract (a k : Nat) : (a >>> k) &&& 255 = a / 2 ^ k % 256 := by
  rw [Nat.shiftRight_eq_div_pow]
  simpa using Nat.and_pow_two_sub_one_eq_mod (a / 2 ^ k) 8

lemma byteExtract_lt (a k : Nat) : (a >>> k) &&& 255 < 256 := by
  rw [byteExtract]; omega

lemma le16get_le16 (v : Nat) :
    le16get ((le16 v).getD 0 0) ((le16 v).getD 1 0) = v % 65536 := by
  simp only [le16, le16get, List.getD]
  simp only [List.get?_eq_getElem?]
  simp [le16get]
  omega

lemma le32get_le32 (v : Nat) :
    le32get ((le32 v).getD 0 0) ((le32 v).getD 1 0) ((le32 v).getD 2 0)
      ((le32 v).getD 3 0) = v % 4294967296 := by
  simp only [le32, le32get, List.getD]
  simp only [List.get?_eq_getElem?]
  simp [le32get]
  omega

lemma le16_length (v : Nat) : (le16 v).length = 2 := rfl

lemma le32_length (v : Nat) : (le32 v).length = 4 := rfl

/-! ## SID binary round trip -/

/-- The byte payload produced by a successful `SID.Binary`. -/
def sidBytes (s : SID) : Bytes :=
  [s.Revision, s.SubAuthority.length % 256,
   (s.IdentifierAuthority >>> 40) &&& 255,
   (s.IdentifierAuthority >>> 32) &&& 255,
   (s.IdentifierAuthority >>> 24) &&& 255,
   (s.IdentifierAuthority >>> 16) &&& 255,
   (s.IdentifierAuthority >>> 8) &&& 255,
   s.IdentifierAuthority &&& 255] ++
  (s.SubAuthority.map le32).flatten

lemma flatten_le32_length (l : List Nat) :
    ((l.map le32).flatten).length = 4 * l.length := by
  induction l with
  | nil => simp
  | cons x xs ih => simp only [List.map_cons, List.flatten_cons,
      List.length_append, le32_length, ih, List.length_cons]; omega

lemma sidBytes_length (s : SID) :
    (sidBytes s).length = 8 + 4 * s.SubAuthority.length := by
  unfold sidBytes
  rw [List.length_append, flatten_le32_length]
  simp only [List.length_cons, List.length_nil]

lemma sid_Binary_ok (s : SID) (h : ValidSID s) : s.Binary = .ok (sidBytes s) := by
  obtain ⟨h1, h15, h48, _⟩ := h
  unfold SID.Binary sidBytes
  rw [if_neg (show ¬ s.Revision ≠ 1 from by omega)]
  rw [if_neg (show ¬ s.SubAuthority.length > 15 from by omega)]
  rw [if_neg (show ¬ s.IdentifierAuthority ≥ 2 ^ 48 from by omega)]

lemma byteExtract0 (a : Nat) : a &&& 255 = a % 256 := by
  simpa using Nat.and_pow_two_sub_one_eq_mod a 8

lemma shiftOrMod (x a k : Nat) :
    (x <<< 8) ||| (a / 2 ^ k % 256) = x * 256 + a / 2 ^ k % 256 :=
  shiftOrByte _ _ (Nat.mod_lt _ (by norm_num))

lemma shiftOrMod0 (x a : Nat) :
    (x <<< 8) ||| (a % 256) = x * 256 + a % 256 :=
  shiftOrByte _ _ (Nat.mod_lt _ (by norm_num))

lemma getD_lit8 (c0 c1 c2 c3 c4 c5 c6 c7 : Nat) (X : Bytes) (m : Nat) :
    (([c0, c1, c2, c3, c4, c5, c6, c7] ++ X).getD (8 + m) 0) = X.getD m 0 := by
  rw [List.getD_append_right _ _ _ _ (by simp)]
  simp

lemma chunkAt (vs : List Nat) (rest : Bytes) (i : Nat) (hi : i < vs.length)
    (hv : ∀ x ∈ vs, x < 2 ^ 32) :
    le32get (((vs.map le32).flatten ++ rest).getD (4 * i) 0)
        (((vs.map le32).flatten ++ rest).getD (4 * i + 1) 0)
        (((vs.map le32).flatten ++ rest).getD (4 * i + 2) 0)
        (((vs.map le32).flatten ++ rest).getD (4 * i + 3) 0) = vs.getD i 0 := by
  induction vs generalizing i rest with
  | nil => simp at hi
  | cons v vs ih =>
    have hstep : (((v :: vs).map le32).flatten ++ rest) =
        le32 v ++ ((vs.map le32).flatten ++ rest) := by
      simp
    cases i with
    | zero =>
      rw [hstep]
      have h4 : ∀ j, j < 4 →
          (le32 v ++ ((vs.map le32).flatten ++ rest)).getD j 0 =
            (le32 v).getD j 0 := by
        intro j hj
        exact List.getD_append _ _ _ _ (by simpa [le32_length] using hj)
      simp only [Nat.mul_zero, Nat.zero_add]
      rw [h4 0 (by norm_num), h4 1 (by norm_num), h4 2 (by norm_num),
        h4 3 (by norm_num)]
      rw [le32get_le32]
      have : v < 2 ^ 32 := hv v (by simp)
      simp only [List.getD_cons_zero]
      omega
    | succ i =>
      rw [hstep]
      have h4 : ∀ m, (le32 v ++ ((vs.map le32).flatten ++ rest)).getD (4 + m) 0
          = ((vs.map le32).flatten ++ rest).getD m 0 := by
        intro m
        rw [List.getD_append_right _ _ _ _ (by simp [le32_length])]
        simp [le32_length]
      rw [show 4 * (i + 1) = 4 + 4 * i from by omega]
      simp only [Nat.add_assoc]
      rw [h4, h4, h4, h4]
      rw [ih rest i (by simpa using hi) (fun x hx => hv x (by simp [hx]))]
      simp

lemma parseSIDBinary_lit (c0 c1 c2 c3 c4 c5 c6 c7 : Nat) (X : Bytes)
    (hc1 : c1 ≤ 15) (hX : 4 * c1 ≤ X.length) :
    parseSIDBinary ([c0, c1, c2, c3, c4, c5, c6, c7] ++ X) =
      .ok ⟨c0,
        (((((0 <<< 8 ||| c2) <<< 8 ||| c3) <<< 8 ||| c4) <<< 8 ||| c5) <<< 8
            ||| c6) <<< 8 ||| c7,
        (List.range c1).map (fun i =>
          le32get (X.getD (4 * i) 0) (X.getD (4 * i + 1) 0)
            (X.getD (4 * i + 2) 0) (X.getD (4 * i + 3) 0))⟩ := by
  have hlen : ([c0, c1, c2, c3, c4, c5, c6, c7] ++ X).length = 8 + X.length := by
    simp only [List.length_append, List.length_cons, List.length_nil]
  have g0 : ([c0, c1, c2, c3, c4, c5, c6, c7] ++ X).getD 0 0 = c0 := rfl
  have g1 : ([c0, c1, c2, c3, c4, c5, c6, c7] ++ X).getD 1 0 = c1 := rfl
  have g2 : ([c0, c1, c2, c3, c4, c5, c6, c7] ++ X).getD 2 0 = c2 := rfl
  have g3 : ([c0, c1, c2, c3, c4, c5, c6, c7] ++ X).getD 3 0 = c3 := rfl
  have g4 : ([c0, c1, c2, c3, c4, c5, c6, c7] ++ X).getD 4 0 = c4 := rfl
  have g5 : ([c0, c1, c2, c3, c4, c5, c6, c7] ++ X).getD 5 0 = c5 := rfl
  have g6 : ([c0, c1, c2, c3, c4, c5, c6, c7] ++ X).getD 6 0 = c6 := rfl
  have g7 : ([c0, c1, c2, c3, c4, c5, c6, c7] ++ X).getD 7 0 = c7 := rfl
  have hfun : ∀ i ∈ List.range c1,
      le32get (([c0, c1, c2, c3, c4, c5, c6, c7] ++ X).getD (8 + 4 * i) 0)
        (([c0, c1, c2, c3, c4, c5, c6, c7] ++ X).getD (8 + 4 * i + 1) 0)
        (([c0, c1, c2, c3, c4, c5, c6, c7] ++ X).getD (8 + 4 * i + 2) 0)
        (([c0, c1, c2, c3, c4, c5, c6, c7] ++ X).getD (8 + 4 * i + 3) 0) =
      le32get (X.getD (4 * i) 0) (X.getD (4 * i + 1) 0) (X.getD (4 * i + 2) 0)
        (X.getD (4 * i + 3) 0) := by
    intro i _
    rw [show 8 + 4 * i + 1 = 8 + (4 * i + 1) from by omega,
      show 8 + 4 * i + 2 = 8 + (4 * i + 2) from by omega,
      show 8 + 4 * i + 3 = 8 + (4 * i + 3) from by omega,
      getD_lit8, getD_lit8, getD_lit8, getD_lit8]
  simp only [parseSIDBinary, List.foldl_cons, List.foldl_nil]
  rw [hlen, g0, g1, g2, g3, g4, g5, g6, g7]
  rw [if_neg (by omega : ¬ (8 + X.length < 8)),
    if_neg (by omega : ¬ (8 + X.length < 8 + 4 * c1)),
    if_neg (by omega : ¬ (c1 > 15)),
    if_neg (by omega : ¬ (8 + X.length < 8 + 4 * c1))]
  rw [List.map_congr_left hfun]

/-- The authority expression produced by the byte-fold of `parseSIDBinary` on
the bytes emitted by `SID.Binary` recovers the authority. -/
lemma authFold_round (a : Nat) (ha : a < 2 ^ 48) :
    (((((0 <<< 8 ||| ((a >>> 40) &&& 255)) <<< 8 ||| ((a >>> 32) &&& 255)) <<< 8
        ||| ((a >>> 24) &&& 255)) <<< 8 ||| ((a >>> 16) &&& 255)) <<< 8
        ||| ((a >>> 8) &&& 255)) <<< 8 ||| (a &&& 255) = a := by
  simp only [byteExtract, byteExtract0]
  rw [shiftOrByte 0 _ (Nat.mod_lt _ (by norm_num))]
  simp only [shiftOrMod, shiftOrMod0]
  omega

lemma parseSIDBinary_round (s : SID) (rest : Bytes) (h : ValidSID s) :
    parseSIDBinary (sidBytes s ++ rest) = .ok s := by
  obtain ⟨rev, auth, subs⟩ := s
  obtain ⟨h1, h15, h48, h32⟩ := h
  simp only at h1 h15 h48 h32
  have hflat : sidBytes ⟨rev, auth, subs⟩ ++ rest =
      [rev, subs.length % 256,
       (auth >>> 40) &&& 255, (auth >>> 32) &&& 255, (auth >>> 24) &&& 255,
       (auth >>> 16) &&& 255, (auth >>> 8) &&& 255, auth &&& 255] ++
      ((subs.map le32).flatten ++ rest) := by
    simp [sidBytes]
  have hmod : subs.length % 256 = subs.length := Nat.mod_eq_of_lt (by omega)
  rw [hflat, hmod]
  rw [parseSIDBinary_lit _ _ _ _ _ _ _ _ _ h15
    (by rw [List.length_append, flatten_le32_length]; omega)]
  simp only [Except.ok.injEq, SID.mk.injEq, true_and]
  refine ⟨authFold_round auth h48, ?_⟩
  apply List.ext_getElem
  · simp
  · intro i hi1 hi2
    simp only [List.getElem_map, List.getElem_range]
    have hi : i < subs.length := by simpa using hi1
    rw [chunkAt subs rest i hi h32]
    exact List.getD_eq_getElem _ _ hi

/-! ## ACE binary round trip -/

/-- The §3 invariants of an ACE relevant to the binary codec: a valid SID,
Go-representable header bytes and mask, and a stored size equal to the
computed size `4 + 4 + (8 + 4·subauth)`. -/
def ValidACE (e : ACE) : Prop :=
  ValidSID e.SID ∧ e.Header.AceType < 256 ∧ e.Header.AceFlags < 256 ∧
    e.AccessMask < 2 ^ 32 ∧
    e.Header.AceSize = 16 + 4 * e.SID.SubAuthority.length

instance (e : ACE) : Decidable (ValidACE e) := by
  unfold ValidACE; infer_instance

/-- The byte payload produced by a successful `ACE.Binary`. -/
def aceBytes (e : ACE) : Bytes :=
  [e.Header.AceType, e.Header.AceFlags] ++
  le16 (4 + 4 + (sidBytes e.SID).length) ++ le32 e.AccessMask ++
  sidBytes e.SID

lemma aceBytes_length (e : ACE) :
    (aceBytes e).length = 16 + 4 * e.SID.SubAuthority.length := by
  unfold aceBytes
  simp only [List.length_append, List.length_cons, List.length_nil,
    le16_length, le32_length, sidBytes_length]
  omega

lemma le16get_mod (v : Nat) : le16get (v % 256) (v / 256 % 256) = v % 65536 := by
  simp only [le16get]; omega

lemma le32get_mod (v : Nat) :
    le32get (v % 256) (v / 256 % 256) (v / 65536 % 256) (v / 16777216 % 256) =
      v % 4294967296 := by
  simp only [le32get]; omega

lemma ace_Binary_ok (e : ACE) (hv : ValidACE e) : e.Binary = .ok (aceBytes e) := by
  obtain ⟨hsid, _, _, _, hsz⟩ := hv
  have hslen : (sidBytes e.SID).length = 8 + 4 * e.SID.SubAuthority.length :=
    sidBytes_length _
  have hsub15 : e.SID.SubAuthority.length ≤ 15 := hsid.2.1
  simp only [ACE.Binary, sid_Binary_ok e.SID hsid]
  rw [if_neg (show ¬ 4 + 4 + (sidBytes e.SID).length > 65535 from by omega)]
  rw [if_neg (show ¬ (4 + 4 + (sidBytes e.SID).length) % 65536 ≠
      e.Header.AceSize from by
    rw [Nat.mod_eq_of_lt (by omega)]; omega)]
  rfl

lemma parseACEBinary_round (e : ACE) (rest : Bytes) (hv : ValidACE e)
    (hlen : (aceBytes e ++ rest).length < 65536) :
    parseACEBinary (aceBytes e ++ rest) = .ok e := by
  obtain ⟨hsid, _, _, hmask, hsz⟩ := hv
  have hslen : (sidBytes e.SID).length = 8 + 4 * e.SID.SubAuthority.length :=
    sidBytes_length _
  have hshape : aceBytes e ++ rest =
      [e.Header.AceType, e.Header.AceFlags,
       (4 + 4 + (sidBytes e.SID).length) % 256,
       (4 + 4 + (sidBytes e.SID).length) / 256 % 256,
       e.AccessMask % 256, e.AccessMask / 256 % 256,
       e.AccessMask / 65536 % 256, e.AccessMask / 16777216 % 256] ++
      (sidBytes e.SID ++ rest) := by
    simp [aceBytes, le16, le32]
  have hXlen : (sidBytes e.SID ++ rest).length =
      (sidBytes e.SID).length + rest.length := List.length_append _ _
  have htot : (aceBytes e ++ rest).length =
      8 + ((sidBytes e.SID).length + rest.length) := by
    rw [List.length_append, aceBytes_length]; omega
  have htot2 : 8 + ((sidBytes e.SID).length + rest.length) < 65536 := by
    rw [← htot]; exact hlen
  rw [hshape]
  simp only [parseACEBinary]
  rw [show ([e.Header.AceType, e.Header.AceFlags,
       (4 + 4 + (sidBytes e.SID).length) % 256,
       (4 + 4 + (sidBytes e.SID).length) / 256 % 256,
       e.AccessMask % 256, e.AccessMask / 256 % 256,
       e.AccessMask / 65536 % 256, e.AccessMask / 16777216 % 256] ++
      (sidBytes e.SID ++ rest)).length =
      8 + ((sidBytes e.SID).length + rest.length) from by
    simp only [List.length_append, List.length_cons, List.length_nil]]
  rw [Nat.mod_eq_of_lt htot2]
  rw [if_neg (show ¬ 8 + ((sidBytes e.SID).length + rest.length) < 16 from by
    omega)]
  rw [show ([e.Header.AceType, e.Header.AceFlags,
       (4 + 4 + (sidBytes e.SID).length) % 256,
       (4 + 4 + (sidBytes e.SID).length) / 256 % 256,
       e.AccessMask % 256, e.AccessMask / 256 % 256,
       e.AccessMask / 65536 % 256, e.AccessMask / 16777216 % 256] ++
      (sidBytes e.SID ++ rest)).getD 2 0 =
      (4 + 4 + (sidBytes e.SID).length) % 256 from rfl]
  rw [show ([e.Header.AceType, e.Header.AceFlags,
       (4 + 4 + (sidBytes e.SID).length) % 256,
       (4 + 4 + (sidBytes e.SID).length) / 256 % 256,
       e.AccessMask % 256, e.AccessMask / 256 % 256,
       e.AccessMask / 65536 % 256, e.AccessMask / 16777216 % 256] ++
      (sidBytes e.SID ++ rest)).getD 3 0 =
      (4 + 4 + (sidBytes e.SID).length) / 256 % 256 from rfl]
  rw [le16get_mod, Nat.mod_eq_of_lt (show 4 + 4 + (sidBytes e.SID).length <
    65536 from by omega)]
  rw [if_neg (show ¬ 8 + ((sidBytes e.SID).length + rest.length) <
      4 + 4 + (sidBytes e.SID).length from by omega)]
  rw [show ([e.Header.AceType, e.Header.AceFlags,
       (4 + 4 + (sidBytes e.SID).length) % 256,
       (4 + 4 + (sidBytes e.SID).length) / 256 % 256,
       e.AccessMask % 256, e.AccessMask / 256 % 256,
       e.AccessMask / 65536 % 256, e.AccessMask / 16777216 % 256] ++
      (sidBytes e.SID ++ rest)).drop 8 = sidBytes e.SID ++ rest from rfl]
  rw [parseSIDBinary_round e.SID rest hsid]
  simp only [Except.ok.injEq]
  have g4 : ([e.Header.AceType, e.Header.AceFlags,
       (4 + 4 + (sidBytes e.SID).length) % 256,
       (4 + 4 + (sidBytes e.SID).length) / 256 % 256,
       e.AccessMask % 256, e.AccessMask / 256 % 256,
       e.AccessMask / 65536 % 256, e.AccessMask / 16777216 % 256] ++
      (sidBytes e.SID ++ rest)).getD 4 0 = e.AccessMask % 256 := rfl
  have g5 : ([e.Header.AceType, e.Header.AceFlags,
       (4 + 4 + (sidBytes e.SID).length) % 256,
       (4 + 4 + (sidBytes e.SID).length) / 256 % 256,
       e.AccessMask % 256, e.AccessMask / 256 % 256,
       e.AccessMask / 65536 % 256, e.AccessMask / 16777216 % 256] ++
      (sidBytes e.SID ++ rest)).getD 5 0 = e.AccessMask / 256 % 256 := rfl
  have g6 : ([e.Header.AceType, e.Header.AceFlags,
       (4 + 4 + (sidBytes e.SID).length) % 256,
       (4 + 4 + (sidBytes e.SID).length) / 256 % 256,
       e.AccessMask % 256, e.AccessMask / 256 % 256,
       e.AccessMask / 65536 % 256, e.AccessMask / 16777216 % 256] ++
      (sidBytes e.SID ++ rest)).getD 6 0 = e.AccessMask / 65536 % 256 := rfl
  have g7 : ([e.Header.AceType, e.Header.AceFlags,
       (4 + 4 + (sidBytes e.SID).length) % 256,
       (4 + 4 + (sidBytes e.SID).length) / 256 % 256,
       e.AccessMask % 256, e.AccessMask / 256 % 256,
       e.AccessMask / 65536 % 256, e.AccessMask / 16777216 % 256] ++
      (sidBytes e.SID ++ rest)).getD 7 0 = e.AccessMask / 16777216 % 256 := rfl
  rw [g4, g5, g6, g7, le32get_mod, Nat.mod_eq_of_lt
    (show e.AccessMask < 4294967296 from by omega)]
  rw [show (4 + 4 + (sidBytes e.SID).length) = e.Header.AceSize from by
    rw [hslen]; omega]
  rfl

/-! ## ACL binary round trip -/

/-- Total byte length of the serialized ACE list. -/
def aceTotalLen (es : List ACE) : Nat :=
  ((es.map aceBytes).map List.length).sum

/-- The §3 invariants of an ACL relevant to the binary codec: valid ACEs,
Go-representable header fields, and size/count fields matching the list. -/
def ValidACL (a : ACL) : Prop :=
  (∀ e ∈ a.ACEs, ValidACE e) ∧ a.AclRevision < 256 ∧ a.Sbzl < 256 ∧
    a.Sbz2 < 65536 ∧ a.AclSize = 8 + aceTotalLen a.ACEs ∧
    a.AceCount = a.ACEs.length ∧ a.AclSize ≤ 65535

instance (a : ACL) : Decidable (ValidACL a) := by
  unfold ValidACL; infer_instance

/-- The byte payload produced by a successful `ACL.Binary`. -/
def aclBytes (a : ACL) : Bytes :=
  [a.AclRevision, a.Sbzl] ++ le16 (8 + aceTotalLen a.ACEs) ++
  le16 (a.ACEs.length % 65536) ++ le16 a.Sbz2 ++ (a.ACEs.map aceBytes).flatten

lemma serializeACEList_ok (es : List ACE) (h : ∀ e ∈ es, ValidACE e) :
    serializeACEList es = .ok (es.map aceBytes) := by
  induction es with
  | nil => rfl
  | cons e es ih =>
    simp only [serializeACEList, ace_Binary_ok e (h e (by simp)),
      ih (fun x hx => h x (by simp [hx])), List.map_cons]

lemma aceTotalLen_cons (e : ACE) (es : List ACE) :
    aceTotalLen (e :: es) = (aceBytes e).length + aceTotalLen es := by
  simp [aceTotalLen]

lemma length_le_aceTotalLen (es : List ACE) :
    es.length ≤ aceTotalLen es := by
  induction es with
  | nil => simp [aceTotalLen]
  | cons e es ih =>
    rw [aceTotalLen_cons]
    have : 1 ≤ (aceBytes e).length := by rw [aceBytes_length]; omega
    simp only [List.length_cons]
    omega

lemma aclBytes_length (a : ACL) :
    (aclBytes a).length = 8 + aceTotalLen a.ACEs := by
  unfold aclBytes aceTotalLen
  simp only [List.length_append, List.length_cons, List.length_nil,
    le16_length, List.length_flatten]

lemma acl_Binary_ok (a : ACL) (hv : ValidACL a) : a.Binary = .ok (aclBytes a) := by
  obtain ⟨hes, _, _, _, hsz, hcnt, hmax⟩ := hv
  simp only [ACL.Binary, serializeACEList_ok a.ACEs hes]
  rw [if_neg (show ¬ 8 + ((a.ACEs.map aceBytes).map List.length).sum > 65535
    from by
    have : aceTotalLen a.ACEs = ((a.ACEs.map aceBytes).map List.length).sum :=
      rfl
    omega)]
  rw [if_neg (show ¬ (8 + ((a.ACEs.map aceBytes).map List.length).sum) % 65536
      ≠ a.AclSize from by
    have he : aceTotalLen a.ACEs = ((a.ACEs.map aceBytes).map List.length).sum :=
      rfl
    rw [Nat.mod_eq_of_lt (by omega)]
    omega)]
  rw [if_neg (show ¬ a.ACEs.length % 65536 ≠ a.AceCount from by
    have hle := length_le_aceTotalLen a.ACEs
    rw [Nat.mod_eq_of_lt (by omega)]
    omega)]
  simp only [Except.ok.injEq, aclBytes]
  have he : ((a.ACEs.map aceBytes).map List.length).sum = aceTotalLen a.ACEs :=
    rfl
  rw [he]

/-- The cursor loop of `parseACLBinary` recovers a serialized ACE list. -/
lemma parseACEListLoop_round (es : List ACE) (data : Bytes)
    (aclSize : Nat) : ∀ (off : Nat) (tail : Bytes),
    (∀ e ∈ es, ValidACE e) →
    data.length < 65536 →
    data.drop off = (es.map aceBytes).flatten ++ tail →
    off + aceTotalLen es ≤ aclSize →
    aclSize ≤ 65535 →
    parseACEListLoop data aclSize es.length off = .ok es := by
  induction es with
  | nil => intro off tail _ _ _ _ _; rfl
  | cons e es ih =>
    intro off tail hval hdata hdrop hbound hacl
    have hve : ValidACE e := hval e (by simp)
    have helen : (aceBytes e).length = 16 + 4 * e.SID.SubAuthority.length :=
      aceBytes_length e
    have htc : aceTotalLen (e :: es) = (aceBytes e).length + aceTotalLen es :=
      aceTotalLen_cons e es
    simp only [List.length_cons, parseACEListLoop]
    rw [if_neg (show ¬ off ≥ aclSize from by omega)]
    have hdrop2 : data.drop off =
        aceBytes e ++ ((es.map aceBytes).flatten ++ tail) := by
      rw [hdrop]; simp
    have hlen2 : (aceBytes e ++ ((es.map aceBytes).flatten ++ tail)).length <
        65536 := by
      rw [← hdrop2]
      calc (data.drop off).length ≤ data.length := by
            rw [List.length_drop]; omega
        _ < 65536 := hdata
    rw [hdrop2, parseACEBinary_round e _ hve hlen2]
    simp only []
    have hsz : e.Header.AceSize = (aceBytes e).length := by
      rw [helen]; exact hve.2.2.2.2
    have hmod : (off + e.Header.AceSize) % 65536 = off + (aceBytes e).length := by
      rw [hsz]; exact Nat.mod_eq_of_lt (by omega)
    rw [hmod]
    have hdrop3 : data.drop (off + (aceBytes e).length) =
        (es.map aceBytes).flatten ++ tail := by
      rw [← List.drop_drop ((aceBytes e).length) off data, hdrop2]
      exact List.drop_left _ _
    rw [ih (off + (aceBytes e).length) tail
      (fun x hx => hval x (by simp [hx])) hdata hdrop3 (by omega) hacl]

lemma parseACLBinary_round (a : ACL) (typ : Str) (ctrl : Nat) (rest : Bytes)
    (hv : ValidACL a) (hlen : (aclBytes a ++ rest).length < 65536) :
    parseACLBinary (aclBytes a ++ rest) typ ctrl =
      .ok ⟨a.AclRevision, a.Sbzl, a.AclSize, a.AceCount, a.Sbz2, typ, ctrl,
           a.ACEs⟩ := by
  obtain ⟨hes, _, _, hsbz2, hsz, hcnt, hmax⟩ := hv
  have hflatlen : ((a.ACEs.map aceBytes).flatten).length = aceTotalLen a.ACEs := by
    rw [List.length_flatten]; rfl
  have hcntsmall : a.ACEs.length < 65536 := by
    have := length_le_aceTotalLen a.ACEs
    omega
  have hshape : aclBytes a ++ rest =
      [a.AclRevision, a.Sbzl,
       (8 + aceTotalLen a.ACEs) % 256, (8 + aceTotalLen a.ACEs) / 256 % 256,
       a.ACEs.length % 65536 % 256, a.ACEs.length % 65536 / 256 % 256,
       a.Sbz2 % 256, a.Sbz2 / 256 % 256] ++
      ((a.ACEs.map aceBytes).flatten ++ rest) := by
    simp [aclBytes, le16]
  have htot : (aclBytes a ++ rest).length =
      8 + (aceTotalLen a.ACEs + rest.length) := by
    rw [List.length_append, aclBytes_length]; omega
  have htot2 : 8 + (aceTotalLen a.ACEs + rest.length) < 65536 := by
    rw [← htot]; exact hlen
  rw [hshape]
  simp only [parseACLBinary]
  rw [show ([a.AclRevision, a.Sbzl,
       (8 + aceTotalLen a.ACEs) % 256, (8 + aceTotalLen a.ACEs) / 256 % 256,
       a.ACEs.length % 65536 % 256, a.ACEs.length % 65536 / 256 % 256,
       a.Sbz2 % 256, a.Sbz2 / 256 % 256] ++
      ((a.ACEs.map aceBytes).flatten ++ rest)).length =
      8 + (aceTotalLen a.ACEs + rest.length) from by
    simp only [List.length_append, List.length_cons, List.length_nil, hflatlen]]
  rw [Nat.mod_eq_of_lt htot2]
  rw [if_neg (show ¬ 8 + (aceTotalLen a.ACEs + rest.length) < 8 from by omega)]
  rw [show ([a.AclRevision, a.Sbzl,
       (8 + aceTotalLen a.ACEs) % 256, (8 + aceTotalLen a.ACEs) / 256 % 256,
       a.ACEs.length % 65536 % 256, a.ACEs.length % 65536 / 256 % 256,
       a.Sbz2 % 256, a.Sbz2 / 256 % 256] ++
      ((a.ACEs.map aceBytes).flatten ++ rest)).getD 2 0 =
      (8 + aceTotalLen a.ACEs) % 256 from rfl]
  rw [show ([a.AclRevision, a.Sbzl,
       (8 + aceTotalLen a.ACEs) % 256, (8 + aceTotalLen a.ACEs) / 256 % 256,
       a.ACEs.length % 65536 % 256, a.ACEs.length % 65536 / 256 % 256,
       a.Sbz2 % 256, a.Sbz2 / 256 % 256] ++
      ((a.ACEs.map aceBytes).flatten ++ rest)).getD 3 0 =
      (8 + aceTotalLen a.ACEs) / 256 % 256 from rfl]
  rw [show ([a.AclRevision, a.Sbzl,
       (8 + aceTotalLen a.ACEs) % 256, (8 + aceTotalLen a.ACEs) / 256 % 256,
       a.ACEs.length % 65536 % 256, a.ACEs.length % 65536 / 256 % 256,
       a.Sbz2 % 256, a.Sbz2 / 256 % 256] ++
      ((a.ACEs.map aceBytes).flatten ++ rest)).getD 4 0 =
      a.ACEs.length % 65536 % 256 from rfl]
  rw [show ([a.AclRevision, a.Sbzl,
       (8 + aceTotalLen a.ACEs) % 256, (8 + aceTotalLen a.ACEs) / 256 % 256,
       a.ACEs.length % 65536 % 256, a.ACEs.length % 65536 / 256 % 256,
       a.Sbz2 % 256, a.Sbz2 / 256 % 256] ++
      ((a.ACEs.map aceBytes).flatten ++ rest)).getD 5 0 =
      a.ACEs.length % 65536 / 256 % 256 from rfl]
  rw [show ([a.AclRevision, a.Sbzl,
       (8 + aceTotalLen a.ACEs) % 256, (8 + aceTotalLen a.ACEs) / 256 % 256,
       a.ACEs.length % 65536 % 256, a.ACEs.length % 65536 / 256 % 256,
       a.Sbz2 % 256, a.Sbz2 / 256 % 256] ++
      ((a.ACEs.map aceBytes).flatten ++ rest)).getD 6 0 =
      a.Sbz2 % 256 from rfl]
  rw [show ([a.AclRevision, a.Sbzl,
       (8 + aceTotalLen a.ACEs) % 256, (8 + aceTotalLen a.ACEs) / 256 % 256,
       a.ACEs.length % 65536 % 256, a.ACEs.length % 65536 / 256 % 256,
       a.Sbz2 % 256, a.Sbz2 / 256 % 256] ++
      ((a.ACEs.map aceBytes).flatten ++ rest)).getD 7 0 =
      a.Sbz2 / 256 % 256 from rfl]
  rw [le16get_mod (8 + aceTotalLen a.ACEs),
    Nat.mod_eq_of_lt (show 8 + aceTotalLen a.ACEs < 65536 from by omega)]
  rw [show le16get (a.ACEs.length % 65536 % 256)
      (a.ACEs.length % 65536 / 256 % 256) = a.ACEs.length % 65536 % 65536 from
    le16get_mod _]
  rw [show a.ACEs.length % 65536 % 65536 = a.ACEs.length from by omega]
  rw [le16get_mod a.Sbz2, Nat.mod_eq_of_lt hsbz2]
  have hdata : (([a.AclRevision, a.Sbzl,
       (8 + aceTotalLen a.ACEs) % 256, (8 + aceTotalLen a.ACEs) / 256 % 256,
       a.ACEs.length % 65536 % 256, a.ACEs.length % 65536 / 256 % 256,
       a.Sbz2 % 256, a.Sbz2 / 256 % 256] ++
      ((a.ACEs.map aceBytes).flatten ++ rest))).length < 65536 := by
    rw [← hshape]; exact hlen
  rw [parseACEListLoop_round a.ACEs _ (8 + aceTotalLen a.ACEs) 8 rest hes hdata
    rfl (Nat.le_refl _) (by omega)]
  simp only []
  rw [show 8 + aceTotalLen a.ACEs = a.AclSize from hsz.symm,
    show a.ACEs.length = a.AceCount from hcnt.symm]
  rfl

/-! ## Security descriptor binary round trip -/

/-- Validity of an optional SID. -/
def OptValidSID : Option SID → Prop
  | none => True
  | some s => ValidSID s

instance (o : Option SID) : Decidable (OptValidSID o) := by
  cases o <;> (unfold OptValidSID; infer_instance)

/-- Bytes of an optional SID component. -/
def optSidBytes : Option SID → Bytes
  | none => []
  | some s => sidBytes s

/-- Bytes of an optional ACL component. -/
def optAclBytes : Option ACL → Bytes
  | none => []
  | some a => aclBytes a

/-- Total length of the canonical self-relative encoding. -/
def totalSDLen (v : SecurityDescriptor) : Nat :=
  20 + (optSidBytes v.OwnerSID).length + (optSidBytes v.GroupSID).length +
    (optAclBytes v.SACL).length + (optAclBytes v.DACL).length

/-- The invariants under which the binary round trip is exact: §3's
invariants (valid SIDs, ACL size/count agreement, present bits agreeing with
present fields) plus the facts the encoder does not preserve arbitrary
choices of: the self-relative bit is already set, each ACL mirrors the
descriptor control and its positional type, the four offset fields hold the
canonical layout positions, and the encoding fits in 65535 bytes (beyond
which the decoder's uint16 truncation interferes). -/
def OptValidACLAt (typ : Str) (ctrl : Nat) : Option ACL → Prop
  | none => True
  | some a => ValidACL a ∧ a.AclType = typ ∧ a.Control = ctrl

instance (typ : Str) (ctrl : Nat) (o : Option ACL) :
    Decidable (OptValidACLAt typ ctrl o) := by
  cases o <;> (unfold OptValidACLAt; infer_instance)

def ValidSDBin (v : SecurityDescriptor) : Prop :=
  v.Revision < 256 ∧ v.Sbzl < 256 ∧ v.Control < 65536 ∧
    v.Control &&& SE_SELF_RELATIVE ≠ 0 ∧
    OptValidSID v.OwnerSID ∧ OptValidSID v.GroupSID ∧
    OptValidACLAt ['S'] v.Control v.SACL ∧
    OptValidACLAt ['D'] v.Control v.DACL ∧
    (v.SACL.isSome ↔ v.Control &&& SE_SACL_PRESENT ≠ 0) ∧
    (v.DACL.isSome ↔ v.Control &&& SE_DACL_PRESENT ≠ 0) ∧
    v.OwnerOffset = (if v.OwnerSID.isSome then 20 else 0) ∧
    v.GroupOffset = (if v.GroupSID.isSome then
      20 + (optSidBytes v.OwnerSID).length else 0) ∧
    v.SaclOffset = (if v.SACL.isSome then
      20 + (optSidBytes v.OwnerSID).length + (optSidBytes v.GroupSID).length
      else 0) ∧
    v.DaclOffset = (if v.DACL.isSome then
      20 + (optSidBytes v.OwnerSID).length + (optSidBytes v.GroupSID).length +
        (optAclBytes v.SACL).length else 0) ∧
    totalSDLen v ≤ 65535

instance (v : SecurityDescriptor) : Decidable (ValidSDBin v) := by
  unfold ValidSDBin; infer_instance

/-- The canonical bytes of a valid security descriptor; the offset fields of
a `ValidSDBin` descriptor already hold the back-patched positions. -/
def sdBytes (v : SecurityDescriptor) : Bytes :=
  [v.Revision, v.Sbzl] ++ le16 v.Control ++
  le32 v.OwnerOffset ++ le32 v.GroupOffset ++ le32 v.SaclOffset ++
  le32 v.DaclOffset ++
  (optSidBytes v.OwnerSID ++ (optSidBytes v.GroupSID ++
    (optAclBytes v.SACL ++ optAclBytes v.DACL)))

lemma lor_two_pow_eq_self (a k : Nat) :
    a ||| 2 ^ k = a ↔ a &&& 2 ^ k ≠ 0 := by
  constructor
  · intro h
    have ht : a.testBit k = true := by
      have := congrArg (fun x => Nat.testBit x k) h
      simpa [Nat.testBit_lor] using this
    rw [Nat.and_two_pow, ht]
    simp
  · intro h
    have ht : a.testBit k = true := by
      by_contra hc
      rw [Nat.and_two_pow] at h
      simp [Bool.not_eq_true] at hc
      rw [hc] at h
      simp at h
    apply Nat.eq_of_testBit_eq
    intro i
    rw [Nat.testBit_lor]
    by_cases hik : i = k
    · subst hik
      simp [ht]
    · rw [Nat.testBit_two_pow_of_ne (fun he => hik he.symm)]
      simp

lemma control_or_self_relative (c : Nat) (h : c &&& SE_SELF_RELATIVE ≠ 0) :
    c ||| SE_SELF_RELATIVE = c := by
  have : SE_SELF_RELATIVE = 2 ^ 15 := by norm_num [SE_SELF_RELATIVE]
  rw [this]
  rw [lor_two_pow_eq_self]
  rw [← this]
  exact h

lemma binSIDOpt_ok (msg : String) (o : Option SID) (h : OptValidSID o) :
    binSIDOpt msg o = .ok (o.map sidBytes) := by
  cases o with
  | none => rfl
  | some s => simp [binSIDOpt, sid_Binary_ok s h]

lemma optLen_map_sid (o : Option SID) :
    optLen (o.map sidBytes) = (optSidBytes o).length := by
  cases o <;> rfl

lemma optBytes_map_sid (o : Option SID) :
    optBytes (o.map sidBytes) = optSidBytes o := by
  cases o <;> rfl

lemma optLen_map_acl (o : Option ACL) :
    optLen (o.map aclBytes) = (optAclBytes o).length := by
  cases o <;> rfl

lemma optBytes_map_acl (o : Option ACL) :
    optBytes (o.map aclBytes) = optAclBytes o := by
  cases o <;> rfl

lemma offsIfPresent_map {α : Type _} (f : α → Bytes) (o : Option α) (k : Nat) :
    offsIfPresent (o.map f) k = if o.isSome then k else 0 := by
  cases o <;> rfl

lemma binSACLOpt_ok (sd : SecurityDescriptor)
    (hpres : sd.SACL.isSome ↔ sd.Control &&& SE_SACL_PRESENT ≠ 0)
    (hval : ∀ a, sd.SACL = some a → ValidACL a) :
    binSACLOpt sd = .ok (sd.SACL.map aclBytes) := by
  cases hs : sd.SACL with
  | none =>
    have : ¬ sd.Control &&& SE_SACL_PRESENT ≠ 0 := by
      rw [← hpres, hs]; simp
    simp [binSACLOpt, hs, this]
  | some a =>
    have hbit : sd.Control &&& SE_SACL_PRESENT ≠ 0 := by
      rw [← hpres, hs]; simp
    simp [binSACLOpt, hs, hbit, acl_Binary_ok a (hval a hs)]

lemma binDACLOpt_ok (sd : SecurityDescriptor)
    (hpres : sd.DACL.isSome ↔ sd.Control &&& SE_DACL_PRESENT ≠ 0)
    (hval : ∀ a, sd.DACL = some a → ValidACL a) :
    binDACLOpt sd = .ok (sd.DACL.map aclBytes) := by
  cases hs : sd.DACL with
  | none =>
    have : ¬ sd.Control &&& SE_DACL_PRESENT ≠ 0 := by
      rw [← hpres, hs]; simp
    simp [binDACLOpt, hs, this]
  | some a =>
    have hbit : sd.Control &&& SE_DACL_PRESENT ≠ 0 := by
      rw [← hpres, hs]; simp
    simp [binDACLOpt, hs, hbit, acl_Binary_ok a (hval a hs)]

lemma sd_Binary_ok (v : SecurityDescriptor)
    (hv : ValidSDBin v) : v.Binary = .ok (sdBytes v) := by
  obtain ⟨hrev, hsbzl, hc16, hcbit, how, hgr, hsa, hda, hsap, hdap, hoo, hgo,
    hso, hdo, htot⟩ := hv
  have hctrl : v.Control ||| SE_SELF_RELATIVE = v.Control :=
    control_or_self_relative _ hcbit
  have hvsame : { v with Control := v.Control ||| SE_SELF_RELATIVE } = v := by
    rw [hctrl]
  unfold SecurityDescriptor.Binary SecurityDescriptor.BinaryFull
  simp only [hvsame]
  unfold SecurityDescriptor.binaryBody
  rw [binSIDOpt_ok _ _ how, binSIDOpt_ok _ _ hgr,
    binSACLOpt_ok v hsap (fun a ha => by rw [ha] at hsa; exact hsa.1),
    binDACLOpt_ok v hdap (fun a ha => by rw [ha] at hda; exact hda.1)]
  simp only [offsIfPresent_map, optLen_map_sid, optLen_map_acl,
    optBytes_map_sid, optBytes_map_acl]
  have h1 : (if v.OwnerSID.isSome then 20 else 0) % 4294967296 =
      (if v.OwnerSID.isSome then 20 else 0) := by
    apply Nat.mod_eq_of_lt; split <;> omega
  have htot' : 20 + (optSidBytes v.OwnerSID).length +
      (optSidBytes v.GroupSID).length + (optAclBytes v.SACL).length +
      (optAclBytes v.DACL).length ≤ 65535 := htot
  have h2 : (if v.GroupSID.isSome then
      20 + (optSidBytes v.OwnerSID).length else 0) % 4294967296 =
      (if v.GroupSID.isSome then
        20 + (optSidBytes v.OwnerSID).length else 0) := by
    apply Nat.mod_eq_of_lt; split <;> omega
  have h3 : (if v.SACL.isSome then
      20 + (optSidBytes v.OwnerSID).length + (optSidBytes v.GroupSID).length
      else 0) % 4294967296 =
      (if v.SACL.isSome then
        20 + (optSidBytes v.OwnerSID).length + (optSidBytes v.GroupSID).length
        else 0) := by
    apply Nat.mod_eq_of_lt; split <;> omega
  have h4 : (if v.DACL.isSome then
      20 + (optSidBytes v.OwnerSID).length + (optSidBytes v.GroupSID).length +
        (optAclBytes v.SACL).length else 0) % 4294967296 =
      (if v.DACL.isSome then
        20 + (optSidBytes v.OwnerSID).length + (optSidBytes v.GroupSID).length
          + (optAclBytes v.SACL).length else 0) := by
    apply Nat.mod_eq_of_lt; split <;> omega
  rw [h1, h2, h3, h4, ← hoo, ← hgo, ← hso, ← hdo]
  unfold sdBytes
  simp

lemma optSidBytes_len_present (o : Option SID) (h : o.isSome = true) :
    8 ≤ (optSidBytes o).length := by
  cases o with
  | none => simp at h
  | some s => rw [optSidBytes, sidBytes_length]; omega

lemma optAclBytes_len_present (o : Option ACL) (h : o.isSome = true) :
    8 ≤ (optAclBytes o).length := by
  cases o with
  | none => simp at h
  | some a => rw [optAclBytes, aclBytes_length]; omega

lemma sdBytes_length (v : SecurityDescriptor) :
    (sdBytes v).length = totalSDLen v := by
  unfold sdBytes totalSDLen
  simp only [List.length_append, List.length_cons, List.length_nil,
    le16_length, le32_length]
  omega

lemma ParseSecurityDescriptorBinary_round (v : SecurityDescriptor)
    (hv : ValidSDBin v) :
    ParseSecurityDescriptorBinary (sdBytes v) = .ok v := by
  obtain ⟨hrev, hsbzl, hc16, hcbit, how, hgr, hsa, hda, hsap, hdap, hoo, hgo,
    hso, hdo, htot⟩ := hv
  have htv : totalSDLen v = 20 + (optSidBytes v.OwnerSID).length +
      (optSidBytes v.GroupSID).length + (optAclBytes v.SACL).length +
      (optAclBytes v.DACL).length := rfl
  have hL : (sdBytes v).length = totalSDLen v := sdBytes_length v
  have hdrop20 : (sdBytes v).drop 20 = optSidBytes v.OwnerSID ++
      (optSidBytes v.GroupSID ++ (optAclBytes v.SACL ++
        optAclBytes v.DACL)) := rfl
  have hdropG : (sdBytes v).drop (20 + (optSidBytes v.OwnerSID).length) =
      optSidBytes v.GroupSID ++ (optAclBytes v.SACL ++
        optAclBytes v.DACL) := by
    rw [← List.drop_drop ((optSidBytes v.OwnerSID).length) 20 (sdBytes v),
      hdrop20]
    exact List.drop_left _ _
  have hdropS : (sdBytes v).drop (20 + (optSidBytes v.OwnerSID).length +
      (optSidBytes v.GroupSID).length) =
      optAclBytes v.SACL ++ optAclBytes v.DACL := by
    rw [← List.drop_drop ((optSidBytes v.GroupSID).length)
      (20 + (optSidBytes v.OwnerSID).length) (sdBytes v), hdropG]
    exact List.drop_left _ _
  have hdropD : (sdBytes v).drop (20 + (optSidBytes v.OwnerSID).length +
      (optSidBytes v.GroupSID).length + (optAclBytes v.SACL).length) =
      optAclBytes v.DACL := by
    rw [← List.drop_drop ((optAclBytes v.SACL).length)
      (20 + (optSidBytes v.OwnerSID).length +
        (optSidBytes v.GroupSID).length) (sdBytes v), hdropS]
    have := List.drop_left (optAclBytes v.SACL) (optAclBytes v.DACL)
    rw [this]
  have hOwEq : parseSDSIDComp (sdBytes v) v.OwnerOffset
      "error parsing owner SID: " = .ok v.OwnerSID := by
    cases hc : v.OwnerSID with
    | none =>
      rw [hoo, hc]
      rfl
    | some s =>
      have hsome : v.OwnerSID.isSome = true := by rw [hc]; rfl
      rw [hoo, if_pos hsome]
      unfold parseSDSIDComp
      rw [if_pos (by omega)]
      have hsid : ValidSID s := by
        have := how
        rw [hc] at this
        exact this
      rw [hdrop20, hc]
      rw [show optSidBytes (some s) = sidBytes s from rfl]
      rw [parseSIDBinary_round s _ hsid]
  have hGrEq : parseSDSIDComp (sdBytes v) v.GroupOffset
      "error parsing group SID: " = .ok v.GroupSID := by
    cases hc : v.GroupSID with
    | none =>
      rw [hgo, hc]
      rfl
    | some s =>
      have hsome : v.GroupSID.isSome = true := by rw [hc]; rfl
      rw [hgo, if_pos hsome]
      unfold parseSDSIDComp
      rw [if_pos (by omega)]
      have hsid : ValidSID s := by
        have := hgr
        rw [hc] at this
        exact this
      rw [hdropG, hc]
      rw [show optSidBytes (some s) = sidBytes s from rfl]
      rw [parseSIDBinary_round s _ hsid]
  have hSaEq : parseSDACLComp (sdBytes v) v.SaclOffset ['S'] v.Control
      "error parsing SACL: " = .ok v.SACL := by
    cases hc : v.SACL with
    | none =>
      rw [hso, hc]
      rfl
    | some a =>
      have hsome : v.SACL.isSome = true := by rw [hc]; rfl
      rw [hso, if_pos hsome]
      unfold parseSDACLComp
      rw [if_pos (by omega)]
      obtain ⟨hva, htyp, hctl⟩ : ValidACL a ∧ a.AclType = ['S'] ∧
          a.Control = v.Control := by rw [hc] at hsa; exact hsa
      rw [hdropS, hc]
      rw [show optAclBytes (some a) = aclBytes a from rfl]
      have hlenA : (aclBytes a ++ optAclBytes v.DACL).length < 65536 := by
        have h1 : (aclBytes a).length = (optAclBytes v.SACL).length := by
          rw [hc]
          rfl
        rw [List.length_append]
        omega
      rw [parseACLBinary_round a ['S'] v.Control (optAclBytes v.DACL) hva
        hlenA]
      rw [← htyp, ← hctl]
  have hDaEq : parseSDACLComp (sdBytes v) v.DaclOffset ['D'] v.Control
      "error parsing DACL: " = .ok v.DACL := by
    cases hc : v.DACL with
    | none =>
      rw [hdo, hc]
      rfl
    | some a =>
      have hsome : v.DACL.isSome = true := by rw [hc]; rfl
      rw [hdo, if_pos hsome]
      unfold parseSDACLComp
      rw [if_pos (by omega)]
      obtain ⟨hva, htyp, hctl⟩ : ValidACL a ∧ a.AclType = ['D'] ∧
          a.Control = v.Control := by rw [hc] at hda; exact hda
      rw [hdropD, hc]
      rw [show optAclBytes (some a) = aclBytes a from rfl]
      have hlenA : (aclBytes a ++ ([] : Bytes)).length < 65536 := by
        have h1 : (aclBytes a).length = (optAclBytes v.DACL).length := by
          rw [hc]
          rfl
        rw [List.length_append]
        simp only [List.length_nil]
        omega
      have : aclBytes a = aclBytes a ++ ([] : Bytes) := by simp
      rw [this, parseACLBinary_round a ['D'] v.Control ([] : Bytes) hva hlenA]
      rw [← htyp, ← hctl]
  simp only [ParseSecurityDescriptorBinary]
  rw [hL]
  rw [Nat.mod_eq_of_lt (show totalSDLen v < 4294967296 from by omega)]
  rw [if_neg (show ¬ totalSDLen v < 20 from by omega)]
  rw [show le16get ((sdBytes v).getD 2 0) ((sdBytes v).getD 3 0) =
    v.Control % 65536 from le16get_mod v.Control, Nat.mod_eq_of_lt hc16]
  rw [show le32get ((sdBytes v).getD 4 0) ((sdBytes v).getD 5 0)
    ((sdBytes v).getD 6 0) ((sdBytes v).getD 7 0) =
    v.OwnerOffset % 4294967296 from le32get_mod v.OwnerOffset]
  rw [show le32get ((sdBytes v).getD 8 0) ((sdBytes v).getD 9 0)
    ((sdBytes v).getD 10 0) ((sdBytes v).getD 11 0) =
    v.GroupOffset % 4294967296 from le32get_mod v.GroupOffset]
  rw [show le32get ((sdBytes v).getD 12 0) ((sdBytes v).getD 13 0)
    ((sdBytes v).getD 14 0) ((sdBytes v).getD 15 0) =
    v.SaclOffset % 4294967296 from le32get_mod v.SaclOffset]
  rw [show le32get ((sdBytes v).getD 16 0) ((sdBytes v).getD 17 0)
    ((sdBytes v).getD 18 0) ((sdBytes v).getD 19 0) =
    v.DaclOffset % 4294967296 from le32get_mod v.DaclOffset]
  have hooS : v.OwnerOffset % 4294967296 = v.OwnerOffset := by
    apply Nat.mod_eq_of_lt
    rw [hoo]; split <;> omega
  have hgoS : v.GroupOffset % 4294967296 = v.GroupOffset := by
    apply Nat.mod_eq_of_lt
    rw [hgo]; split <;> omega
  have hsoS : v.SaclOffset % 4294967296 = v.SaclOffset := by
    apply Nat.mod_eq_of_lt
    rw [hso]; split <;> omega
  have hdoS : v.DaclOffset % 4294967296 = v.DaclOffset := by
    apply Nat.mod_eq_of_lt
    rw [hdo]; split <;> omega
  rw [hooS, hgoS, hsoS, hdoS]
  rw [if_neg (show ¬ (v.OwnerOffset > 0 ∧ v.OwnerOffset ≥ totalSDLen v)
      from by
    by_cases hS : v.OwnerSID.isSome
    · rw [hoo, if_pos hS]
      have := optSidBytes_len_present _ hS
      omega
    · rw [hoo, if_neg hS]
      omega)]
  rw [if_neg (show ¬ (v.GroupOffset > 0 ∧ v.GroupOffset ≥ totalSDLen v)
      from by
    by_cases hS : v.GroupSID.isSome
    · rw [hgo, if_pos hS]
      have := optSidBytes_len_present _ hS
      omega
    · rw [hgo, if_neg hS]
      omega)]
  rw [if_neg (show ¬ (v.SaclOffset > 0 ∧ v.SaclOffset ≥ totalSDLen v)
      from by
    by_cases hS : v.SACL.isSome
    · rw [hso, if_pos hS]
      have := optAclBytes_len_present _ hS
      omega
    · rw [hso, if_neg hS]
      omega)]
  rw [if_neg (show ¬ (v.DaclOffset > 0 ∧ v.DaclOffset ≥ totalSDLen v)
      from by
    by_cases hS : v.DACL.isSome
    · rw [hdo, if_pos hS]
      have := optAclBytes_len_present _ hS
      omega
    · rw [hdo, if_neg hS]
      omega)]
  rw [hOwEq, hGrEq, hDaEq, hSaEq]
  rfl

/-! ## Claim C1: binary round trip -/

/-- The binary round trip: serialize, then parse. -/
def binRoundTrip (v : SecurityDescriptor) : Except String SecurityDescriptor :=
  match v.Binary with
  | .error err => .error err
  | .ok bs => ParseSecurityDescriptorBinary bs

/-- The ACL invariants listed by the claim: size and count fields matching
the ACE list, with valid trustee SIDs and consistent ACE sizes. -/
def SpecValidACL (a : ACL) : Prop :=
  a.AclSize = 8 + (a.ACEs.map (fun e => e.Header.AceSize)).sum ∧
    a.AceCount = a.ACEs.length ∧
    ∀ e ∈ a.ACEs, ValidSID e.SID ∧
      e.Header.AceSize = 16 + 4 * e.SID.SubAuthority.length

instance (a : ACL) : Decidable (SpecValidACL a) := by
  unfold SpecValidACL; infer_instance

def OptSpecValidACL : Option ACL → Prop
  | none => True
  | some a => SpecValidACL a

instance (o : Option ACL) : Decidable (OptSpecValidACL o) := by
  cases o <;> (unfold OptSpecValidACL; infer_instance)

/-- Modelled from the claim text: the §3 invariants it enumerates (revision
1, valid SIDs with at most 15 sub-authorities and authority below 2^48, ACL
size/count fields matching their ACE lists, present bits agreeing with
present fields). -/
def SpecValidSD (v : SecurityDescriptor) : Prop :=
  v.Revision = 1 ∧ OptValidSID v.OwnerSID ∧ OptValidSID v.GroupSID ∧
    OptSpecValidACL v.SACL ∧ OptSpecValidACL v.DACL ∧
    (v.SACL.isSome ↔ v.Control &&& SE_SACL_PRESENT ≠ 0) ∧
    (v.DACL.isSome ↔ v.Control &&& SE_DACL_PRESENT ≠ 0)

instance (v : SecurityDescriptor) : Decidable (SpecValidSD v) := by
  unfold SpecValidSD; infer_instance

/-- A descriptor meeting every invariant the claim lists, whose
`OwnerOffset` is 5 (non-zero, less than the 20-byte total, and not the
encoder's recomputed value 0 for an absent owner). -/
def sdC1cex : SecurityDescriptor :=
  ⟨1, 0, 0x8000, 5, 0, 0, 0, none, none, none, none⟩

/-- The descriptor `sdC1cex` actually parsed back from its own encoding:
the offset fields are recomputed, so `OwnerOffset` comes back 0. -/
def sdC1parsed : SecurityDescriptor :=
  ⟨1, 0, 0x8000, 0, 0, 0, 0, none, none, none, none⟩

/-- C1 counterexample: `sdC1cex` satisfies the invariants the claim lists,
yet parsing its serialization does not return a value structurally equal to
it — the offset fields are recomputed by the encoder, not preserved. -/
theorem C1_binary_round_trip_counterexample :
    SpecValidSD sdC1cex ∧
    binRoundTrip sdC1cex = .ok sdC1parsed ∧ sdC1parsed ≠ sdC1cex := by
  refine ⟨by decide, by rfl, by decide⟩

/-- C1 (amended): for every descriptor satisfying the §3 invariants together
with the canonicality conditions the encoder enforces — the self-relative
bit already set, each present ACL mirroring the descriptor's control and its
positional type, the offset fields holding the canonical layout positions,
and the total encoding at most 65535 bytes — parsing the serialization
yields a value structurally equal to the original, offset fields included. -/
theorem C1_binary_round_trip (v : SecurityDescriptor) (hv : ValidSDBin v) :
    binRoundTrip v = .ok v := by
  unfold binRoundTrip
  rw [sd_Binary_ok v hv]
  exact ParseSecurityDescriptorBinary_round v hv

/-- A concrete valid descriptor: owner `S-1-5-18`, a DACL with one
full-access ACE, canonical offsets 20 and 32. -/
def sdC1wit : SecurityDescriptor :=
  ⟨1, 0, 0x8004, 20, 0, 0, 32,
   some ⟨1, 5, [18]⟩, none, none,
   some ⟨2, 0, 28, 1, 0, ['D'], 0x8004,
     [⟨⟨0, 0, 20⟩, 0x1f01ff, ⟨1, 5, [18]⟩⟩]⟩⟩

/-- C1 witness: the amended round trip at a concrete descriptor. -/
theorem C1_binary_round_trip_witness :
    ValidSDBin sdC1wit ∧ binRoundTrip sdC1wit = .ok sdC1wit :=
  ⟨by decide, C1_binary_round_trip sdC1wit (by decide)⟩

/-! ## Claim C4: purity of `SecurityDescriptor.Binary` -/

/-- A descriptor whose control word is 0. -/
def sdC4cex : SecurityDescriptor :=
  ⟨1, 0, 0, 0, 0, 0, 0, none, none, none, none⟩

/-- C4 counterexample: `SecurityDescriptor.Binary` does not leave its
receiver unchanged — on a descriptor with control 0 the receiver's control
is 0x8000 after the call. -/
theorem C4_binary_purity_counterexample :
    (sdC4cex.BinaryFull).1 ≠ sdC4cex ∧
      (sdC4cex.BinaryFull).1.Control = 0x8000 := by
  refine ⟨by decide, by decide⟩

/-- C4 (amended): `SecurityDescriptor.Binary` leaves every field of its
receiver unchanged except `Control`, into which it ORs `SE_SELF_RELATIVE`
before doing anything else; the receiver is unchanged exactly when the
self-relative bit was already set.  This holds on success and error paths
alike (the result component is untouched here). -/
theorem C4_binary_receiver_mutation (sd : SecurityDescriptor) :
    ((sd.BinaryFull).1.Revision = sd.Revision ∧
     (sd.BinaryFull).1.Sbzl = sd.Sbzl ∧
     (sd.BinaryFull).1.OwnerOffset = sd.OwnerOffset ∧
     (sd.BinaryFull).1.GroupOffset = sd.GroupOffset ∧
     (sd.BinaryFull).1.SaclOffset = sd.SaclOffset ∧
     (sd.BinaryFull).1.DaclOffset = sd.DaclOffset ∧
     (sd.BinaryFull).1.OwnerSID = sd.OwnerSID ∧
     (sd.BinaryFull).1.GroupSID = sd.GroupSID ∧
     (sd.BinaryFull).1.SACL = sd.SACL ∧
     (sd.BinaryFull).1.DACL = sd.DACL ∧
     (sd.BinaryFull).1.Control = sd.Control ||| SE_SELF_RELATIVE) ∧
    ((sd.BinaryFull).1 = sd ↔ sd.Control &&& SE_SELF_RELATIVE ≠ 0) := by
  have hpost : (sd.BinaryFull).1 =
      { sd with Control := sd.Control ||| SE_SELF_RELATIVE } := rfl
  constructor
  · rw [hpost]
    exact ⟨rfl, rfl, rfl, rfl, rfl, rfl, rfl, rfl, rfl, rfl, rfl⟩
  · rw [hpost]
    constructor
    · intro h
      have hc := congrArg SecurityDescriptor.Control h
      simp only at hc
      have h15 : SE_SELF_RELATIVE = 2 ^ 15 := by norm_num [SE_SELF_RELATIVE]
      rw [h15] at hc
      rw [h15]
      exact (lor_two_pow_eq_self sd.Control 15).mp hc
    · intro h
      rw [control_or_self_relative _ h]

/-! ## Claim C7: control-bit agreement on encode -/

/-- The SACL field and its present bit disagree. -/
def SaclDisagree (sd : SecurityDescriptor) : Prop :=
  (sd.SACL.isSome ∧ sd.Control &&& SE_SACL_PRESENT = 0) ∨
  (sd.SACL = none ∧ sd.Control &&& SE_SACL_PRESENT ≠ 0)

instance (sd : SecurityDescriptor) : Decidable (SaclDisagree sd) := by
  unfold SaclDisagree; infer_instance

/-- The DACL field and its present bit disagree. -/
def DaclDisagree (sd : SecurityDescriptor) : Prop :=
  (sd.DACL.isSome ∧ sd.Control &&& SE_DACL_PRESENT = 0) ∨
  (sd.DACL = none ∧ sd.Control &&& SE_DACL_PRESENT ≠ 0)

instance (sd : SecurityDescriptor) : Decidable (DaclDisagree sd) := by
  unfold DaclDisagree; infer_instance

def OptOkSID : Option SID → Prop
  | none => True
  | some s => isOk s.Binary = true

instance (o : Option SID) : Decidable (OptOkSID o) := by
  cases o <;> (unfold OptOkSID; infer_instance)

def OptOkACL : Option ACL → Prop
  | none => True
  | some a => isOk a.Binary = true

instance (o : Option ACL) : Decidable (OptOkACL o) := by
  cases o <;> (unfold OptOkACL; infer_instance)

/-- Each present component of the descriptor serializes successfully. -/
def ComponentsOK (sd : SecurityDescriptor) : Prop :=
  OptOkSID sd.OwnerSID ∧ OptOkSID sd.GroupSID ∧ OptOkACL sd.SACL ∧
    OptOkACL sd.DACL

instance (sd : SecurityDescriptor) : Decidable (ComponentsOK sd) := by
  unfold ComponentsOK; infer_instance

lemma lor_pow_and_pow (a j k : Nat) (h : j ≠ k) :
    (a ||| 2 ^ k) &&& 2 ^ j = a &&& 2 ^ j := by
  rw [Nat.and_two_pow, Nat.and_two_pow, Nat.testBit_lor,
    Nat.testBit_two_pow_of_ne (fun he => h he.symm)]
  simp

lemma control_or_keeps_sacl (c : Nat) :
    (c ||| SE_SELF_RELATIVE) &&& SE_SACL_PRESENT = c &&& SE_SACL_PRESENT := by
  have h1 : SE_SELF_RELATIVE = 2 ^ 15 := by norm_num [SE_SELF_RELATIVE]
  have h2 : SE_SACL_PRESENT = 2 ^ 4 := by norm_num [SE_SACL_PRESENT]
  rw [h1, h2, lor_pow_and_pow c 4 15 (by omega)]

lemma control_or_keeps_dacl (c : Nat) :
    (c ||| SE_SELF_RELATIVE) &&& SE_DACL_PRESENT = c &&& SE_DACL_PRESENT := by
  have h1 : SE_SELF_RELATIVE = 2 ^ 15 := by norm_num [SE_SELF_RELATIVE]
  have h2 : SE_DACL_PRESENT = 2 ^ 2 := by norm_num [SE_DACL_PRESENT]
  rw [h1, h2, lor_pow_and_pow c 2 15 (by omega)]

lemma binSACLOpt_err_of_disagree (sd : SecurityDescriptor)
    (h : (sd.SACL.isSome ∧ sd.Control &&& SE_SACL_PRESENT = 0) ∨
         (sd.SACL = none ∧ sd.Control &&& SE_SACL_PRESENT ≠ 0)) :
    isErr (binSACLOpt sd) = true := by
  rcases h with ⟨hsome, hbit⟩ | ⟨hnone, hbit⟩
  · cases hs : sd.SACL with
    | none => rw [hs] at hsome; simp at hsome
    | some a => simp [binSACLOpt, hs, hbit, isErr]
  · simp [binSACLOpt, hnone, hbit, isErr]

lemma binDACLOpt_err_of_disagree (sd : SecurityDescriptor)
    (h : (sd.DACL.isSome ∧ sd.Control &&& SE_DACL_PRESENT = 0) ∨
         (sd.DACL = none ∧ sd.Control &&& SE_DACL_PRESENT ≠ 0)) :
    isErr (binDACLOpt sd) = true := by
  rcases h with ⟨hsome, hbit⟩ | ⟨hnone, hbit⟩
  · cases hs : sd.DACL with
    | none => rw [hs] at hsome; simp at hsome
    | some a => simp [binDACLOpt, hs, hbit, isErr]
  · simp [binDACLOpt, hnone, hbit, isErr]

lemma binaryBody_ok_bytes (x : SecurityDescriptor) (bs : Bytes)
    (h : x.binaryBody = .ok bs) :
    ∃ rest, bs = [x.Revision, x.Sbzl] ++ (le16 x.Control ++ rest) := by
  unfold SecurityDescriptor.binaryBody at h
  cases h1 : binSIDOpt "error converting Owner SID to binary: " x.OwnerSID with
  | error e => rw [h1] at h; exact absurd h (by simp)
  | ok ob =>
    rw [h1] at h
    cases h2 : binSIDOpt "error converting Group SID to binary: "
        x.GroupSID with
    | error e => rw [h2] at h; exact absurd h (by simp)
    | ok gb =>
      rw [h2] at h
      cases h3 : binSACLOpt x with
      | error e => rw [h3] at h; exact absurd h (by simp)
      | ok sb =>
        rw [h3] at h
        cases h4 : binDACLOpt x with
        | error e => rw [h4] at h; exact absurd h (by simp)
        | ok db =>
          rw [h4] at h
          simp only [Except.ok.injEq] at h
          refine ⟨le32 (offsIfPresent ob 20 % 4294967296) ++
            le32 (offsIfPresent gb (20 + optLen ob) % 4294967296) ++
            le32 (offsIfPresent sb (20 + optLen ob + optLen gb) %
              4294967296) ++
            le32 (offsIfPresent db (20 + optLen ob + optLen gb + optLen sb) %
              4294967296) ++
            optBytes ob ++ optBytes gb ++ optBytes sb ++ optBytes db, ?_⟩
          rw [← h]
          simp [List.append_assoc]

lemma mod_or_self_relative_bit (c : Nat) :
    ((c ||| SE_SELF_RELATIVE) % 65536) &&& SE_SELF_RELATIVE ≠ 0 := by
  have h15 : SE_SELF_RELATIVE = 2 ^ 15 := by norm_num [SE_SELF_RELATIVE]
  have h16 : (65536 : Nat) = 2 ^ 16 := by norm_num
  rw [h15, h16, Nat.and_two_pow]
  have ht : ((c ||| 2 ^ 15) % 2 ^ 16).testBit 15 = true := by
    rw [Nat.testBit_mod_two_pow]
    simp [Nat.testBit_lor]
    exact Or.inr (by decide)
  rw [ht]
  simp

lemma binaryBody_err_sacl (x : SecurityDescriptor)
    (h : (x.SACL.isSome ∧ x.Control &&& SE_SACL_PRESENT = 0) ∨
         (x.SACL = none ∧ x.Control &&& SE_SACL_PRESENT ≠ 0)) :
    isErr x.binaryBody = true := by
  unfold SecurityDescriptor.binaryBody
  cases h1 : binSIDOpt "error converting Owner SID to binary: " x.OwnerSID with
  | error e => rfl
  | ok ob =>
    cases h2 : binSIDOpt "error converting Group SID to binary: "
        x.GroupSID with
    | error e => rfl
    | ok gb =>
      have hd := binSACLOpt_err_of_disagree x h
      cases h3 : binSACLOpt x with
      | error e => rfl
      | ok sb => rw [h3] at hd; simp [isErr] at hd

lemma binaryBody_err_dacl (x : SecurityDescriptor)
    (h : (x.DACL.isSome ∧ x.Control &&& SE_DACL_PRESENT = 0) ∨
         (x.DACL = none ∧ x.Control &&& SE_DACL_PRESENT ≠ 0)) :
    isErr x.binaryBody = true := by
  unfold SecurityDescriptor.binaryBody
  cases h1 : binSIDOpt "error converting Owner SID to binary: " x.OwnerSID with
  | error e => rfl
  | ok ob =>
    cases h2 : binSIDOpt "error converting Group SID to binary: "
        x.GroupSID with
    | error e => rfl
    | ok gb =>
      cases h3 : binSACLOpt x with
      | error e => rfl
      | ok sb =>
        have hd := binDACLOpt_err_of_disagree x h
        cases h4 : binDACLOpt x with
        | error e => rfl
        | ok db => rw [h4] at hd; simp [isErr] at hd

lemma binSIDOpt_isOk (msg : String) (o : Option SID) (h : OptOkSID o) :
    ∃ r, binSIDOpt msg o = .ok r := by
  cases o with
  | none => exact ⟨none, rfl⟩
  | some s =>
    unfold OptOkSID at h
    simp only [] at h
    cases hb : s.Binary with
    | error e => rw [hb] at h; simp [isOk] at h
    | ok b => exact ⟨some b, by simp [binSIDOpt, hb]⟩

lemma binSACLOpt_isOk (x : SecurityDescriptor) (h : OptOkACL x.SACL)
    (hagree : ¬ ((x.SACL.isSome ∧ x.Control &&& SE_SACL_PRESENT = 0) ∨
         (x.SACL = none ∧ x.Control &&& SE_SACL_PRESENT ≠ 0))) :
    ∃ r, binSACLOpt x = .ok r := by
  cases hs : x.SACL with
  | none =>
    have hbit : ¬ x.Control &&& SE_SACL_PRESENT ≠ 0 := fun hb =>
      hagree (Or.inr ⟨hs, hb⟩)
    exact ⟨none, by simp [binSACLOpt, hs, hbit]⟩
  | some a =>
    have hbit : x.Control &&& SE_SACL_PRESENT ≠ 0 := by
      intro hb
      exact hagree (Or.inl ⟨by rw [hs]; rfl, hb⟩)
    unfold OptOkACL at h
    rw [hs] at h
    simp only [] at h
    cases hb : a.Binary with
    | error e => rw [hb] at h; simp [isOk] at h
    | ok b => exact ⟨some b, by simp [binSACLOpt, hs, hbit, hb]⟩

lemma binDACLOpt_isOk (x : SecurityDescriptor) (h : OptOkACL x.DACL)
    (hagree : ¬ ((x.DACL.isSome ∧ x.Control &&& SE_DACL_PRESENT = 0) ∨
         (x.DACL = none ∧ x.Control &&& SE_DACL_PRESENT ≠ 0))) :
    ∃ r, binDACLOpt x = .ok r := by
  cases hs : x.DACL with
  | none =>
    have hbit : ¬ x.Control &&& SE_DACL_PRESENT ≠ 0 := fun hb =>
      hagree (Or.inr ⟨hs, hb⟩)
    exact ⟨none, by simp [binDACLOpt, hs, hbit]⟩
  | some a =>
    have hbit : x.Control &&& SE_DACL_PRESENT ≠ 0 := by
      intro hb
      exact hagree (Or.inl ⟨by rw [hs]; rfl, hb⟩)
    unfold OptOkACL at h
    rw [hs] at h
    simp only [] at h
    cases hb : a.Binary with
    | error e => rw [hb] at h; simp [isOk] at h
    | ok b => exact ⟨some b, by simp [binDACLOpt, hs, hbit, hb]⟩

/-- C7: `SecurityDescriptor.Binary` always emits the self-relative bit in
the control word of its output; a disagreement between the SACL (resp. DACL)
field and its present bit makes it fail; and — amended — when every present
component itself serializes successfully, it fails **exactly** on such a
disagreement.  (As stated the claim is false: serialization also fails when
a component is invalid even though bits and fields agree.) -/
theorem C7_control_bit_agreement (sd : SecurityDescriptor) :
    (∀ bs, sd.Binary = .ok bs →
      le16get (bs.getD 2 0) (bs.getD 3 0) &&& SE_SELF_RELATIVE ≠ 0) ∧
    (SaclDisagree sd → isErr sd.Binary = true) ∧
    (DaclDisagree sd → isErr sd.Binary = true) ∧
    (ComponentsOK sd →
      (isOk sd.Binary = true ↔ ¬ SaclDisagree sd ∧ ¬ DaclDisagree sd)) := by
  have hbin : sd.Binary =
      SecurityDescriptor.binaryBody
        { sd with Control := sd.Control ||| SE_SELF_RELATIVE } := rfl
  have hbitS : ({ sd with Control := sd.Control ||| SE_SELF_RELATIVE } :
      SecurityDescriptor).Control &&& SE_SACL_PRESENT =
      sd.Control &&& SE_SACL_PRESENT := control_or_keeps_sacl sd.Control
  have hbitD : ({ sd with Control := sd.Control ||| SE_SELF_RELATIVE } :
      SecurityDescriptor).Control &&& SE_DACL_PRESENT =
      sd.Control &&& SE_DACL_PRESENT := control_or_keeps_dacl sd.Control
  refine ⟨?_, ?_, ?_, ?_⟩
  · intro bs hbs
    rw [hbin] at hbs
    obtain ⟨rest, hrest⟩ := binaryBody_ok_bytes _ bs hbs
    subst hrest
    rw [show le16get (([({ sd with Control := sd.Control ||| SE_SELF_RELATIVE }
          : SecurityDescriptor).Revision,
        ({ sd with Control := sd.Control ||| SE_SELF_RELATIVE }
          : SecurityDescriptor).Sbzl] ++
        (le16 ({ sd with Control := sd.Control ||| SE_SELF_RELATIVE }
          : SecurityDescriptor).Control ++ rest)).getD 2 0)
        (([({ sd with Control := sd.Control ||| SE_SELF_RELATIVE }
          : SecurityDescriptor).Revision,
        ({ sd with Control := sd.Control ||| SE_SELF_RELATIVE }
          : SecurityDescriptor).Sbzl] ++
        (le16 ({ sd with Control := sd.Control ||| SE_SELF_RELATIVE }
          : SecurityDescriptor).Control ++ rest)).getD 3 0) =
        (sd.Control ||| SE_SELF_RELATIVE) % 65536 from
      le16get_mod (sd.Control ||| SE_SELF_RELATIVE)]
    exact mod_or_self_relative_bit sd.Control
  · intro h
    rw [hbin]
    exact binaryBody_err_sacl _ (by
      rcases h with ⟨hs, hb⟩ | ⟨hs, hb⟩
      · exact Or.inl ⟨hs, by rw [hbitS]; exact hb⟩
      · exact Or.inr ⟨hs, by rw [hbitS]; exact hb⟩)
  · intro h
    rw [hbin]
    exact binaryBody_err_dacl _ (by
      rcases h with ⟨hs, hb⟩ | ⟨hs, hb⟩
      · exact Or.inl ⟨hs, by rw [hbitD]; exact hb⟩
      · exact Or.inr ⟨hs, by rw [hbitD]; exact hb⟩)
  · intro hcomp
    constructor
    · intro hok
      constructor
      · intro hS
        have herr : isErr sd.Binary = true := by
          rw [hbin]
          exact binaryBody_err_sacl _ (by
            rcases hS with ⟨hs, hb⟩ | ⟨hs, hb⟩
            · exact Or.inl ⟨hs, by rw [hbitS]; exact hb⟩
            · exact Or.inr ⟨hs, by rw [hbitS]; exact hb⟩)
        cases hr : sd.Binary with
        | error e => rw [hr] at hok; simp [isOk] at hok
        | ok b => rw [hr] at herr; simp [isErr] at herr
      · intro hD
        have herr : isErr sd.Binary = true := by
          rw [hbin]
          exact binaryBody_err_dacl _ (by
            rcases hD with ⟨hs, hb⟩ | ⟨hs, hb⟩
            · exact Or.inl ⟨hs, by rw [hbitD]; exact hb⟩
            · exact Or.inr ⟨hs, by rw [hbitD]; exact hb⟩)
        cases hr : sd.Binary with
        | error e => rw [hr] at hok; simp [isOk] at hok
        | ok b => rw [hr] at herr; simp [isErr] at herr
    · intro ⟨hnS, hnD⟩
      obtain ⟨hcow, hcgr, hcsa, hcda⟩ := hcomp
      rw [hbin]
      obtain ⟨ob, hob⟩ := binSIDOpt_isOk
        "error converting Owner SID to binary: " sd.OwnerSID hcow
      obtain ⟨gb, hgb⟩ := binSIDOpt_isOk
        "error converting Group SID to binary: " sd.GroupSID hcgr
      obtain ⟨sb, hsb⟩ := binSACLOpt_isOk
        { sd with Control := sd.Control ||| SE_SELF_RELATIVE } hcsa (by
          intro hdis
          exact hnS (by
            rcases hdis with ⟨hs, hb⟩ | ⟨hs, hb⟩
            · exact Or.inl ⟨hs, by rw [hbitS] at hb; exact hb⟩
            · exact Or.inr ⟨hs, by rw [hbitS] at hb; exact hb⟩))
      obtain ⟨db, hdb⟩ := binDACLOpt_isOk
        { sd with Control := sd.Control ||| SE_SELF_RELATIVE } hcda (by
          intro hdis
          exact hnD (by
            rcases hdis with ⟨hs, hb⟩ | ⟨hs, hb⟩
            · exact Or.inl ⟨hs, by rw [hbitD] at hb; exact hb⟩
            · exact Or.inr ⟨hs, by rw [hbitD] at hb; exact hb⟩))
      unfold SecurityDescriptor.binaryBody
      rw [hob, hgb, hsb, hdb]
      rfl

/-- Descriptor whose ACL fields and present bits agree (neither present)
but whose owner SID has revision 2, so serialization fails anyway. -/
def sdC7cex : SecurityDescriptor :=
  ⟨1, 0, 0, 0, 0, 0, 0, some ⟨2, 5, [18]⟩, none, none, none⟩

/-- C7 counterexample: serialization does not fail *exactly* on a
present-bit/field disagreement — here both ACL fields agree with their
control bits, yet `Binary` errors because the owner SID is invalid. -/
theorem C7_control_bit_agreement_counterexample :
    ¬ SaclDisagree sdC7cex ∧ ¬ DaclDisagree sdC7cex ∧
    isErr (SecurityDescriptor.Binary sdC7cex) = true := by decide

/-- An empty DACL whose present bit agrees with the control word. -/
def sdC7acl : ACL := ⟨2, 0, 8, 0, 0, [], 0, []⟩

/-- Agreeing descriptor: DACL present and `SE_DACL_PRESENT` set. -/
def sdC7a : SecurityDescriptor :=
  ⟨1, 0, 4, 0, 0, 0, 0, none, none, none, some sdC7acl⟩

/-- Disagreeing descriptor: SACL present but `SE_SACL_PRESENT` clear. -/
def sdC7b : SecurityDescriptor :=
  ⟨1, 0, 0, 0, 0, 0, 0, none, none, some sdC7acl, none⟩

theorem C7_control_bit_agreement_witness :
    isOk (SecurityDescriptor.Binary sdC7a) = true ∧
    isErr (SecurityDescriptor.Binary sdC7b) = true :=
  ⟨((C7_control_bit_agreement sdC7a).2.2.2 (by decide)).mpr
      ⟨by decide, by decide⟩,
   (C7_control_bit_agreement sdC7b).2.1 (by decide)⟩

/-! ## Claim C8: encoder size cross-checks -/

lemma sid_binary_ok_min_len (s : SID) (sb : Bytes) (h : s.Binary = .ok sb) :
    8 ≤ sb.length := by
  unfold SID.Binary at h
  split at h
  · exact absurd h (by simp)
  · split at h
    · exact absurd h (by simp)
    · split at h
      · exact absurd h (by simp)
      · simp only [Except.ok.injEq] at h
        subst h
        rw [List.length_append, flatten_le32_length]
        simp only [List.length_cons, List.length_nil]
        omega

lemma ace_binary_ok_min_len (e : ACE) (bs : Bytes) (h : e.Binary = .ok bs) :
    16 ≤ bs.length := by
  unfold ACE.Binary at h
  cases hs : e.SID.Binary with
  | error err => rw [hs] at h; exact absurd h (by simp)
  | ok sb =>
    rw [hs] at h
    simp only [] at h
    have h8 : 8 ≤ sb.length := sid_binary_ok_min_len e.SID sb hs
    split at h
    · exact absurd h (by simp)
    · split at h
      · exact absurd h (by simp)
      · simp only [Except.ok.injEq] at h
        subst h
        simp only [List.length_append, List.length_cons, List.length_nil,
          le16_length, le32_length]
        omega

lemma serializeACEList_ok_lengths (es : List ACE) (bins : List Bytes)
    (h : serializeACEList es = .ok bins) :
    bins.length = es.length ∧ ∀ b ∈ bins, 16 ≤ b.length := by
  induction es generalizing bins with
  | nil =>
    simp only [serializeACEList, Except.ok.injEq] at h
    subst h
    simp
  | cons e rest ih =>
    unfold serializeACEList at h
    cases hb : e.Binary with
    | error err => rw [hb] at h; exact absurd h (by simp)
    | ok b =>
      rw [hb] at h
      simp only [] at h
      cases hr : serializeACEList rest with
      | error err => rw [hr] at h; exact absurd h (by simp)
      | ok bs =>
        rw [hr] at h
        simp only [Except.ok.injEq] at h
        subst h
        obtain ⟨hl, hm⟩ := ih bs hr
        refine ⟨by simp [hl], ?_⟩
        intro x hx
        rcases List.mem_cons.mp hx with hx | hx
        · rw [hx]; exact ace_binary_ok_min_len e b hb
        · exact hm x hx

lemma sum_len_lower (l : List Bytes) (h : ∀ b ∈ l, 16 ≤ b.length) :
    16 * l.length ≤ (l.map List.length).sum := by
  induction l with
  | nil => simp
  | cons b bs ih =>
    simp only [List.map_cons, List.sum_cons, List.length_cons]
    have h1 : 16 ≤ b.length := h b (by simp)
    have h2 := ih (fun x hx => h x (by simp [hx]))
    omega

/-- C8: the binary encoders cross-check declared sizes against computed
sizes and fail on disagreement.  With the trustee SID of `e` serializing to
`sb`, `ACE.Binary` errors when `8 + sb.length` exceeds 65535 or differs from
the stored `AceSize`, and otherwise emits exactly `8 + sb.length` bytes.
With the ACE list of `a` serializing to `bins`, `ACL.Binary` errors when
`8 + Σ lengths` exceeds 65535, differs from the stored `AclSize`, or the
stored `AceCount` differs from the actual number of ACEs, and otherwise
emits exactly `8 + Σ lengths` bytes. -/
theorem C8_size_cross_checks (e : ACE) (a : ACL) (sb : Bytes)
    (bins : List Bytes) (he : e.SID.Binary = .ok sb)
    (ha : serializeACEList a.ACEs = .ok bins) :
    (8 + sb.length > 65535 → isErr e.Binary = true) ∧
    (8 + sb.length ≤ 65535 → 8 + sb.length ≠ e.Header.AceSize →
      isErr e.Binary = true) ∧
    (8 + sb.length ≤ 65535 → 8 + sb.length = e.Header.AceSize →
      ∃ bs, e.Binary = .ok bs ∧ bs.length = 8 + sb.length) ∧
    (8 + (bins.map List.length).sum > 65535 → isErr a.Binary = true) ∧
    (8 + (bins.map List.length).sum ≤ 65535 →
      (8 + (bins.map List.length).sum ≠ a.AclSize ∨
        a.ACEs.length ≠ a.AceCount) → isErr a.Binary = true) ∧
    (8 + (bins.map List.length).sum ≤ 65535 →
      8 + (bins.map List.length).sum = a.AclSize →
      a.ACEs.length = a.AceCount →
      ∃ bs, a.Binary = .ok bs ∧
        bs.length = 8 + (bins.map List.length).sum) := by
  obtain ⟨hblen, hbmem⟩ := serializeACEList_ok_lengths a.ACEs bins ha
  have hsum := sum_len_lower bins hbmem
  refine ⟨?_, ?_, ?_, ?_, ?_, ?_⟩
  · intro h
    simp only [ACE.Binary, he]
    rw [if_pos (show 4 + 4 + sb.length > 65535 from by omega)]
    rfl
  · intro hle hne
    simp only [ACE.Binary, he]
    rw [if_neg (show ¬ 4 + 4 + sb.length > 65535 from by omega)]
    rw [if_pos (show (4 + 4 + sb.length) % 65536 ≠ e.Header.AceSize from by
      rw [Nat.mod_eq_of_lt (by omega)]; omega)]
    rfl
  · intro hle heq
    refine ⟨[e.Header.AceType, e.Header.AceFlags] ++
      le16 (4 + 4 + sb.length) ++ le32 e.AccessMask ++ sb, ?_, ?_⟩
    · simp only [ACE.Binary, he]
      rw [if_neg (show ¬ 4 + 4 + sb.length > 65535 from by omega)]
      rw [if_neg (show ¬ (4 + 4 + sb.length) % 65536 ≠ e.Header.AceSize
        from by rw [Nat.mod_eq_of_lt (by omega)]; omega)]
    · simp only [List.length_append, List.length_cons, List.length_nil,
        le16_length, le32_length]
  · intro h
    simp only [ACL.Binary, ha]
    rw [if_pos (show 8 + (bins.map List.length).sum > 65535 from by omega)]
    rfl
  · intro hle hne
    simp only [ACL.Binary, ha]
    rw [if_neg (show ¬ 8 + (bins.map List.length).sum > 65535 from by omega)]
    rcases hne with hne | hne
    · rw [if_pos (show (8 + (bins.map List.length).sum) % 65536 ≠ a.AclSize
        from by rw [Nat.mod_eq_of_lt (by omega)]; omega)]
      rfl
    · by_cases hsz : (8 + (bins.map List.length).sum) % 65536 ≠ a.AclSize
      · rw [if_pos hsz]; rfl
      · rw [if_neg hsz]
        rw [if_pos (show a.ACEs.length % 65536 ≠ a.AceCount from by
          rw [Nat.mod_eq_of_lt (by omega)]; omega)]
        rfl
  · intro hle hsz hcnt
    refine ⟨[a.AclRevision, a.Sbzl] ++ le16 (8 + (bins.map List.length).sum)
      ++ le16 (a.ACEs.length % 65536) ++ le16 a.Sbz2 ++ bins.flatten,
      ?_, ?_⟩
    · simp only [ACL.Binary, ha]
      rw [if_neg (show ¬ 8 + (bins.map List.length).sum > 65535 from by
        omega)]
      rw [if_neg (show ¬ (8 + (bins.map List.length).sum) % 65536 ≠ a.AclSize
        from by rw [Nat.mod_eq_of_lt (by omega)]; omega)]
      rw [if_neg (show ¬ a.ACEs.length % 65536 ≠ a.AceCount from by
        rw [Nat.mod_eq_of_lt (by omega)]; omega)]
    · simp only [List.length_append, List.length_cons, List.length_nil,
        le16_length, List.length_flatten]

/-- The SID used by the C8 witness, its binary form `sbC8`, and
ACE/ACL values with correct and with corrupted declared sizes. -/
def sidC8 : SID := ⟨1, 5, [18]⟩

def sbC8 : Bytes := [1, 1, 0, 0, 0, 0, 0, 5, 18, 0, 0, 0]

def aceC8 : ACE := ⟨⟨0, 0, 20⟩, 0x1f01ff, sidC8⟩

def aceC8bad : ACE := ⟨⟨0, 0, 19⟩, 0x1f01ff, sidC8⟩

def aclC8 : ACL := ⟨2, 0, 28, 1, 0, ['D'], 0, [aceC8]⟩

def aclC8bad : ACL := ⟨2, 0, 28, 2, 0, ['D'], 0, [aceC8]⟩

def binsC8 : List Bytes :=
  [[0, 0, 20, 0, 255, 1, 31, 0, 1, 1, 0, 0, 0, 0, 0, 5, 18, 0, 0, 0]]

theorem C8_size_cross_checks_witness :
    isOk (ACE.Binary aceC8) = true ∧ isErr (ACE.Binary aceC8bad) = true ∧
    isOk (ACL.Binary aclC8) = true ∧ isErr (ACL.Binary aclC8bad) = true := by
  refine ⟨?_, ?_, ?_, ?_⟩
  · obtain ⟨bs, hbs, _⟩ :=
      (C8_size_cross_checks aceC8 aclC8 sbC8 binsC8 rfl rfl).2.2.1
        (by decide) (by decide)
    rw [hbs]; rfl
  · exact (C8_size_cross_checks aceC8bad aclC8 sbC8 binsC8 rfl rfl).2.1
      (by decide) (by decide)
  · obtain ⟨bs, hbs, _⟩ :=
      (C8_size_cross_checks aceC8 aclC8 sbC8 binsC8 rfl rfl).2.2.2.2.2
        (by decide) (by decide) (by decide)
    rw [hbs]; rfl
  · exact (C8_size_cross_checks aceC8 aclC8bad sbC8 binsC8 rfl rfl).2.2.2.2.1
      (by decide) (Or.inr (by decide))

/-! ## Claim C6: offset-driven presence in the binary SD parser -/

/-- `dataLen := uint32(len(data))` of `ParseSecurityDescriptorBinary`. -/
def sdDataLen (data : Bytes) : Nat := data.length % 4294967296

/-- The owner offset word read at bytes 4-7. -/
def sdOwnerOffs (data : Bytes) : Nat :=
  le32get (data.getD 4 0) (data.getD 5 0) (data.getD 6 0) (data.getD 7 0)

/-- The group offset word read at bytes 8-11. -/
def sdGroupOffs (data : Bytes) : Nat :=
  le32get (data.getD 8 0) (data.getD 9 0) (data.getD 10 0) (data.getD 11 0)

/-- The SACL offset word read at bytes 12-15. -/
def sdSaclOffs (data : Bytes) : Nat :=
  le32get (data.getD 12 0) (data.getD 13 0) (data.getD 14 0) (data.getD 15 0)

/-- The DACL offset word read at bytes 16-19. -/
def sdDaclOffs (data : Bytes) : Nat :=
  le32get (data.getD 16 0) (data.getD 17 0) (data.getD 18 0) (data.getD 19 0)

lemma parseSDSIDComp_isSome (data : Bytes) (offs : Nat) (msg : String)
    (r : Option SID) (h : parseSDSIDComp data offs msg = .ok r) :
    r.isSome = true ↔ offs ≠ 0 := by
  unfold parseSDSIDComp at h
  split at h
  · rename_i hpos
    cases hp : parseSIDBinary (data.drop offs) with
    | error e => rw [hp] at h; exact absurd h (by simp)
    | ok sid =>
      rw [hp] at h
      simp only [Except.ok.injEq] at h
      subst h
      exact iff_of_true rfl (by omega)
  · rename_i hpos
    simp only [Except.ok.injEq] at h
    subst h
    exact iff_of_false (by simp) (by omega)

lemma parseSDACLComp_isSome (data : Bytes) (offs : Nat) (typ : Str)
    (control : Nat) (msg : String) (r : Option ACL)
    (h : parseSDACLComp data offs typ control msg = .ok r) :
    r.isSome = true ↔ offs ≠ 0 := by
  unfold parseSDACLComp at h
  split at h
  · rename_i hpos
    cases hp : parseACLBinary (data.drop offs) typ control with
    | error e => rw [hp] at h; exact absurd h (by simp)
    | ok acl =>
      rw [hp] at h
      simp only [Except.ok.injEq] at h
      subst h
      exact iff_of_true rfl (by omega)
  · rename_i hpos
    simp only [Except.ok.injEq] at h
    subst h
    exact iff_of_false (by simp) (by omega)

/-- C6: `ParseSecurityDescriptorBinary` decides component presence solely
from the four offset words: on success each offset field of the result is
the word read from the input, and a component is present exactly when its
offset is non-zero (whatever the control bits say); and any non-zero offset
reaching the total input length yields an error naming the offending field,
checked in the order owner, group, SACL, DACL. -/
theorem C6_offset_driven_presence (data : Bytes) :
    (∀ sd, ParseSecurityDescriptorBinary data = .ok sd →
      sd.OwnerOffset = sdOwnerOffs data ∧ sd.GroupOffset = sdGroupOffs data ∧
      sd.SaclOffset = sdSaclOffs data ∧ sd.DaclOffset = sdDaclOffs data ∧
      (sd.OwnerSID.isSome = true ↔ sd.OwnerOffset ≠ 0) ∧
      (sd.GroupSID.isSome = true ↔ sd.GroupOffset ≠ 0) ∧
      (sd.SACL.isSome = true ↔ sd.SaclOffset ≠ 0) ∧
      (sd.DACL.isSome = true ↔ sd.DaclOffset ≠ 0)) ∧
    (20 ≤ sdDataLen data →
      (sdOwnerOffs data ≠ 0 → sdDataLen data ≤ sdOwnerOffs data →
        ParseSecurityDescriptorBinary data = .error
          "invalid security descriptor: Owner offset exceeds data length") ∧
      (¬ (sdOwnerOffs data ≠ 0 ∧ sdDataLen data ≤ sdOwnerOffs data) →
        sdGroupOffs data ≠ 0 → sdDataLen data ≤ sdGroupOffs data →
        ParseSecurityDescriptorBinary data = .error
          "invalid security descriptor: Group offset exceeds data length") ∧
      (¬ (sdOwnerOffs data ≠ 0 ∧ sdDataLen data ≤ sdOwnerOffs data) →
        ¬ (sdGroupOffs data ≠ 0 ∧ sdDataLen data ≤ sdGroupOffs data) →
        sdSaclOffs data ≠ 0 → sdDataLen data ≤ sdSaclOffs data →
        ParseSecurityDescriptorBinary data = .error
          "invalid security descriptor: SACL offset exceeds data length") ∧
      (¬ (sdOwnerOffs data ≠ 0 ∧ sdDataLen data ≤ sdOwnerOffs data) →
        ¬ (sdGroupOffs data ≠ 0 ∧ sdDataLen data ≤ sdGroupOffs data) →
        ¬ (sdSaclOffs data ≠ 0 ∧ sdDataLen data ≤ sdSaclOffs data) →
        sdDaclOffs data ≠ 0 → sdDataLen data ≤ sdDaclOffs data →
        ParseSecurityDescriptorBinary data = .error
          "invalid security descriptor: DACL offset exceeds data length")) := by
  constructor
  · intro sd hsd
    simp only [ParseSecurityDescriptorBinary] at hsd
    split at hsd
    · exact absurd hsd (by simp)
    · split at hsd
      · exact absurd hsd (by simp)
      · split at hsd
        · exact absurd hsd (by simp)
        · split at hsd
          · exact absurd hsd (by simp)
          · split at hsd
            · exact absurd hsd (by simp)
            · split at hsd
              · exact absurd hsd (by simp)
              · rename_i ownerSID hOwner
                split at hsd
                · exact absurd hsd (by simp)
                · rename_i groupSID hGroup
                  split at hsd
                  · exact absurd hsd (by simp)
                  · rename_i dacl hDacl
                    split at hsd
                    · exact absurd hsd (by simp)
                    · rename_i sacl hSacl
                      simp only [Except.ok.injEq] at hsd
                      subst hsd
                      refine ⟨rfl, rfl, rfl, rfl, ?_, ?_, ?_, ?_⟩
                      · exact parseSDSIDComp_isSome _ _ _ _ hOwner
                      · exact parseSDSIDComp_isSome _ _ _ _ hGroup
                      · exact parseSDACLComp_isSome _ _ _ _ _ _ hSacl
                      · exact parseSDACLComp_isSome _ _ _ _ _ _ hDacl
  · intro h20
    have h20' : ¬ data.length % 4294967296 < 20 := by
      unfold sdDataLen at h20; omega
    refine ⟨?_, ?_, ?_, ?_⟩
    · intro hne hge
      unfold sdOwnerOffs at hne
      unfold sdDataLen sdOwnerOffs at hge
      simp only [ParseSecurityDescriptorBinary]
      rw [if_neg h20', if_pos ⟨by omega, hge⟩]
    · intro hok1 hne hge
      unfold sdOwnerOffs sdDataLen at hok1
      unfold sdGroupOffs at hne
      unfold sdDataLen sdGroupOffs at hge
      simp only [ParseSecurityDescriptorBinary]
      rw [if_neg h20', if_neg (show ¬ (le32get (data.getD 4 0) (data.getD 5 0)
        (data.getD 6 0) (data.getD 7 0) > 0 ∧ le32get (data.getD 4 0)
        (data.getD 5 0) (data.getD 6 0) (data.getD 7 0) ≥
        data.length % 4294967296) from by omega)]
      rw [if_pos ⟨by omega, hge⟩]
    · intro hok1 hok2 hne hge
      unfold sdOwnerOffs sdDataLen at hok1
      unfold sdGroupOffs sdDataLen at hok2
      unfold sdSaclOffs at hne
      unfold sdDataLen sdSaclOffs at hge
      simp only [ParseSecurityDescriptorBinary]
      rw [if_neg h20', if_neg (show ¬ (le32get (data.getD 4 0) (data.getD 5 0)
        (data.getD 6 0) (data.getD 7 0) > 0 ∧ le32get (data.getD 4 0)
        (data.getD 5 0) (data.getD 6 0) (data.getD 7 0) ≥
        data.length % 4294967296) from by omega)]
      rw [if_neg (show ¬ (le32get (data.getD 8 0) (data.getD 9 0)
        (data.getD 10 0) (data.getD 11 0) > 0 ∧ le32get (data.getD 8 0)
        (data.getD 9 0) (data.getD 10 0) (data.getD 11 0) ≥
        data.length % 4294967296) from by omega)]
      rw [if_pos ⟨by omega, hge⟩]
    · intro hok1 hok2 hok3 hne hge
      unfold sdOwnerOffs sdDataLen at hok1
      unfold sdGroupOffs sdDataLen at hok2
      unfold sdSaclOffs sdDataLen at hok3
      unfold sdDaclOffs at hne
      unfold sdDataLen sdDaclOffs at hge
      simp only [ParseSecurityDescriptorBinary]
      rw [if_neg h20', if_neg (show ¬ (le32get (data.getD 4 0) (data.getD 5 0)
        (data.getD 6 0) (data.getD 7 0) > 0 ∧ le32get (data.getD 4 0)
        (data.getD 5 0) (data.getD 6 0) (data.getD 7 0) ≥
        data.length % 4294967296) from by omega)]
      rw [if_neg (show ¬ (le32get (data.getD 8 0) (data.getD 9 0)
        (data.getD 10 0) (data.getD 11 0) > 0 ∧ le32get (data.getD 8 0)
        (data.getD 9 0) (data.getD 10 0) (data.getD 11 0) ≥
        data.length % 4294967296) from by omega)]
      rw [if_neg (show ¬ (le32get (data.getD 12 0) (data.getD 13 0)
        (data.getD 14 0) (data.getD 15 0) > 0 ∧ le32get (data.getD 12 0)
        (data.getD 13 0) (data.getD 14 0) (data.getD 15 0) ≥
        data.length % 4294967296) from by omega)]
      rw [if_pos ⟨by omega, hge⟩]

/-- 20 zero-offset bytes: parses to an all-absent descriptor. -/
def dataC6ok : Bytes := [1, 0] ++ List.replicate 18 0

/-- Result of parsing `dataC6ok`. -/
def sdC6res : SecurityDescriptor :=
  ⟨1, 0, 0, 0, 0, 0, 0, none, none, none, none⟩

/-- 20 bytes whose owner offset word is 100 ≥ the length. -/
def dataC6err : Bytes := [1, 0, 0, 0, 100, 0, 0, 0] ++ List.replicate 12 0

theorem C6_offset_driven_presence_witness :
    (sdC6res.OwnerSID.isSome = true ↔ sdC6res.OwnerOffset ≠ 0) ∧
    ParseSecurityDescriptorBinary dataC6err = .error
      "invalid security descriptor: Owner offset exceeds data length" :=
  ⟨(((C6_offset_driven_presence dataC6ok).1 sdC6res (by rfl)).2.2.2.2).1,
   ((C6_offset_driven_presence dataC6err).2 (by decide)).1
     (by decide) (by decide)⟩

/-! ## Claim C10: uint16 length truncation in the binary ACE/ACL parsers -/

/-- The SID carried by the C10 counterexample ACE. -/
def sidC10 : SID := ⟨1, 5, [0, 0]⟩

/-- A 16-byte well-formed ACE image followed by 65536 padding bytes: its
true length is 65552, but `uint16(len(data))` sees 16. -/
def dataC10 : Bytes :=
  [0, 0, 16, 0, 0, 0, 0, 0, 1, 2, 0, 0, 0, 0, 0, 5] ++
    List.replicate 65536 0

lemma dataC10_length : dataC10.length = 65552 := by
  show ([0, 0, 16, 0, 0, 0, 0, 0, 1, 2, 0, 0, 0, 0, 0, 5] ++
    List.replicate 65536 (0 : Nat)).length = 65552
  rw [List.length_append, List.length_replicate]
  rfl

lemma parseACE_gen (data : Bytes) (hlen : data.length = 65552)
    (h0 : data.getD 0 0 = 0) (h1 : data.getD 1 0 = 0)
    (h2 : data.getD 2 0 = 16) (h3 : data.getD 3 0 = 0)
    (h4 : data.getD 4 0 = 0) (h5 : data.getD 5 0 = 0)
    (h6 : data.getD 6 0 = 0) (h7 : data.getD 7 0 = 0)
    (hdrop : data.drop 8 = sidBytes sidC10 ++ List.replicate 65528 0) :
    parseACEBinary data = .ok ⟨⟨0, 0, 16⟩, 0, sidC10⟩ := by
  simp only [parseACEBinary]
  rw [hlen, h0, h1, h2, h3, h4, h5, h6, h7, hdrop]
  rw [show le16get 16 0 = 16 from rfl, show le32get 0 0 0 0 = 0 from rfl]
  rw [if_neg (show ¬ 65552 % 65536 < 16 from by norm_num)]
  rw [if_neg (show ¬ 65552 % 65536 < 16 from by norm_num)]
  rw [parseSIDBinary_round sidC10 (List.replicate 65528 0) (by decide)]

lemma parseACE_dataC10 : parseACEBinary dataC10 = .ok ⟨⟨0, 0, 16⟩, 0, sidC10⟩ := by
  have hdrop : dataC10.drop 8 = sidBytes sidC10 ++ List.replicate 65528 0 := by
    show ([1, 2, 0, 0, 0, 0, 0, 5] ++ List.replicate 65536 0 : Bytes) = _
    rw [show (List.replicate 65536 (0 : Nat)) =
        List.replicate 8 0 ++ List.replicate 65528 0 from by
      rw [← List.replicate_add]]
    rw [← List.append_assoc]
    rfl
  exact parseACE_gen dataC10 dataC10_length rfl rfl rfl rfl rfl rfl rfl rfl
    hdrop

/-- C10 counterexample: an over-64KiB input does **not** behave as if only
`len mod 2^16` bytes were available — `dataC10` (65552 bytes) parses as an
ACE successfully, while its 16-byte (`65552 mod 2^16`) truncation fails,
because the SID tail is read from the real slice, beyond the truncated
length. -/
theorem C10_uint16_length_truncation_counterexample :
    65536 ≤ dataC10.length ∧
    parseACEBinary dataC10 = .ok ⟨⟨0, 0, 16⟩, 0, sidC10⟩ ∧
    isErr (parseACEBinary (dataC10.take (dataC10.length % 65536))) = true := by
  refine ⟨by rw [dataC10_length]; norm_num, parseACE_dataC10, ?_⟩
  rw [dataC10_length]
  rfl

/-- C10 (amended): only the ACE/ACL parsers' *length comparisons* see the
input length reduced modulo 2^16 (`uint16(len(data))`), the data itself is
read from the untruncated slice.  Consequently `parseACEBinary` reports the
too-short error whenever `len mod 2^16 < 16` — so on any slice of length
exactly 65536 — and the size-mismatch error whenever
`16 ≤ len mod 2^16 < AceSize`, and `parseACLBinary` reports the too-short
error whenever `len mod 2^16 < 8`, regardless of the true length. -/
theorem C10_uint16_length_truncation (data : Bytes) (typ : Str)
    (control : Nat) :
    (data.length % 65536 < 16 →
      parseACEBinary data =
        .error "invalid ACE: too short, need at least 16 bytes") ∧
    (16 ≤ data.length % 65536 →
      data.length % 65536 < le16get (data.getD 2 0) (data.getD 3 0) →
      parseACEBinary data =
        .error "invalid ACE: data length doesn't match ACE size") ∧
    (data.length % 65536 < 8 →
      parseACLBinary data typ control = .error "invalid ACL: too short") := by
  refine ⟨?_, ?_, ?_⟩
  · intro h
    simp only [parseACEBinary]
    rw [if_pos h]
  · intro h16 hsz
    simp only [parseACEBinary]
    rw [if_neg (show ¬ data.length % 65536 < 16 from by omega)]
    rw [if_pos hsz]
  · intro h
    simp only [parseACLBinary]
    rw [if_pos h]

theorem C10_uint16_length_truncation_witness :
    parseACEBinary (List.replicate 65536 0) =
      .error "invalid ACE: too short, need at least 16 bytes" ∧
    parseACLBinary (List.replicate 65542 0) ['S'] 0 =
      .error "invalid ACL: too short" :=
  ⟨(C10_uint16_length_truncation (List.replicate 65536 0) ['S'] 0).1
      (by rw [List.length_replicate]; norm_num),
   (C10_uint16_length_truncation (List.replicate 65542 0) ['S'] 0).2.2
      (by rw [List.length_replicate]; norm_num)⟩

/-! ## Claim C5: SID range limits across the three SID codecs -/

lemma getD_lt_256 (data : Bytes) (hb : ∀ b ∈ data, b < 256) (i : Nat) :
    data.getD i 0 < 256 := by
  by_cases h : i < data.length
  · rw [List.getD_eq_getElem data 0 h]
    exact hb _ (List.getElem_mem h)
  · rw [List.getD_eq_default data 0 (by omega)]
    norm_num

lemma shiftOrByte_lt (acc b k : Nat) (ha : acc < 2 ^ k) (hb : b < 256) :
    (acc <<< 8) ||| b < 2 ^ (k + 8) := by
  have h1 : acc <<< 8 < 2 ^ (k + 8) := by
    rw [Nat.shiftLeft_eq, pow_add]
    exact (Nat.mul_lt_mul_right (by norm_num : (0 : Nat) < 2 ^ 8)).mpr ha
  have h2 : b < 2 ^ (k + 8) := lt_of_lt_of_le hb (by
    calc (256 : Nat) = 2 ^ 8 := by norm_num
    _ ≤ 2 ^ (k + 8) := Nat.pow_le_pow_right (by norm_num) (by omega))
  exact Nat.or_lt_two_pow h1 h2

lemma authFold_lt (data : Bytes) (hb : ∀ b ∈ data, b < 256) :
    [2, 3, 4, 5, 6, 7].foldl (fun acc i => (acc <<< 8) ||| data.getD i 0) 0 <
      2 ^ 48 := by
  have g : ∀ i, data.getD i 0 < 256 := getD_lt_256 data hb
  simp only [List.foldl]
  exact shiftOrByte_lt _ _ 40
    (shiftOrByte_lt _ _ 32
      (shiftOrByte_lt _ _ 24
        (shiftOrByte_lt _ _ 16
          (shiftOrByte_lt _ _ 8
            (shiftOrByte_lt _ _ 0 (by norm_num) (g 2)) (g 3)) (g 4)) (g 5))
      (g 6)) (g 7)

lemma parseSubAuthList_length (ts : List Str) (vs : List Nat)
    (h : parseSubAuthList ts = .ok vs) : vs.length = ts.length := by
  induction ts generalizing vs with
  | nil =>
    simp only [parseSubAuthList, Except.ok.injEq] at h
    subst h
    rfl
  | cons t ts ih =>
    unfold parseSubAuthList at h
    cases hv : parseUintDec 32 t with
    | none => rw [hv] at h; exact absurd h (by simp)
    | some v =>
      rw [hv] at h
      simp only [] at h
      cases hr : parseSubAuthList ts with
      | error e => rw [hr] at h; exact absurd h (by simp)
      | ok vs0 =>
        rw [hr] at h
        simp only [Except.ok.injEq] at h
        rw [← h]
        simp [ih vs0 hr]

lemma parseSIDString_ok_bounds (tok : Str) (sid : SID)
    (h : parseSIDString tok = .ok sid) :
    sid.SubAuthority.length ≤ 15 ∧ sid.IdentifierAuthority < 2 ^ 48 ∧
      sid.Revision = 1 := by
  unfold parseSIDString at h
  cases halias : sidOfAlias tok with
  | some full =>
    rw [halias] at h
    simp only [] at h
    split at h
    · exact absurd h (by simp)
    · split at h
      · rename_i p0 p1 rest heq
        split at h
        · exact absurd h (by simp)
        · rename_i revision hrev
          split at h
          · exact absurd h (by simp)
          · rename_i h1
            split at h
            · exact absurd h (by simp)
            · rename_i a hauth
              split at h
              · exact absurd h (by simp)
              · rename_i ha
                split at h
                · exact absurd h (by simp)
                · rename_i hr15
                  split at h
                  · exact absurd h (by simp)
                  · rename_i subs hsub
                    simp only [Except.ok.injEq] at h
                    subst h
                    refine ⟨?_, ?_, ?_⟩
                    · show subs.length ≤ 15
                      have := parseSubAuthList_length rest subs hsub
                      omega
                    · show a < 2 ^ 48
                      omega
                    · show revision % 256 = 1
                      omega
      · exact absurd h (by simp)
  | none =>
    rw [halias] at h
    simp only [] at h
    split at h
    · exact absurd h (by simp)
    · split at h
      · rename_i p0 p1 rest heq
        split at h
        · exact absurd h (by simp)
        · rename_i revision hrev
          split at h
          · exact absurd h (by simp)
          · rename_i h1
            split at h
            · exact absurd h (by simp)
            · rename_i a hauth
              split at h
              · exact absurd h (by simp)
              · rename_i ha
                split at h
                · exact absurd h (by simp)
                · rename_i hr15
                  split at h
                  · exact absurd h (by simp)
                  · rename_i subs hsub
                    simp only [Except.ok.injEq] at h
                    subst h
                    refine ⟨?_, ?_, ?_⟩
                    · show subs.length ≤ 15
                      have := parseSubAuthList_length rest subs hsub
                      omega
                    · show a < 2 ^ 48
                      omega
                    · show revision % 256 = 1
                      omega
      · exact absurd h (by simp)

/-- C5: the three SID operations enforce the ≤15 sub-authority and <2^48
authority limits.  `SID.Binary` fails on any violation and succeeds exactly
on revision-1 SIDs within both limits; `parseSIDBinary` rejects a
sub-authority count byte above 15 and succeeds whenever the data covers the
declared count, and any SID it produces is within both limits (the
authority, assembled from six bytes, for byte-valued input); any SID
produced by `parseSIDString` is within both limits, and on a canonical
`S-1-<auth>-<subs>` token it succeeds exactly up to the ≤15 guard. -/
theorem C5_sid_range_limits (s : SID) (data : Bytes) (tok : Str) :
    ((15 < s.SubAuthority.length ∨ 2 ^ 48 ≤ s.IdentifierAuthority) →
      isErr s.Binary = true) ∧
    (isOk s.Binary = true ↔
      s.Revision = 1 ∧ s.SubAuthority.length ≤ 15 ∧
        s.IdentifierAuthority < 2 ^ 48) ∧
    (8 ≤ data.length → 8 + 4 * data.getD 1 0 ≤ data.length →
      15 < data.getD 1 0 →
      parseSIDBinary data =
        .error "invalid SID: too many sub-authorities, maximum is 15") ∧
    (8 ≤ data.length → data.getD 1 0 ≤ 15 →
      8 + 4 * data.getD 1 0 ≤ data.length →
      isOk (parseSIDBinary data) = true) ∧
    (∀ sid, parseSIDBinary data = .ok sid →
      sid.SubAuthority.length ≤ 15 ∧
      ((∀ b ∈ data, b < 256) → sid.IdentifierAuthority < 2 ^ 48)) ∧
    (∀ sid, parseSIDString tok = .ok sid →
      sid.SubAuthority.length ≤ 15 ∧ sid.IdentifierAuthority < 2 ^ 48 ∧
        sid.Revision = 1) ∧
    (sidOfAlias tok = none → strHasPre (strL "S-") tok = true →
      ∀ p0 p1 rest a subs,
        splitOnChar '-' (tok.drop 2) = p0 :: p1 :: rest →
        parseUintDec 8 p0 = some 1 → parseSIDAuthority p1 = .ok a →
        a < 2 ^ 48 → rest.length ≤ 15 → parseSubAuthList rest = .ok subs →
        parseSIDString tok = .ok ⟨1, a, subs⟩) ∧
    (sidOfAlias tok = none → strHasPre (strL "S-") tok = true →
      ∀ p0 p1 rest a,
        splitOnChar '-' (tok.drop 2) = p0 :: p1 :: rest →
        parseUintDec 8 p0 = some 1 → parseSIDAuthority p1 = .ok a →
        a < 2 ^ 48 → 15 < rest.length →
        parseSIDString tok =
          .error "too many sub-authorities: maximum is 15") := by
  refine ⟨?_, ⟨?_, ?_⟩, ?_, ?_, ?_, ?_, ?_, ?_⟩
  · intro h
    unfold SID.Binary
    by_cases h1 : s.Revision ≠ 1
    · rw [if_pos h1]; rfl
    · rw [if_neg h1]
      rcases h with h | h
      · rw [if_pos (show s.SubAuthority.length > 15 from h)]; rfl
      · by_cases h2 : s.SubAuthority.length > 15
        · rw [if_pos h2]; rfl
        · rw [if_neg h2,
            if_pos (show s.IdentifierAuthority ≥ 2 ^ 48 from h)]
          rfl
  · intro hok
    unfold SID.Binary at hok
    by_cases h1 : s.Revision ≠ 1
    · rw [if_pos h1] at hok; exact absurd hok (by simp [isOk])
    · rw [if_neg h1] at hok
      by_cases h2 : s.SubAuthority.length > 15
      · rw [if_pos h2] at hok; exact absurd hok (by simp [isOk])
      · rw [if_neg h2] at hok
        by_cases h3 : s.IdentifierAuthority ≥ 2 ^ 48
        · rw [if_pos h3] at hok; exact absurd hok (by simp [isOk])
        · exact ⟨by omega, by omega, by omega⟩
  · rintro ⟨h1, h2, h3⟩
    unfold SID.Binary
    rw [if_neg (show ¬ s.Revision ≠ 1 from by omega)]
    rw [if_neg (show ¬ s.SubAuthority.length > 15 from by omega)]
    rw [if_neg (show ¬ s.IdentifierAuthority ≥ 2 ^ 48 from by omega)]
    rfl
  · intro h8 hfits hcnt
    simp only [parseSIDBinary]
    rw [if_neg (show ¬ data.length < 8 from by omega)]
    rw [if_neg (show ¬ data.length < 8 + 4 * data.getD 1 0 from by omega)]
    rw [if_pos (show data.getD 1 0 > 15 from hcnt)]
  · intro h8 hcnt hfits
    simp only [parseSIDBinary]
    rw [if_neg (show ¬ data.length < 8 from by omega)]
    rw [if_neg (show ¬ data.length < 8 + 4 * data.getD 1 0 from by omega)]
    rw [if_neg (show ¬ data.getD 1 0 > 15 from by omega)]
    rw [if_neg (show ¬ data.length < 8 + 4 * data.getD 1 0 from by omega)]
    rfl
  · intro sid h
    simp only [parseSIDBinary] at h
    split at h
    · exact absurd h (by simp)
    · split at h
      · exact absurd h (by simp)
      · split at h
        · exact absurd h (by simp)
        · rename_i h8 hneed hcnt
          simp only [Except.ok.injEq] at h
          subst h
          constructor
          · show ((List.range (data.getD 1 0)).map _).length ≤ 15
            simp only [List.length_map, List.length_range]
            omega
          · intro hbytes
            exact authFold_lt data hbytes
  · exact fun sid h => parseSIDString_ok_bounds tok sid h
  · intro halias hpre p0 p1 rest a subs hsplit hrev hauth ha hlen hsubs
    simp only [parseSIDString, halias]
    rw [if_neg (not_not_intro hpre), hsplit]
    simp only []
    rw [hrev]
    simp only []
    rw [if_neg (show ¬ (1 : Nat) ≠ 1 from by omega)]
    rw [hauth]
    simp only []
    rw [if_neg (show ¬ a ≥ 2 ^ 48 from by omega)]
    rw [if_neg (show ¬ rest.length > 15 from by omega)]
    rw [hsubs]
  · intro halias hpre p0 p1 rest a hsplit hrev hauth ha hlen
    simp only [parseSIDString, halias]
    rw [if_neg (not_not_intro hpre), hsplit]
    simp only []
    rw [hrev]
    simp only []
    rw [if_neg (show ¬ (1 : Nat) ≠ 1 from by omega)]
    rw [hauth]
    simp only []
    rw [if_neg (show ¬ a ≥ 2 ^ 48 from by omega)]
    rw [if_pos (show rest.length > 15 from hlen)]

/-- A well-formed SID, and binary data whose count byte is 16. -/
def sidC5 : SID := ⟨1, 5, [18]⟩

def dataC5 : Bytes := [1, 16, 0, 0, 0, 0, 0, 5] ++ List.replicate 64 0

theorem C5_sid_range_limits_witness :
    isOk (SID.Binary sidC5) = true ∧
    parseSIDBinary dataC5 =
      .error "invalid SID: too many sub-authorities, maximum is 15" ∧
    parseSIDString (strL "S-1-5-18") = .ok ⟨1, 5, [18]⟩ := by
  refine ⟨?_, ?_, ?_⟩
  · exact ((C5_sid_range_limits sidC5 dataC5 (strL "S-1-5-18")).2.1).mpr
      ⟨rfl, by decide, by decide⟩
  · exact (C5_sid_range_limits sidC5 dataC5 (strL "S-1-5-18")).2.2.1
      (by decide) (by decide) (by decide)
  · exact (C5_sid_range_limits sidC5 dataC5 (strL "S-1-5-18")).2.2.2.2.2.2.1
      (by rfl) (by rfl) (strL "1") (strL "5") [strL "18"] 5 [18]
      (by rfl) (by rfl) (by rfl) (by norm_num) (by decide) (by rfl)

/-! ## Claim C9: access-mask decomposition order and reversibility -/

lemma xor_pow_and_pow (m j k : Nat) (hjk : j ≠ k) :
    (m ^^^ 2 ^ j) &&& 2 ^ k = m &&& 2 ^ k := by
  rw [Nat.and_two_pow, Nat.and_two_pow, Nat.testBit_xor,
    Nat.testBit_two_pow_of_ne hjk, Bool.xor_false]

lemma testBit_true_of_and_two_pow (m j : Nat) (h : m &&& 2 ^ j = 2 ^ j) :
    m.testBit j = true := by
  rw [Nat.and_two_pow] at h
  cases hb : m.testBit j with
  | false =>
    rw [hb] at h
    simp only [Bool.toNat_false, Nat.zero_mul] at h
    exact absurd h.symm (Nat.two_pow_pos j).ne'
  | true => rfl

lemma and_two_pow_eq_zero (m j : Nat) (h : m.testBit j = false) :
    m &&& 2 ^ j = 0 := by
  rw [Nat.and_two_pow, h]
  simp

lemma xor_two_pow_or_self (m j : Nat) (h : m.testBit j = true) :
    (m ^^^ 2 ^ j) ||| 2 ^ j = m := by
  apply Nat.eq_of_testBit_eq
  intro k
  rw [Nat.testBit_lor, Nat.testBit_xor]
  by_cases hk : k = j
  · subst hk
    rw [Nat.testBit_two_pow_self, h]
    rfl
  · rw [Nat.testBit_two_pow_of_ne (fun hc => hk hc.symm)]
    simp

lemma testBit_xor_two_pow_self (m j : Nat) :
    (m ^^^ 2 ^ j).testBit j = ! m.testBit j := by
  rw [Nat.testBit_xor, Nat.testBit_two_pow_self]
  cases m.testBit j <;> rfl

/-- Right-nested OR of a list of masks. -/
def orList : List Nat → Nat
  | [] => 0
  | v :: vs => v ||| orList vs

lemma decompAux_spec (l : List (Nat × Str)) (m : Nat)
    (hl : ∀ p ∈ l, ∃ k, k < 32 ∧ p.1 = 2 ^ k)
    (hnd : l.Pairwise (fun p q => p.1 ≠ q.1)) :
    (decompAux l m).1 =
      (l.filter (fun p => m &&& p.1 = p.1)).map (fun p => p.2) ∧
    (decompAux l m).2 |||
      orList ((l.filter (fun p => m &&& p.1 = p.1)).map (fun p => p.1)) = m ∧
    (∀ k, (decompAux l m).2.testBit k = true → m.testBit k = true) ∧
    (decompAux l m).2 &&&
      orList ((l.filter (fun p => m &&& p.1 = p.1)).map (fun p => p.1)) = 0 := by
  induction l generalizing m with
  | nil =>
    refine ⟨rfl, ?_, fun k hk => hk, ?_⟩
    · simp [decompAux, orList]
    · simp [decompAux, orList]
  | cons p rest ih =>
    obtain ⟨v, nm⟩ := p
    obtain ⟨j, hj32, hj⟩ := hl (v, nm) (by simp)
    have hjv : v = 2 ^ j := hj
    rw [List.pairwise_cons] at hnd
    obtain ⟨hhead, hrest⟩ := hnd
    have hlrest : ∀ p ∈ rest, ∃ k, k < 32 ∧ p.1 = 2 ^ k :=
      fun q hq => hl q (by simp [hq])
    by_cases hm : m &&& v = v
    · have hbit : m.testBit j = true := by
        apply testBit_true_of_and_two_pow
        rw [← hjv]
        exact hm
      have hfilter : rest.filter (fun p => (m ^^^ v) &&& p.1 = p.1) =
          rest.filter (fun p => m &&& p.1 = p.1) := by
        apply List.filter_congr
        intro q hq
        obtain ⟨k, hk32, hk⟩ := hlrest q hq
        have hne : j ≠ k := by
          intro hc
          exact hhead q hq (by rw [hj, hk, hc])
        simp only [decide_eq_decide]
        rw [hk, hjv, xor_pow_and_pow m j k hne]
      obtain ⟨ih1, ih2, ih3, ih4⟩ := ih (m ^^^ v) hlrest hrest
      rw [hfilter] at ih1 ih2 ih4
      have hd : decompAux ((v, nm) :: rest) m =
          (nm :: (decompAux rest (m ^^^ v)).1,
            (decompAux rest (m ^^^ v)).2) := by
        simp only [decompAux]
        rw [if_pos hm]
      have hf : ((v, nm) :: rest).filter (fun p => m &&& p.1 = p.1) =
          (v, nm) :: rest.filter (fun p => m &&& p.1 = p.1) := by
        rw [List.filter_cons, if_pos (by simpa using hm)]
      rw [hd, hf]
      refine ⟨?_, ?_, ?_, ?_⟩
      · simp only [List.map_cons]
        rw [ih1]
      · simp only [List.map_cons, orList]
        rw [Nat.or_comm v, ← Nat.or_assoc, ih2, hjv]
        exact xor_two_pow_or_self m j hbit
      · intro k hk
        have h2 := ih3 k hk
        by_cases hkj : k = j
        · subst hkj
          exact hbit
        · rw [hjv, Nat.testBit_xor,
            Nat.testBit_two_pow_of_ne (fun hc => hkj hc.symm),
            Bool.xor_false] at h2
          exact h2
      · simp only [List.map_cons, orList]
        rw [Nat.and_or_distrib_left]
        have hz1 : (decompAux rest (m ^^^ v)).2 &&& v = 0 := by
          rw [hjv]
          apply and_two_pow_eq_zero
          cases hb : (decompAux rest (m ^^^ 2 ^ j)).2.testBit j with
          | false => rfl
          | true =>
            have h2 := ih3 j (by rw [hjv]; exact hb)
            rw [hjv, testBit_xor_two_pow_self, hbit] at h2
            exact absurd h2 (by simp)
        rw [hz1, ih4]
        simp
    · have hd : decompAux ((v, nm) :: rest) m = decompAux rest m := by
        simp only [decompAux]
        rw [if_neg hm]
      have hf : ((v, nm) :: rest).filter (fun p => m &&& p.1 = p.1) =
          rest.filter (fun p => m &&& p.1 = p.1) := by
        rw [List.filter_cons, if_neg (by simpa using hm)]
      rw [hd, hf]
      exact ih m hlrest hrest

lemma composeFold_known (ps : List (Nat × Str)) (acc : Nat × List Str)
    (h : ∀ p ∈ ps, componentValOf p.2 = some p.1) :
    (ps.map (fun p => p.2)).foldl
      (fun acc code =>
        match componentValOf code with
        | some v => (acc.1 ||| v, acc.2)
        | none => (acc.1, acc.2 ++ [code])) acc =
      (acc.1 ||| orList (ps.map (fun p => p.1)), acc.2) := by
  induction ps generalizing acc with
  | nil =>
    simp only [List.map_nil, List.foldl_nil, orList]
    rw [Nat.or_zero]
  | cons p ps ih =>
    simp only [List.map_cons, List.foldl_cons, h p (by simp)]
    rw [ih _ (fun q hq => h q (by simp [hq]))]
    simp only [orList]
    rw [Nat.or_assoc]

lemma composeAccessMask_table (ps : List (Nat × Str))
    (h : ∀ p ∈ ps, componentValOf p.2 = some p.1) :
    composeAccessMask (ps.map (fun p => p.2)) =
      (orList (ps.map (fun p => p.1)), []) := by
  unfold composeAccessMask
  rw [composeFold_known ps (0, []) h]
  rw [Nat.zero_or]

/-- C9: `decomposeAccessMask` emits exactly the component codes whose bit is
contained in the mask, traversing the component table in ascending bit
order (so the emitted bit values are strictly increasing); when the
leftover is zero, `composeAccessMask` recovers the original mask with no
unknown codes; and for an alias-free mask `aceMaskString` renders the
concatenated codes when the leftover is zero and the 8-digit `0x` literal
when it is not. -/
theorem C9_mask_decomposition (m : Nat) :
    ((decomposeAccessMask m).1 =
      (orderedComponents.filter (fun p => m &&& p.1 = p.1)).map
        (fun p => p.2)) ∧
    (((orderedComponents.filter (fun p => m &&& p.1 = p.1)).map
        (fun p => p.1)).Pairwise (· < ·)) ∧
    ((decomposeAccessMask m).2 = 0 →
      composeAccessMask (decomposeAccessMask m).1 = (m, [])) ∧
    (maskAliasOf m = none → (decomposeAccessMask m).2 ≠ 0 →
      aceMaskString m = '0' :: 'x' :: natToHexUpperPad 8 m) ∧
    (maskAliasOf m = none → (decomposeAccessMask m).2 = 0 →
      aceMaskString m = (decomposeAccessMask m).1.flatten) := by
  have hl : ∀ p ∈ orderedComponents, ∃ k, k < 32 ∧ p.1 = 2 ^ k := by decide
  have hnd : orderedComponents.Pairwise (fun p q => p.1 ≠ q.1) := by decide
  obtain ⟨h1, h2, h3, h4⟩ := decompAux_spec orderedComponents m hl hnd
  refine ⟨h1, ?_, ?_, ?_, ?_⟩
  · have hasc : orderedComponents.Pairwise (fun p q => p.1 < q.1) := by decide
    exact List.pairwise_map.mpr
      (List.Pairwise.sublist (List.filter_sublist _) hasc)
  · intro hzero
    have htab : ∀ p ∈ orderedComponents, componentValOf p.2 = some p.1 := by
      decide
    have hmem : ∀ p ∈ orderedComponents.filter (fun p => m &&& p.1 = p.1),
        componentValOf p.2 = some p.1 :=
      fun p hp => htab p (List.mem_of_mem_filter hp)
    show composeAccessMask (decompAux orderedComponents m).1 = (m, [])
    rw [h1, composeAccessMask_table _ hmem]
    have hz : (decompAux orderedComponents m).2 = 0 := hzero
    rw [hz, Nat.zero_or] at h2
    rw [h2]
  · intro halias hnz
    unfold aceMaskString
    rw [halias]
    simp only []
    rw [if_pos hnz]
  · intro halias hz
    unfold aceMaskString
    rw [halias]
    simp only []
    rw [if_neg (show ¬ (decomposeAccessMask m).2 ≠ 0 from by omega)]

theorem C9_mask_decomposition_witness :
    composeAccessMask (decomposeAccessMask 1).1 = (1, []) ∧
    aceMaskString 1 = strL "CC" ∧
    aceMaskString 512 = '0' :: 'x' :: natToHexUpperPad 8 512 := by
  refine ⟨?_, ?_, ?_⟩
  · exact (C9_mask_decomposition 1).2.2.1 (by decide)
  · have h := (C9_mask_decomposition 1).2.2.2.2 (by decide) (by decide)
    rw [h]
    decide
  · exact (C9_mask_decomposition 512).2.2.2.1 (by decide) (by decide)

/-! ## Claim C3: non-termination of the string-parser component loop -/

lemma sdLoop_stuck (fuel : Nat) :
    sdLoop fuel allMarkers (strL "xO:SY") initialSD = none := by
  induction fuel with
  | zero => rfl
  | succ fuel ih =>
    calc sdLoop (fuel + 1) allMarkers (strL "xO:SY") initialSD
        = sdLoop fuel allMarkers (strL "xO:SY") initialSD := rfl
      _ = none := ih

/-- C3: the component loop of `ParseSecurityDescriptorString` does **not**
terminate on every input.  On `"xO:SY"` a marker occurs in the string (so
the pre-check passes) but the text never begins with one, and the loop body
has no default advance: the state repeats forever, modelled by the
fuel-indexed semantics returning `none` for every finite iteration budget. -/
theorem C3_parser_nontermination (fuel : Nat) :
    ParseSecurityDescriptorStringFuel fuel (strL "xO:SY") = none :=
  sdLoop_stuck fuel

/-! ## Claim C2: SDDL string round trip — numeral and split infrastructure -/

lemma decDigitVal_decDigitChar : ∀ d, d < 10 →
    decDigitVal (decDigitChar d) = some d := by decide

lemma hexDigitVal_hexDigitChar : ∀ d, d < 16 →
    hexDigitVal (hexDigitChar d) = some d := by decide

lemma hexDigitVal_hexDigitCharUpper : ∀ d, d < 16 →
    hexDigitVal (hexDigitCharUpper d) = some d := by decide

lemma decDigitChar_not_dash : ∀ d, d < 10 → decDigitChar d ≠ '-' := by decide

lemma decDigitChar_not_x : ∀ d, d < 10 → decDigitChar d ≠ 'x' := by decide

lemma hexDigitChar_not_dash : ∀ d, d < 16 → hexDigitChar d ≠ '-' := by decide

lemma charLower_decDigitChar : ∀ d, d < 10 →
    charLower (decDigitChar d) = decDigitChar d := by decide

lemma digitsVal_append (dv : Char → Option Nat) (b : Nat) (s t : Str) :
    ∀ acc, digitsVal dv b (s ++ t) acc =
      match digitsVal dv b s acc with
      | none => none
      | some v => digitsVal dv b t v := by
  induction s with
  | nil => intro acc; rfl
  | cons c s ih =>
    intro acc
    cases hd : dv c with
    | none => simp [digitsVal, hd]
    | some d =>
      simp only [List.cons_append, digitsVal, hd]
      exact ih _

lemma natDecDigitsAux_val : ∀ f n, n ≤ f → ∀ acc,
    digitsVal decDigitVal 10 (natDecDigitsAux f n) acc =
      some (acc * 10 ^ (natDecDigitsAux f n).length + n) := by
  intro f
  induction f with
  | zero =>
    intro n hn acc
    have h0 : n = 0 := by omega
    subst h0
    simp [natDecDigitsAux, digitsVal]
  | succ f ih =>
    intro n hn acc
    cases n with
    | zero => simp [natDecDigitsAux, digitsVal]
    | succ m =>
      have hq : (m + 1) / 10 ≤ f := by omega
      simp only [natDecDigitsAux]
      rw [digitsVal_append, ih ((m + 1) / 10) hq acc]
      simp only []
      have hd := decDigitVal_decDigitChar ((m + 1) % 10) (by omega)
      simp only [digitsVal, hd]
      rw [List.length_append]
      simp only [List.length_cons, List.length_nil]
      congr 1
      rw [pow_succ, ← Nat.mul_assoc]
      omega

lemma natHexDigitsAux_val (dig : Nat → Char)
    (hdig : ∀ d, d < 16 → hexDigitVal (dig d) = some d) :
    ∀ f n, n ≤ f → ∀ acc,
    digitsVal hexDigitVal 16 (natHexDigitsAux dig f n) acc =
      some (acc * 16 ^ (natHexDigitsAux dig f n).length + n) := by
  intro f
  induction f with
  | zero =>
    intro n hn acc
    have h0 : n = 0 := by omega
    subst h0
    simp [natHexDigitsAux, digitsVal]
  | succ f ih =>
    intro n hn acc
    cases n with
    | zero => simp [natHexDigitsAux, digitsVal]
    | succ m =>
      have hq : (m + 1) / 16 ≤ f := by omega
      simp only [natHexDigitsAux]
      rw [digitsVal_append, ih ((m + 1) / 16) hq acc]
      simp only []
      have hd := hdig ((m + 1) % 16) (by omega)
      simp only [digitsVal, hd]
      rw [List.length_append]
      simp only [List.length_cons, List.length_nil]
      congr 1
      rw [pow_succ, ← Nat.mul_assoc]
      omega

lemma natDecDigitsAux_ne_nil (f n : Nat) (h1 : 1 ≤ n) (h2 : n ≤ f) :
    natDecDigitsAux f n ≠ [] := by
  cases f with
  | zero => omega
  | succ g =>
    cases n with
    | zero => omega
    | succ m => simp [natDecDigitsAux]

lemma natHexDigitsAux_ne_nil (dig : Nat → Char) (f n : Nat) (h1 : 1 ≤ n)
    (h2 : n ≤ f) : natHexDigitsAux dig f n ≠ [] := by
  cases f with
  | zero => omega
  | succ g =>
    cases n with
    | zero => omega
    | succ m => simp [natHexDigitsAux]

lemma natToDec_ne_nil (n : Nat) : natToDec n ≠ [] := by
  unfold natToDec
  by_cases h : n = 0
  · simp [h]
  · rw [if_neg h]
    exact natDecDigitsAux_ne_nil n n (by omega) le_rfl

lemma mem_natDecDigitsAux : ∀ f n c, c ∈ natDecDigitsAux f n →
    ∃ d, d < 10 ∧ c = decDigitChar d := by
  intro f
  induction f with
  | zero => intro n c hc; simp [natDecDigitsAux] at hc
  | succ f ih =>
    intro n c hc
    cases n with
    | zero => simp [natDecDigitsAux] at hc
    | succ m =>
      simp only [natDecDigitsAux, List.mem_append, List.mem_cons,
        List.not_mem_nil, or_false] at hc
      rcases hc with hc | hc
      · exact ih _ c hc
      · exact ⟨(m + 1) % 10, by omega, hc⟩

lemma mem_natHexDigitsAux (dig : Nat → Char) : ∀ f n c,
    c ∈ natHexDigitsAux dig f n → ∃ d, d < 16 ∧ c = dig d := by
  intro f
  induction f with
  | zero => intro n c hc; simp [natHexDigitsAux] at hc
  | succ f ih =>
    intro n c hc
    cases n with
    | zero => simp [natHexDigitsAux] at hc
    | succ m =>
      simp only [natHexDigitsAux, List.mem_append, List.mem_cons,
        List.not_mem_nil, or_false] at hc
      rcases hc with hc | hc
      · exact ih _ c hc
      · exact ⟨(m + 1) % 16, by omega, hc⟩

lemma mem_natToDec (n : Nat) (c : Char) (hc : c ∈ natToDec n) :
    ∃ d, d < 10 ∧ c = decDigitChar d := by
  unfold natToDec at hc
  by_cases h : n = 0
  · rw [if_pos h] at hc
    simp only [List.mem_cons, List.not_mem_nil, or_false] at hc
    exact ⟨0, by omega, by rw [hc]; rfl⟩
  · rw [if_neg h] at hc
    exact mem_natDecDigitsAux n n c hc

lemma mem_natToHex (n : Nat) (c : Char) (hc : c ∈ natToHex n) :
    ∃ d, d < 16 ∧ c = hexDigitChar d := by
  unfold natToHex at hc
  by_cases h : n = 0
  · rw [if_pos h] at hc
    simp only [List.mem_cons, List.not_mem_nil, or_false] at hc
    exact ⟨0, by omega, by rw [hc]; rfl⟩
  · rw [if_neg h] at hc
    exact mem_natHexDigitsAux hexDigitChar n n c hc

lemma parseUintDec_natToDec (bitSize n : Nat) (h : n < 2 ^ bitSize) :
    parseUintDec bitSize (natToDec n) = some n := by
  have hval : digitsVal decDigitVal 10 (natToDec n) 0 = some n := by
    unfold natToDec
    by_cases h0 : n = 0
    · rw [if_pos h0, h0]
      decide
    · rw [if_neg h0]
      unfold natDecDigits
      rw [natDecDigitsAux_val n n le_rfl 0]
      simp
  unfold parseUintDec parseUint
  rw [if_neg (natToDec_ne_nil n), hval]
  simp only []
  rw [if_pos h]

lemma natToHex_ne_nil (n : Nat) : natToHex n ≠ [] := by
  unfold natToHex
  by_cases h : n = 0
  · simp [h]
  · rw [if_neg h]
    exact natHexDigitsAux_ne_nil hexDigitChar n n (by omega) le_rfl

lemma parseUintHex_natToHex (bitSize n : Nat) (h : n < 2 ^ bitSize) :
    parseUintHex bitSize (natToHex n) = some n := by
  have hval : digitsVal hexDigitVal 16 (natToHex n) 0 = some n := by
    unfold natToHex
    by_cases h0 : n = 0
    · rw [if_pos h0, h0]
      decide
    · rw [if_neg h0]
      unfold natHexDigits
      rw [natHexDigitsAux_val hexDigitChar hexDigitVal_hexDigitChar
        n n le_rfl 0]
      simp
  unfold parseUintHex parseUint
  rw [if_neg (natToHex_ne_nil n), hval]
  simp only []
  rw [if_pos h]

lemma digitsVal_zeros : ∀ k acc,
    digitsVal hexDigitVal 16 (List.replicate k '0') acc =
      some (acc * 16 ^ k) := by
  intro k
  induction k with
  | zero => intro acc; simp [digitsVal]
  | succ k ih =>
    intro acc
    simp only [List.replicate_succ, digitsVal,
      show hexDigitVal '0' = some 0 from by decide]
    rw [ih (acc * 16 + 0)]
    congr 1
    rw [pow_succ]
    ring

lemma parseUintHex_pad (bitSize w n : Nat) (h : n < 2 ^ bitSize) :
    parseUintHex bitSize (natToHexUpperPad w n) = some n := by
  have hds : digitsVal hexDigitVal 16
      (if n = 0 then ['0'] else natHexDigits hexDigitCharUpper n) 0 =
        some n := by
    by_cases h0 : n = 0
    · rw [if_pos h0, h0]
      decide
    · rw [if_neg h0]
      unfold natHexDigits
      rw [natHexDigitsAux_val hexDigitCharUpper hexDigitVal_hexDigitCharUpper
        n n le_rfl 0]
      simp
  have hne : (if n = 0 then ['0'] else natHexDigits hexDigitCharUpper n) ≠
      [] := by
    by_cases h0 : n = 0
    · simp [h0]
    · rw [if_neg h0]
      exact natHexDigitsAux_ne_nil hexDigitCharUpper n n (by omega) le_rfl
  unfold natToHexUpperPad parseUintHex parseUint
  rw [if_neg (show ¬ (List.replicate
      (w - (if n = 0 then ['0'] else natHexDigits hexDigitCharUpper n).length)
      '0' ++ (if n = 0 then ['0'] else natHexDigits hexDigitCharUpper n)) = []
    from by
      intro hc
      exact hne (List.append_eq_nil.mp hc).2)]
  rw [digitsVal_append, digitsVal_zeros]
  simp only [Nat.zero_mul]
  rw [hds]
  simp only []
  rw [if_pos h]

lemma splitOnChar_nosep (sep : Char) : ∀ A, (∀ c ∈ A, c ≠ sep) →
    splitOnChar sep A = [A] := by
  intro A
  induction A with
  | nil => intro _; rfl
  | cons c r ih =>
    intro h
    have hc : c ≠ sep := h c (by simp)
    simp only [splitOnChar, if_neg hc]
    rw [ih (fun x hx => h x (by simp [hx]))]

lemma splitOnChar_sep_append (sep : Char) : ∀ A B, (∀ c ∈ A, c ≠ sep) →
    splitOnChar sep (A ++ sep :: B) = A :: splitOnChar sep B := by
  intro A
  induction A with
  | nil =>
    intro B _
    simp [splitOnChar]
  | cons c r ih =>
    intro B h
    have hc : c ≠ sep := h c (by simp)
    simp only [List.cons_append, splitOnChar, if_neg hc, List.append_eq]
    rw [ih B (fun x hx => h x (by simp [hx]))]

lemma splitOnChar_chain (sep : Char) : ∀ (toks : List Str) (A : Str),
    (∀ c ∈ A, c ≠ sep) → (∀ t ∈ toks, ∀ c ∈ t, c ≠ sep) →
    splitOnChar sep (A ++ (toks.map (fun t => sep :: t)).flatten) =
      A :: toks := by
  intro toks
  induction toks with
  | nil =>
    intro A hA _
    simp only [List.map_nil, List.flatten_nil, List.append_nil]
    exact splitOnChar_nosep sep A hA
  | cons t ts ih =>
    intro A hA htoks
    simp only [List.map_cons, List.flatten_cons, List.cons_append]
    rw [splitOnChar_sep_append sep A _ hA]
    rw [ih t (htoks t (by simp)) (fun u hu c hc => htoks u (by simp [hu]) c hc)]

/-! ## Claim C2: SID string round trip -/

/-- The authority token of `SID.String`: hex for values ≥ 2^32, decimal
otherwise (the `authority` let-binding of the source). -/
def sidAuthTok (s : SID) : Str :=
  if s.IdentifierAuthority ≥ 2 ^ 32 then
    '0' :: 'x' :: natToHex s.IdentifierAuthority
  else natToDec s.IdentifierAuthority

/-- The canonical `S-r-a-s₁-…` string of `SID.String` (its `sidStr`
let-binding), before the well-known-alias substitution. -/
def sidCanonical (s : SID) : Str :=
  'S' :: '-' :: natToDec s.Revision ++ '-' :: sidAuthTok s ++
    (s.SubAuthority.map (fun sa => '-' :: natToDec sa)).flatten

lemma SID_render_eq (s : SID) (hv : ValidSID s) :
    SID.render s = match sidAliasOf (sidCanonical s) with
      | some wk => .ok wk
      | none => .ok (sidCanonical s) := by
  obtain ⟨h1, h15, h48, h32⟩ := hv
  simp only [SID.render]
  rw [if_neg (show ¬ s.IdentifierAuthority ≥ 2 ^ 48 from by omega)]
  rw [if_neg (show ¬ s.SubAuthority.length > 15 from by omega)]
  rw [if_neg (show ¬ s.Revision ≠ 1 from by omega)]
  rfl

lemma strHasPre_0x_false (s : Str) (h : ∀ c ∈ s, c ≠ 'x') :
    strHasPre (strL "0x") s = false := by
  match s with
  | [] => rfl
  | [c] => simp [strL, strHasPre]
  | c1 :: c2 :: r =>
    have h2 : c2 ≠ 'x' := h c2 (by simp)
    simp [strL, strHasPre]
    intro _ hc
    exact h2 hc.symm

lemma parseSIDAuthority_tok (s : SID) (h48 : s.IdentifierAuthority < 2 ^ 48) :
    parseSIDAuthority (sidAuthTok s) = .ok s.IdentifierAuthority := by
  unfold sidAuthTok
  by_cases hby : s.IdentifierAuthority ≥ 2 ^ 32
  · rw [if_pos hby]
    unfold parseSIDAuthority
    have hlow : strToLower ('0' :: 'x' :: natToHex s.IdentifierAuthority) =
        '0' :: 'x' :: strToLower (natToHex s.IdentifierAuthority) := by
      simp [strToLower, show charLower '0' = '0' from by decide,
        show charLower 'x' = 'x' from by decide]
    rw [if_pos (show strHasPre (strL "0x")
        (strToLower ('0' :: 'x' :: natToHex s.IdentifierAuthority)) = true
      from by rw [hlow]; simp [strHasPre, strL])]
    rw [show ('0' :: 'x' :: natToHex s.IdentifierAuthority).drop 2 =
        natToHex s.IdentifierAuthority from rfl]
    rw [parseUintHex_natToHex 48 _ h48]
  · rw [if_neg hby]
    unfold parseSIDAuthority
    have hx : ∀ c ∈ strToLower (natToDec s.IdentifierAuthority), c ≠ 'x' := by
      intro c hc
      obtain ⟨c0, hc0, hcl⟩ := List.mem_map.mp hc
      obtain ⟨d, hd, hcd⟩ := mem_natToDec _ c0 hc0
      rw [← hcl, hcd, charLower_decDigitChar d hd]
      exact decDigitChar_not_x d hd
    have hf := strHasPre_0x_false _ hx
    rw [if_neg (by simp [hf])]
    rw [parseUintDec_natToDec 48 _ h48]

lemma parseSubAuthList_map (subs : List Nat) (h : ∀ x ∈ subs, x < 2 ^ 32) :
    parseSubAuthList (subs.map natToDec) = .ok subs := by
  induction subs with
  | nil => rfl
  | cons x xs ih =>
    simp only [List.map_cons, parseSubAuthList,
      parseUintDec_natToDec 32 x (h x (by simp))]
    rw [ih (fun y hy => h y (by simp [hy]))]

lemma sidAuthTok_no_dash (s : SID) : ∀ c ∈ sidAuthTok s, c ≠ '-' := by
  intro c hc
  unfold sidAuthTok at hc
  by_cases hby : s.IdentifierAuthority ≥ 2 ^ 32
  · rw [if_pos hby] at hc
    simp only [List.mem_cons] at hc
    rcases hc with hc | hc | hc
    · rw [hc]; decide
    · rw [hc]; decide
    · obtain ⟨d, hd, hcd⟩ := mem_natToHex _ c hc
      rw [hcd]
      exact hexDigitChar_not_dash d hd
  · rw [if_neg hby] at hc
    obtain ⟨d, hd, hcd⟩ := mem_natToDec _ c hc
    rw [hcd]
    exact decDigitChar_not_dash d hd

lemma natToDec_no_dash (n : Nat) : ∀ c ∈ natToDec n, c ≠ '-' := by
  intro c hc
  obtain ⟨d, hd, hcd⟩ := mem_natToDec _ c hc
  rw [hcd]
  exact decDigitChar_not_dash d hd

lemma sidCanonical_split (s : SID) :
    splitOnChar '-' ((sidCanonical s).drop 2) =
      natToDec s.Revision :: sidAuthTok s :: s.SubAuthority.map natToDec := by
  have hdrop : (sidCanonical s).drop 2 =
      natToDec s.Revision ++ '-' :: (sidAuthTok s ++
        (s.SubAuthority.map (fun sa => '-' :: natToDec sa)).flatten) := by
    unfold sidCanonical
    rw [show (2 : Nat) = (['S', '-'] : Str).length from rfl]
    rw [show ('S' :: '-' :: natToDec s.Revision ++ '-' :: sidAuthTok s ++
        (s.SubAuthority.map (fun sa => '-' :: natToDec sa)).flatten : Str) =
        ['S', '-'] ++ (natToDec s.Revision ++ '-' :: (sidAuthTok s ++
          (s.SubAuthority.map (fun sa => '-' :: natToDec sa)).flatten))
      from by simp]
    rw [List.drop_left]
  rw [hdrop]
  rw [splitOnChar_sep_append '-' _ _ (natToDec_no_dash s.Revision)]
  rw [show (s.SubAuthority.map (fun sa => '-' :: natToDec sa)) =
      ((s.SubAuthority.map natToDec).map (fun t => '-' :: t)) from by
    rw [List.map_map]; rfl]
  rw [splitOnChar_chain '-' (s.SubAuthority.map natToDec) (sidAuthTok s)
    (sidAuthTok_no_dash s) (by
      intro t ht c hc
      obtain ⟨x, hx, hxt⟩ := List.mem_map.mp ht
      rw [← hxt] at hc
      exact natToDec_no_dash x c hc)]

lemma sidCanonical_pre (s : SID) :
    strHasPre (strL "S-") (sidCanonical s) = true := by
  show strHasPre ['S', '-'] ('S' :: '-' :: _) = true
  simp [strHasPre]

lemma sidCanonical_dash (s : SID) : '-' ∈ sidCanonical s := by
  unfold sidCanonical
  simp

lemma sidOfAlias_dash (str : Str) (h : '-' ∈ str) :
    sidOfAlias str = none := by
  unfold sidOfAlias
  have hnd : ∀ q ∈ wellKnownSids, '-' ∉ q.2 := by decide
  have hf : wellKnownSids.find? (fun p => p.2 = str) = none := by
    rw [List.find?_eq_none]
    intro p hp
    simp only [decide_eq_true_eq]
    intro hc
    exact hnd p hp (hc.symm ▸ h)
  rw [hf]
  rfl

lemma sid_alias_coherent : ∀ q ∈ wellKnownSids, sidOfAlias q.2 = some q.1 := by
  decide

/-- The body of `parseSIDString` succeeds on a well-shaped token; `eff` is
the post-alias-substitution string. -/
lemma parseSIDString_build2 (tok eff : Str) (a : Nat) (subs : List Nat)
    (p0 p1 : Str) (rest : List Str)
    (halias : sidOfAlias tok = some eff ∨
      (sidOfAlias tok = none ∧ tok = eff))
    (hpre : strHasPre (strL "S-") eff = true)
    (hsplit : splitOnChar '-' (eff.drop 2) = p0 :: p1 :: rest)
    (hrev : parseUintDec 8 p0 = some 1)
    (hauth : parseSIDAuthority p1 = .ok a) (ha : a < 2 ^ 48)
    (hlen : rest.length ≤ 15)
    (hsubs : parseSubAuthList rest = .ok subs) :
    parseSIDString tok = .ok ⟨1, a, subs⟩ := by
  rcases halias with h | ⟨h, rfl⟩
  · simp only [parseSIDString, h]
    rw [if_neg (not_not_intro hpre), hsplit]
    simp only []
    rw [hrev]
    simp only []
    rw [if_neg (show ¬ (1 : Nat) ≠ 1 from by omega)]
    rw [hauth]
    simp only []
    rw [if_neg (show ¬ a ≥ 2 ^ 48 from by omega)]
    rw [if_neg (show ¬ rest.length > 15 from by omega)]
    rw [hsubs]
  · simp only [parseSIDString, h]
    rw [if_neg (not_not_intro hpre), hsplit]
    simp only []
    rw [hrev]
    simp only []
    rw [if_neg (show ¬ (1 : Nat) ≠ 1 from by omega)]
    rw [hauth]
    simp only []
    rw [if_neg (show ¬ a ≥ 2 ^ 48 from by omega)]
    rw [if_neg (show ¬ rest.length > 15 from by omega)]
    rw [hsubs]

lemma sid_canonical_parse (s : SID) (hv : ValidSID s) (tok : Str)
    (halias : sidOfAlias tok = some (sidCanonical s) ∨
      (sidOfAlias tok = none ∧ tok = sidCanonical s)) :
    parseSIDString tok = .ok s := by
  obtain ⟨h1, h15, h48, h32⟩ := hv
  have hsplit := sidCanonical_split s
  rw [h1] at hsplit
  have hres := parseSIDString_build2 tok (sidCanonical s) s.IdentifierAuthority
    s.SubAuthority (natToDec 1) (sidAuthTok s) (s.SubAuthority.map natToDec)
    halias (sidCanonical_pre s) hsplit
    (by rw [show natToDec 1 = ['1'] from rfl]; decide)
    (parseSIDAuthority_tok s h48) h48
    (by rw [List.length_map]; exact h15)
    (parseSubAuthList_map s.SubAuthority h32)
  rw [hres]
  obtain ⟨rev, auth, subs⟩ := s
  simp only [] at h1
  rw [h1]

/-- C2 conjunct 1, standalone: parsing the rendered form of any valid SID
recovers it, through the well-known-alias substitution when one applies. -/
lemma sid_render_parse (s : SID) (hv : ValidSID s) (str : Str)
    (hr : SID.render s = .ok str) : parseSIDString str = .ok s := by
  rw [SID_render_eq s hv] at hr
  cases hal : sidAliasOf (sidCanonical s) with
  | none =>
    rw [hal] at hr
    simp only [Except.ok.injEq] at hr
    subst hr
    exact sid_canonical_parse s hv _ (Or.inr
      ⟨sidOfAlias_dash _ (sidCanonical_dash s), rfl⟩)
  | some wk =>
    rw [hal] at hr
    simp only [Except.ok.injEq] at hr
    subst hr
    unfold sidAliasOf at hal
    obtain ⟨q, hfind, hq2⟩ := Option.map_eq_some'.mp hal
    have hqmem := List.mem_of_find?_eq_some hfind
    have hqpred : q.1 = sidCanonical s := by
      simpa using List.find?_some hfind
    have hcoh : sidOfAlias wk = some (sidCanonical s) := by
      rw [← hq2, ← hqpred]
      exact sid_alias_coherent q hqmem
    exact sid_canonical_parse s hv wk (Or.inl hcoh)

/-! ## Claim C2: access-mask round trip and the claim theorems -/

lemma mask_alias_coherent : ∀ q ∈ wellKnownAccessMasks,
    maskOfAlias q.2 = some q.1 := by decide

lemma parseAccessMask_of_alias (m : Nat) (astr : Str)
    (h : maskAliasOf m = some astr) : parseAccessMask astr = .ok m := by
  unfold maskAliasOf at h
  obtain ⟨q, hfind, hq2⟩ := Option.map_eq_some'.mp h
  have hqmem := List.mem_of_find?_eq_some hfind
  have hqpred : q.1 = m := by simpa using List.find?_some hfind
  unfold parseAccessMask
  rw [show maskOfAlias astr = some q.1 from hq2 ▸ mask_alias_coherent q hqmem]
  simp only []
  rw [hqpred]

lemma maskOfAlias_long (str : Str) (h : 3 ≤ str.length) :
    maskOfAlias str = none := by
  unfold maskOfAlias
  have hf : wellKnownAccessMasks.find? (fun p => p.2 = str) = none := by
    rw [List.find?_eq_none]
    intro p hp
    simp only [decide_eq_true_eq]
    intro hc
    have h2 : p.2.length = 2 := by fin_cases hp <;> rfl
    rw [hc] at h2
    omega
  rw [hf]
  rfl

lemma natToHexUpperPad_len (w n : Nat) :
    w ≤ (natToHexUpperPad w n).length := by
  unfold natToHexUpperPad
  simp only [List.length_append, List.length_replicate]
  omega

lemma parseAccessMask_hexLit (m : Nat) (h32 : m < 2 ^ 32) :
    parseAccessMask ('0' :: 'x' :: natToHexUpperPad 8 m) = .ok m := by
  unfold parseAccessMask
  rw [maskOfAlias_long _ (by
    simp only [List.length_cons]
    have := natToHexUpperPad_len 8 m
    omega)]
  simp only []
  rw [if_pos (show strHasPre (strL "0x")
      ('0' :: 'x' :: natToHexUpperPad 8 m) = true from by
    simp [strHasPre, strL])]
  rw [show ('0' :: 'x' :: natToHexUpperPad 8 m).drop 2 =
      natToHexUpperPad 8 m from rfl]
  rw [parseUintHex_pad 32 8 m h32]

lemma aceMaskString_hexLit (m : Nat) (halias : maskAliasOf m = none)
    (hnz : (decomposeAccessMask m).2 ≠ 0) :
    aceMaskString m = '0' :: 'x' :: natToHexUpperPad 8 m := by
  unfold aceMaskString
  rw [halias]
  simp only []
  rw [if_pos hnz]

/-! ### ACE-level round trip -/

instance {α : Type _} [DecidableEq α] : DecidableEq (Except String α) :=
  fun a b =>
    match a, b with
    | .ok x, .ok y =>
      if h : x = y then isTrue (by rw [h])
      else isFalse (fun hc => h (Except.ok.inj hc))
    | .error x, .error y =>
      if h : x = y then isTrue (by rw [h])
      else isFalse (fun hc => h (Except.error.inj hc))
    | .ok _, .error _ => isFalse (fun hc => Except.noConfusion hc)
    | .error _, .ok _ => isFalse (fun hc => Except.noConfusion hc)

set_option maxRecDepth 8000 in
/-- Bounded check: for allow/deny ACEs, a flag byte confined to the four
rendered inheritance bits (OI 0x01, CI 0x02, IO 0x08, ID 0x10 — everything
else, including `NO_PROPAGATE_INHERIT_ACE`, is never rendered) survives the
render/parse round trip, and its rendering contains no `;`. -/
lemma aceFlags_facts : ∀ f, f < 256 → f &&& 228 = 0 →
    parseFlagsForACEType (aceFlagsString ACCESS_ALLOWED_ACE_TYPE f)
      ACCESS_ALLOWED_ACE_TYPE = .ok f ∧
    parseFlagsForACEType (aceFlagsString ACCESS_DENIED_ACE_TYPE f)
      ACCESS_DENIED_ACE_TYPE = .ok f ∧
    (∀ c ∈ aceFlagsString ACCESS_ALLOWED_ACE_TYPE f, c ≠ ';') ∧
    (∀ c ∈ aceFlagsString ACCESS_DENIED_ACE_TYPE f, c ≠ ';') := by decide

lemma decDigitChar_not_semi : ∀ d, d < 10 → decDigitChar d ≠ ';' := by decide

lemma hexDigitChar_not_semi : ∀ d, d < 16 → hexDigitChar d ≠ ';' := by decide

lemma hexDigitCharUpper_not_semi : ∀ d, d < 16 →
    hexDigitCharUpper d ≠ ';' := by decide

lemma natToDec_no_semi (n : Nat) : ∀ c ∈ natToDec n, c ≠ ';' := by
  intro c hc
  obtain ⟨d, hd, hcd⟩ := mem_natToDec _ c hc
  rw [hcd]
  exact decDigitChar_not_semi d hd

lemma natToHex_no_semi (n : Nat) : ∀ c ∈ natToHex n, c ≠ ';' := by
  intro c hc
  obtain ⟨d, hd, hcd⟩ := mem_natToHex _ c hc
  rw [hcd]
  exact hexDigitChar_not_semi d hd

lemma mem_natToHexUpperPad (w n : Nat) (c : Char)
    (hc : c ∈ natToHexUpperPad w n) :
    c = '0' ∨ ∃ d, d < 16 ∧ c = hexDigitCharUpper d := by
  unfold natToHexUpperPad at hc
  simp only [List.mem_append, List.mem_replicate] at hc
  rcases hc with ⟨_, hc⟩ | hc
  · exact Or.inl hc
  · by_cases h0 : n = 0
    · rw [if_pos h0] at hc
      simp only [List.mem_cons, List.not_mem_nil, or_false] at hc
      exact Or.inl hc
    · rw [if_neg h0] at hc
      exact Or.inr (mem_natHexDigitsAux hexDigitCharUpper n n c hc)

lemma natToHexUpperPad_no_semi (w n : Nat) :
    ∀ c ∈ natToHexUpperPad w n, c ≠ ';' := by
  intro c hc
  rcases mem_natToHexUpperPad w n c hc with hc | ⟨d, hd, hcd⟩
  · rw [hc]; decide
  · rw [hcd]
    exact hexDigitCharUpper_not_semi d hd

lemma sidAuthTok_no_semi (s : SID) : ∀ c ∈ sidAuthTok s, c ≠ ';' := by
  intro c hc
  unfold sidAuthTok at hc
  by_cases hby : s.IdentifierAuthority ≥ 2 ^ 32
  · rw [if_pos hby] at hc
    rcases List.mem_cons.mp hc with hc | hc
    · rw [hc]; decide
    · rcases List.mem_cons.mp hc with hc | hc
      · rw [hc]; decide
      · exact natToHex_no_semi _ c hc
  · rw [if_neg hby] at hc
    exact natToDec_no_semi _ c hc

lemma sidCanonical_no_semi (s : SID) : ∀ c ∈ sidCanonical s, c ≠ ';' := by
  intro c hc
  unfold sidCanonical at hc
  rcases List.mem_append.mp hc with hc | hc
  · rcases List.mem_cons.mp hc with hc | hc
    · rw [hc]; decide
    · rcases List.mem_cons.mp hc with hc | hc
      · rw [hc]; decide
      · rcases List.mem_append.mp hc with hc | hc
        · exact natToDec_no_semi _ c hc
        · rcases List.mem_cons.mp hc with hc | hc
          · rw [hc]; decide
          · exact sidAuthTok_no_semi s c hc
  · obtain ⟨l, hl, hcl⟩ := List.mem_flatten.mp hc
    obtain ⟨x, hx, hxl⟩ := List.mem_map.mp hl
    rw [← hxl] at hcl
    rcases List.mem_cons.mp hcl with hcl | hcl
    · rw [hcl]; decide
    · exact natToDec_no_semi x c hcl

lemma sid_alias_no_semi : ∀ q ∈ wellKnownSids, ∀ c ∈ q.2, c ≠ ';' := by
  decide

lemma mask_alias_no_semi : ∀ q ∈ wellKnownAccessMasks, ∀ c ∈ q.2, c ≠ ';' := by
  decide

/-- The rendered form of a valid SID contains no `;`. -/
lemma sid_render_no_semi (s : SID) (hv : ValidSID s) (str : Str)
    (hr : SID.render s = .ok str) : ∀ c ∈ str, c ≠ ';' := by
  rw [SID_render_eq s hv] at hr
  cases hal : sidAliasOf (sidCanonical s) with
  | none =>
    rw [hal] at hr
    simp only [Except.ok.injEq] at hr
    subst hr
    exact sidCanonical_no_semi s
  | some wk =>
    rw [hal] at hr
    simp only [Except.ok.injEq] at hr
    subst hr
    unfold sidAliasOf at hal
    obtain ⟨q, hfind, hq2⟩ := Option.map_eq_some'.mp hal
    have hqmem := List.mem_of_find?_eq_some hfind
    rw [← hq2]
    exact sid_alias_no_semi q hqmem

lemma aceMaskString_of_alias (m : Nat) (astr : Str)
    (h : maskAliasOf m = some astr) : aceMaskString m = astr := by
  unfold aceMaskString
  rw [h]

/-- For a mask with an alias, or a 32-bit mask rendered as a hex literal,
the rendered mask string parses back and contains no `;`. -/
lemma mask_str_facts (m : Nat)
    (hm : maskAliasOf m ≠ none ∨
      (m < 2 ^ 32 ∧ (decomposeAccessMask m).2 ≠ 0)) :
    parseAccessMask (aceMaskString m) = .ok m ∧
    ∀ c ∈ aceMaskString m, c ≠ ';' := by
  cases hal : maskAliasOf m with
  | some astr =>
    rw [aceMaskString_of_alias m astr hal]
    refine ⟨parseAccessMask_of_alias m astr hal, ?_⟩
    unfold maskAliasOf at hal
    obtain ⟨q, hfind, hq2⟩ := Option.map_eq_some'.mp hal
    have hqmem := List.mem_of_find?_eq_some hfind
    rw [← hq2]
    exact mask_alias_no_semi q hqmem
  | none =>
    rcases hm with hm | ⟨h32, hnz⟩
    · exact absurd hal hm
    · rw [aceMaskString_hexLit m hal hnz]
      refine ⟨parseAccessMask_hexLit m h32, ?_⟩
      intro c hc
      rcases List.mem_cons.mp hc with hc | hc
      · rw [hc]; decide
      · rcases List.mem_cons.mp hc with hc | hc
        · rw [hc]; decide
        · exact natToHexUpperPad_no_semi 8 m c hc

/-- The conditions under which an allow/deny ACE's SDDL rendering is
guaranteed to parse back to it: a renderable flag byte (only the four
inheritance bits that `ACE.String` emits), a valid trustee SID, the stored
`AceSize` matching the SID (as both codecs compute it), and a mask that is
either aliased or rendered as a hex literal. -/
def ACEStrOK (e : ACE) : Prop :=
  (e.Header.AceType = ACCESS_ALLOWED_ACE_TYPE ∨
    e.Header.AceType = ACCESS_DENIED_ACE_TYPE) ∧
  e.Header.AceFlags < 256 ∧ e.Header.AceFlags &&& 228 = 0 ∧
  ValidSID e.SID ∧
  e.Header.AceSize = 16 + 4 * e.SID.SubAuthority.length ∧
  (maskAliasOf e.AccessMask ≠ none ∨
    (e.AccessMask < 2 ^ 32 ∧ (decomposeAccessMask e.AccessMask).2 ≠ 0))

instance (e : ACE) : Decidable (ACEStrOK e) := by
  unfold ACEStrOK; infer_instance

/-- C2 ACE conjunct, standalone: parsing the rendered form of a renderable
allow/deny ACE recovers it. -/
lemma ace_render_parse (e : ACE) (hok : ACEStrOK e) (str : Str)
    (hr : ACE.render e = .ok str) : parseACEString str = .ok e := by
  obtain ⟨htype, hflt, hflbits, hsid, hsize, hmask⟩ := hok
  unfold ACE.render at hr
  cases hsr : SID.render e.SID with
  | error err => rw [hsr] at hr; exact absurd hr (by simp)
  | ok sidStr =>
    rw [hsr] at hr
    simp only [Except.ok.injEq] at hr
    subst hr
    obtain ⟨hmaskP, hmaskS⟩ := mask_str_facts e.AccessMask hmask
    have hsidP := sid_render_parse e.SID hsid sidStr hsr
    have hsidS := sid_render_no_semi e.SID hsid sidStr hsr
    have hFL := aceFlags_facts e.Header.AceFlags hflt hflbits
    have hT : ∀ c ∈ aceTypeString e.Header.AceType, c ≠ ';' := by
      rcases htype with ht | ht <;> rw [ht] <;> decide
    have hTtype : parseACEType (aceTypeString e.Header.AceType) =
        .ok e.Header.AceType := by
      rcases htype with ht | ht <;> rw [ht] <;> decide
    have hFlags : parseFlagsForACEType
        (aceFlagsString e.Header.AceType e.Header.AceFlags)
        e.Header.AceType = .ok e.Header.AceFlags := by
      rcases htype with ht | ht
      · rw [ht]; exact hFL.1
      · rw [ht]; exact hFL.2.1
    have htoks : ∀ t' ∈ [aceFlagsString e.Header.AceType e.Header.AceFlags,
        aceMaskString e.AccessMask, ([] : Str), ([] : Str), sidStr],
        ∀ c ∈ t', c ≠ ';' := by
      intro t' ht' c hc
      simp only [List.mem_cons, List.not_mem_nil, or_false] at ht'
      rcases ht' with h | h | h | h | h
      · subst h
        rcases htype with ht | ht
        · rw [ht] at hc
          exact hFL.2.2.1 c hc
        · rw [ht] at hc
          exact hFL.2.2.2 c hc
      · subst h
        exact hmaskS c hc
      · subst h
        simp at hc
      · subst h
        simp at hc
      · subst h
        exact hsidS c hc
    have hshape : ('(' :: aceTypeString e.Header.AceType ++
          ';' :: aceFlagsString e.Header.AceType e.Header.AceFlags ++
          ';' :: aceMaskString e.AccessMask ++
          ';' :: ';' :: ';' :: sidStr ++ [')'] : Str) =
        '(' :: ((aceTypeString e.Header.AceType ++
          ([aceFlagsString e.Header.AceType e.Header.AceFlags,
            aceMaskString e.AccessMask, ([] : Str), ([] : Str),
            sidStr].map (fun t => ';' :: t)).flatten) ++ [')']) := by
      simp [List.append_assoc]
    rw [hshape]
    have hparts : splitOnChar ';'
        ((('(' :: ((aceTypeString e.Header.AceType ++
          ([aceFlagsString e.Header.AceType e.Header.AceFlags,
            aceMaskString e.AccessMask, ([] : Str), ([] : Str),
            sidStr].map (fun t => ';' :: t)).flatten) ++ [')'])).drop
              1).dropLast) =
        [aceTypeString e.Header.AceType,
         aceFlagsString e.Header.AceType e.Header.AceFlags,
         aceMaskString e.AccessMask, [], [], sidStr] := by
      rw [show (('(' :: ((aceTypeString e.Header.AceType ++
          ([aceFlagsString e.Header.AceType e.Header.AceFlags,
            aceMaskString e.AccessMask, ([] : Str), ([] : Str),
            sidStr].map (fun t => ';' :: t)).flatten) ++ [')'])).drop 1) =
        (aceTypeString e.Header.AceType ++
          ([aceFlagsString e.Header.AceType e.Header.AceFlags,
            aceMaskString e.AccessMask, ([] : Str), ([] : Str),
            sidStr].map (fun t => ';' :: t)).flatten) ++ [')'] from rfl]
      rw [List.dropLast_concat]
      exact splitOnChar_chain ';' _ _ hT htoks
    simp only [parseACEString]
    rw [if_neg (show ¬ (('(' :: ((aceTypeString e.Header.AceType ++
        ([aceFlagsString e.Header.AceType e.Header.AceFlags,
          aceMaskString e.AccessMask, ([] : Str), ([] : Str),
          sidStr].map (fun t => ';' :: t)).flatten) ++ [')'])).length < 2 ∨
        ¬ strHasPre (strL "(") ('(' :: ((aceTypeString e.Header.AceType ++
          ([aceFlagsString e.Header.AceType e.Header.AceFlags,
            aceMaskString e.AccessMask, ([] : Str), ([] : Str),
            sidStr].map (fun t => ';' :: t)).flatten) ++ [')'])) = true ∨
        ¬ strHasSuf ('(' :: ((aceTypeString e.Header.AceType ++
          ([aceFlagsString e.Header.AceType e.Header.AceFlags,
            aceMaskString e.AccessMask, ([] : Str), ([] : Str),
            sidStr].map (fun t => ';' :: t)).flatten) ++ [')']))
          (strL ")") = true) from by
      simp only [not_or]
      refine ⟨?_, ?_, ?_⟩
      · simp only [List.length_cons, List.length_append]
        omega
      · simp [strHasPre, strL]
      · unfold strHasSuf
        simp [strHasPre, strL, List.reverse_cons, List.reverse_append])]
    rw [hparts]
    rw [if_neg (show ¬ ([aceTypeString e.Header.AceType,
        aceFlagsString e.Header.AceType e.Header.AceFlags,
        aceMaskString e.AccessMask, ([] : Str), ([] : Str),
        sidStr].length ≠ 6) from by simp)]
    rw [show ([aceTypeString e.Header.AceType,
        aceFlagsString e.Header.AceType e.Header.AceFlags,
        aceMaskString e.AccessMask, ([] : Str), ([] : Str),
        sidStr].getD 0 []) = aceTypeString e.Header.AceType from rfl]
    rw [hTtype]
    simp only []
    rw [show ([aceTypeString e.Header.AceType,
        aceFlagsString e.Header.AceType e.Header.AceFlags,
        aceMaskString e.AccessMask, ([] : Str), ([] : Str),
        sidStr].getD 1 []) =
        aceFlagsString e.Header.AceType e.Header.AceFlags from rfl]
    rw [hFlags]
    simp only []
    rw [show ([aceTypeString e.Header.AceType,
        aceFlagsString e.Header.AceType e.Header.AceFlags,
        aceMaskString e.AccessMask, ([] : Str), ([] : Str),
        sidStr].getD 2 []) = aceMaskString e.AccessMask from rfl]
    rw [hmaskP]
    simp only []
    rw [show ([aceTypeString e.Header.AceType,
        aceFlagsString e.Header.AceType e.Header.AceFlags,
        aceMaskString e.AccessMask, ([] : Str), ([] : Str),
        sidStr].getD 5 []) = sidStr from rfl]
    rw [hsidP]
    simp only [Except.ok.injEq]
    have hlen15 : e.SID.SubAuthority.length ≤ 15 := hsid.2.1
    obtain ⟨⟨t0, f0, sz0⟩, m0, sid0⟩ := e
    simp only [] at hsize hlen15
    have hsz : (4 + 4 + (8 + 4 * sid0.SubAuthority.length)) % 65536 = sz0 := by
      omega
    rw [hsz]

/-- The descriptor of spec Example 4,
`"O:SYG:BAD:(A;;FA;;;SY)(D;;FR;;;WD)"`: owner SY, group BA, a DACL with an
allow-FA-SY ACE then a deny-FR-WD ACE, control
`SE_SELF_RELATIVE ||| SE_DACL_PRESENT ||| SE_GROUP_DEFAULTED` (0x8024, the
group-defaulted bit being toggled by the parser's XOR update). -/
def sdEx4 : SecurityDescriptor :=
  ⟨1, 0, 0x8024, 0, 0, 0, 0, some ⟨1, 5, [18]⟩, some ⟨1, 5, [32, 544]⟩, none,
    some ⟨2, 0, 48, 2, 0, ['D'], 0x8024,
      [⟨⟨0, 0, 20⟩, 0x1f01ff, ⟨1, 5, [18]⟩⟩,
       ⟨⟨1, 0, 20⟩, 0x120089, ⟨1, 1, [0]⟩⟩]⟩⟩

/-- A §3-valid descriptor whose single ACE has access mask 1, which renders
as the component code `CC`. -/
def sdC2cex : SecurityDescriptor :=
  ⟨1, 0, 0x8004, 0, 0, 0, 0, none, none, none,
    some ⟨2, 0, 28, 1, 0, ['D'], 0x8004, [⟨⟨0, 0, 20⟩, 1, ⟨1, 5, [18]⟩⟩]⟩⟩

/-- C2 counterexample: the string round trip fails on a valid descriptor —
mask 1 renders as the decomposed component code `CC`, but `parseAccessMask`
accepts only registered aliases and `0x` literals, so parsing the rendering
of `sdC2cex` errors instead of recovering it. -/
theorem C2_string_round_trip_counterexample :
    SpecValidSD sdC2cex ∧
    SecurityDescriptor.render sdC2cex = .ok (strL "D:(A;;CC;;;SY)") ∧
    ParseSecurityDescriptorString (strL "D:(A;;CC;;;SY)") =
      some (.error
        "error parsing DACL: invalid ACL: error parsing ACE: invalid access mask: unknown access mask") :=
  ⟨by decide, rfl, rfl⟩

/-- C2 (amended): the string round trip holds componentwise where the
grammar is reversible — every valid SID parses back from its rendering
(through the alias table when one applies), every aliased mask parses back
from its alias, every 32-bit mask that falls back to the `0x` literal (no
alias, non-zero decomposition leftover) parses back from its rendering,
and every renderable allow/deny ACE (flags confined to the four rendered
inheritance bits, valid SID, matching stored size, aliased or hex-rendered
mask) parses back from its rendering — and end to end on the spec's
Example 4, whose parsed control word is recomputed from component presence
(0x8024) rather than copied.  (As claimed for *every* valid descriptor it
is false: masks rendered as decomposed component codes do not re-parse,
see the counterexample.) -/
theorem C2_string_round_trip :
    (∀ s : SID, ValidSID s → ∀ str, SID.render s = .ok str →
      parseSIDString str = .ok s) ∧
    (∀ m astr, maskAliasOf m = some astr → parseAccessMask astr = .ok m) ∧
    (∀ m, m < 2 ^ 32 → maskAliasOf m = none →
      (decomposeAccessMask m).2 ≠ 0 →
      parseAccessMask (aceMaskString m) = .ok m) ∧
    (∀ e : ACE, ACEStrOK e → ∀ str, ACE.render e = .ok str →
      parseACEString str = .ok e) ∧
    ParseSecurityDescriptorString
      (strL "O:SYG:BAD:(A;;FA;;;SY)(D;;FR;;;WD)") = some (.ok sdEx4) ∧
    SecurityDescriptor.render sdEx4 =
      .ok (strL "O:SYG:BAD:(A;;FA;;;SY)(D;;FR;;;WD)") := by
  refine ⟨sid_render_parse, parseAccessMask_of_alias, ?_, ace_render_parse,
    rfl, rfl⟩
  intro m h32 halias hnz
  rw [aceMaskString_hexLit m halias hnz]
  exact parseAccessMask_hexLit m h32

/-- A valid SID with several sub-authorities, for the C2 witness. -/
def sidC2w : SID := ⟨1, 5, [21, 100, 200, 300]⟩

/-- An allow ACE with the container-inherit flag, the FA-aliased mask and
the SY trustee, for the C2 witness; it renders to `"(A;CI;FA;;;SY)"`. -/
def aceC2w : ACE := ⟨⟨0, 2, 20⟩, 0x1f01ff, ⟨1, 5, [18]⟩⟩

theorem C2_string_round_trip_witness :
    parseSIDString (strL "S-1-5-21-100-200-300") = .ok sidC2w ∧
    parseAccessMask (strL "FA") = .ok 0x1f01ff ∧
    parseAccessMask (aceMaskString 512) = .ok 512 ∧
    parseACEString (strL "(A;CI;FA;;;SY)") = .ok aceC2w :=
  ⟨C2_string_round_trip.1 sidC2w (by decide)
      (strL "S-1-5-21-100-200-300") (by rfl),
   C2_string_round_trip.2.1 0x1f01ff (strL "FA") (by rfl),
   C2_string_round_trip.2.2.1 512 (by norm_num) (by rfl) (by decide),
   C2_string_round_trip.2.2.2.1 aceC2w (by decide) (strL "(A;CI;FA;;;SY)")
     (by rfl)⟩

end SDDL
